import Mathlib

/-!
# Lua RTOS driver basics: registry lookup, error messages and unit locks

A shallow embedding of `components/lua_rtos/sys/driver.c`.

Conventions of the embedding

* `drivers[]` is the link-time array of `driver_t`, closed by an entry whose
  `name` is `NULL`.  It is a `List driver_t` holding the entries before that
  closing entry, so a loop `while (cdriver->name) { ...; cdriver++; }` is a
  recursion over the list.
* A `const driver_t *` is the position of the descriptor in `drivers[]`
  (a `Nat`); a nullable one is an `Option Nat`.  Dereferencing a position
  outside the registry has no defined result: the function returns `none`.
* An error table (`driver->error`) is the array of `driver_message_t` as it
  lies in memory: a row with `message = none` is the `NULL` row that closes
  the table (the end of the list closes it as well).
* The lock array of a driver (`driver->lock`, with `driver->locks` elements)
  is an `Option (List driver_unit_lock_t)`: `none` is `NULL`, and the element
  count `locks` is the length of the list.  The slots are the only mutable
  part of a descriptor, so the state of the lock table is the registry itself.
  Indexing the array outside `0 .. locks - 1` has no defined result (`none`).
* `int` values are `Int`, `uint32_t` and `uint8_t` values are `Nat`.
  `owner_unit << 8` wraps to 32 bits.  `SPI_BUS_DEVICES` and
  `I2C_BUS_DEVICES` come from headers outside this development and are
  parameters (`BusDevices`).
* A `lock_resources` callback is driver code that may call `driver_lock`,
  `driver_unlock` and `driver_unlock_all` itself: it is a function of its three
  arguments and of the lock table it starts on (`lock_table`), and returns the
  lock table it leaves together with its result.
* `driver_mtx` serialises the functions below; each function is embedded as
  the state transformer it is while it holds (or has released) the mutex.
  The mutex itself is explicit state in `driver_lock_events` and `mtx_run`, and
  in the two-thread step model `thread_step`.
-/

set_option maxRecDepth 8192

namespace LuaRTOS

/-! ## Data model -/

/-- The constants `SPI_BUS_DEVICES` and `I2C_BUS_DEVICES` (devices per bus). -/
structure BusDevices where
  SPI_BUS_DEVICES : Nat
  I2C_BUS_DEVICES : Nat
deriving DecidableEq, Repr

/-- One row of an error table: `{exception, message}`; `message = none` is `NULL`. -/
structure driver_message_t where
  exception : Nat
  message : Option String
deriving DecidableEq, Repr

/-- One lock slot: `owner` (a `const driver_t *`, `none` is `NULL`), `unit`, `tag`. -/
structure driver_unit_lock_t where
  owner : Option Nat
  unit : Int
  tag : Option String
deriving DecidableEq, Repr

/-- The lock error built by `driver_lock`; `lock` points at the contended slot,
given as (position of the target driver, index in its lock array). -/
structure driver_unit_lock_error_t where
  lock : Nat × Nat
  owner_driver : Nat
  owner_unit : Int
  target_driver : Nat
  target_unit : Int
deriving DecidableEq, Repr

/-- The two kinds of `driver_error_t`. -/
inductive driver_error_type where
  | LOCK
  | OPERATION
deriving DecidableEq, Repr

/-- A driver error, with the fields `driver.c` reads and writes. -/
structure driver_error_t where
  type : driver_error_type
  driver : Option Nat
  exception : Nat
  msg : Option String
  lock_error : Option driver_unit_lock_error_t
deriving DecidableEq, Repr

/-- The lock arrays of all the registered drivers, in registry order: the
mutable state a `lock_resources` callback can read and write. -/
abbrev lock_table : Type := List (Option (List driver_unit_lock_t))

/-- A driver descriptor.  `lock_resources` is the optional callback
`driver_error_t *(*)(int unit, uint8_t flags, void *resources)`, with the
nullable `resources` an `Option Nat`.  The callback runs with `driver_mtx`
released and may lock and unlock units itself, so it also takes the lock table
it starts on and returns the lock table it leaves. -/
structure driver_t where
  name : String
  exception_base : Nat
  error : List driver_message_t
  lock : Option (List driver_unit_lock_t)
  lock_resources :
    Option (Int → Nat → Option Nat → lock_table → lock_table × Option driver_error_t)

/-- The lock table of a registry. -/
def lock_table_of (drivers : List driver_t) : lock_table :=
  drivers.map (fun d => d.lock)

/-- The registry with its lock arrays replaced, driver by driver, by those of
`table`. -/
def with_lock_table : List driver_t → lock_table → List driver_t
  | d :: ds, t :: ts => { d with lock := t } :: with_lock_table ds ts
  | ds, [] => ds
  | [], _ :: _ => []

/-- The field `locks`: the number of elements of the lock array. -/
def driver_t.locks (d : driver_t) : Nat :=
  match d.lock with
  | some target_lock => target_lock.length
  | none => 0

/-- The cleared slot: `owner = NULL`, `unit = 0`, `tag = NULL`. -/
def empty_lock : driver_unit_lock_t :=
  { owner := none, unit := 0, tag := none }

/-- Reduction of an integer to the range of a 32-bit `int`. -/
def int32_wrap (x : Int) : Int :=
  (x + 2147483648) % 4294967296 - 2147483648

/-! ## Registry lookup -/

/-- The loop of `driver_get_by_name`, with `i` the position of the head of the
remaining entries. -/
def driver_get_by_name_from (name : String) : List driver_t → Nat → Option Nat
  | [], _ => none
  | cdriver :: rest, i =>
    if name = cdriver.name then some i else driver_get_by_name_from name rest (i + 1)

/-- Function `driver_get_by_name`: the first descriptor with
`strcmp(name, cdriver->name) == 0`. -/
def driver_get_by_name (drivers : List driver_t) (name : String) : Option Nat :=
  driver_get_by_name_from name drivers 0

/-- The loop of `driver_get_by_exception_base`. -/
def driver_get_by_exception_base_from (exception_base : Nat) :
    List driver_t → Nat → Option Nat
  | [], _ => none
  | cdriver :: rest, i =>
    if cdriver.exception_base = exception_base then some i
    else driver_get_by_exception_base_from exception_base rest (i + 1)

/-- Function `driver_get_by_exception_base`: the first descriptor with
`cdriver->exception_base == exception_base`. -/
def driver_get_by_exception_base (drivers : List driver_t) (exception_base : Nat) :
    Option Nat :=
  driver_get_by_exception_base_from exception_base drivers 0

/-! ## Error messages -/

/-- The loop `while (msg->message) { if (msg->exception == exception) return
msg->message; msg++; }` shared by both message lookups. -/
def scan_messages (exception : Nat) : List driver_message_t → Option String
  | [] => none
  | msg :: rest =>
    match msg.message with
    | none => none
    | some m => if msg.exception = exception then some m else scan_messages exception rest

/-- Function `driver_get_err_msg`; `error->driver` is dereferenced, which has no
defined result (`none`) outside the registry. -/
def driver_get_err_msg (drivers : List driver_t) (error : driver_error_t) :
    Option (Option String) :=
  match error.driver with
  | none => none
  | some p =>
    match drivers[p]? with
    | none => none
    | some d => some (scan_messages error.exception d.error)

/-- Function `driver_get_err_msg_by_exception`. -/
def driver_get_err_msg_by_exception (drivers : List driver_t) (exception : Nat) :
    Option String :=
  match driver_get_by_exception_base drivers (exception &&& 0b11111111000000000000000000000000) with
  | some p =>
    match drivers[p]? with
    | some driver => scan_messages exception driver.error
    | none => none
  | none => none

/-! ## Unit locks -/

/-- Function `lock_index`: the slot index of `unit` in the lock array of `driver`. -/
def lock_index (k : BusDevices) (driver : driver_t) (unit : Int) : Int :=
  if driver.name = "spi" then
    let tunit := (Int.land unit 0xff00) >>> 8
    let tdevice := Int.land unit 0x00ff
    (tunit * k.SPI_BUS_DEVICES) + tdevice
  else if driver.name = "i2c" then
    let tunit := (Int.land unit 0xff00) >>> 8
    let tdevice := Int.land unit 0x00ff
    (tunit * k.I2C_BUS_DEVICES) + tdevice
  else
    unit

/-- The body of the inner loop of `driver_unlock_all` on one slot. -/
def unlock_matching (owner_driver : Nat) (owner_unit : Int) (l : driver_unit_lock_t) :
    driver_unit_lock_t :=
  if l.owner = some owner_driver ∧ l.unit = owner_unit then
    { owner := none, unit := 0, tag := none }
  else l

/-- The body of the outer loop of `driver_unlock_all` on one descriptor: the
inner loop visits every slot `0 .. locks - 1` of a non-`NULL` lock array. -/
def unlock_all_in (owner_driver : Nat) (owner_unit : Int) (cdriver : driver_t) : driver_t :=
  match cdriver.lock with
  | some target_lock =>
    { cdriver with lock := some (target_lock.map (unlock_matching owner_driver owner_unit)) }
  | none => cdriver

/-- Function `driver_unlock_all`: the scan of the whole registry. -/
def driver_unlock_all (drivers : List driver_t) (owner_driver : Nat) (owner_unit : Int) :
    List driver_t :=
  drivers.map (unlock_all_in owner_driver owner_unit)

/-- Function `driver_lock_error`: `driver_unlock_all(driver, lock_error->owner_unit)`,
then the error of type `LOCK` that carries `lock_error` (the allocation
succeeds; the fields the function does not set are `none` and 0). -/
def driver_lock_error (drivers : List driver_t) (driver : Nat)
    (lock_error : driver_unit_lock_error_t) : List driver_t × driver_error_t :=
  (driver_unlock_all drivers driver lock_error.owner_unit,
   { type := driver_error_type.LOCK, driver := none, exception := 0, msg := none,
     lock_error := some lock_error })

/-- The owner unit as `driver_lock` uses it after its first statement:
`if (strcmp(owner_driver->name, "spi") == 0) owner_unit = (owner_unit << 8);`. -/
def lock_owner_unit (owner : driver_t) (owner_unit : Int) : Int :=
  if owner.name = "spi" then int32_wrap (owner_unit * 256) else owner_unit

/-- The write `target_lock[index] = l` into the lock array of the driver at
position `target_driver`. -/
def write_lock (drivers : List driver_t) (target_driver : Nat) (td : driver_t)
    (target_lock : List driver_unit_lock_t) (index : Nat) (l : driver_unit_lock_t) :
    List driver_t :=
  drivers.set target_driver { td with lock := some (target_lock.set index l) }

/-- Function `driver_lock`: the new lock table and the returned
`driver_unit_lock_error_t *` (`none` is `NULL`: access granted). -/
def driver_lock (k : BusDevices) (drivers : List driver_t) (owner_driver : Nat)
    (owner_unit : Int) (target_driver : Nat) (target_unit : Int) (flags : Nat)
    (tag : Option String) : Option (List driver_t × Option driver_unit_lock_error_t) :=
  match drivers[owner_driver]?, drivers[target_driver]? with
  | some od, some td =>
    let owner_unit := lock_owner_unit od owner_unit
    match td.lock with
    | none =>
      match td.lock_resources with
      | some lock_resources =>
        match lock_resources target_unit flags none (lock_table_of drivers) with
        | (table, some error) =>
          some (driver_unlock_all (with_lock_table drivers table) owner_driver owner_unit,
            error.lock_error)
        | (table, none) => some (with_lock_table drivers table, none)
      | none => some (drivers, none)
    | some target_lock =>
      let index := lock_index k td target_unit
      if 0 ≤ index then
        match target_lock[index.toNat]? with
        | none => none
        | some l =>
          match l.owner with
          | some o =>
            if o = owner_driver ∧ l.unit = owner_unit then
              some (drivers, none)
            else
              some (driver_unlock_all drivers owner_driver owner_unit,
                some { lock := (target_driver, index.toNat),
                       owner_driver := owner_driver,
                       owner_unit := owner_unit,
                       target_driver := target_driver,
                       target_unit := target_unit })
          | none =>
            some (write_lock drivers target_driver td target_lock index.toNat
              { owner := some owner_driver, unit := owner_unit, tag := tag }, none)
      else none
  | _, _ => none

/-- Function `driver_unlock`: the new lock table. -/
def driver_unlock (k : BusDevices) (drivers : List driver_t) (_owner_driver : Nat)
    (_owner_unit : Int) (target_driver : Nat) (target_unit : Int) :
    Option (List driver_t) :=
  match drivers[target_driver]? with
  | none => none
  | some td =>
    match td.lock with
    | none => some drivers
    | some target_lock =>
      let index := lock_index k td target_unit
      if 0 ≤ index ∧ index.toNat < target_lock.length then
        some (write_lock drivers target_driver td target_lock index.toNat
          { owner := none, unit := 0, tag := none })
      else none

/-! ## Reading the lock table -/

/-- The slot `index` of the lock array of the driver at position `d`, when
that driver is registered, has a lock array and `index` lies inside it. -/
def slot_at (drivers : List driver_t) (d : Nat) (index : Int) : Option driver_unit_lock_t :=
  match drivers[d]? with
  | some drv =>
    match drv.lock with
    | some target_lock => if 0 ≤ index then target_lock[index.toNat]? else none
    | none => none
  | none => none


/-! ## The lookups as the specification words them -/

/-- The mask `NAMESPACE_MASK`: the top 8 bits of a 32-bit code. -/
def NAMESPACE_MASK : Nat := 0xFF000000

/-- The rows of an error table: the entries before the closing `NULL` row. -/
def error_rows (table : List driver_message_t) : List driver_message_t :=
  table.takeWhile (fun m => m.message.isSome)

/-- The specification of `find_by_exception_namespace`: the first descriptor, in
registry order, whose `exception_base` equals `code & NAMESPACE_MASK`. -/
def find_by_exception_namespace (drivers : List driver_t) (code : Nat) : Option Nat :=
  drivers.findIdx? (fun d => decide (d.exception_base = code &&& NAMESPACE_MASK))

/-- The specification of `resolve_message_by_code`: the owning driver by
namespace, then the first row of its table with exactly that code. -/
def resolve_message_by_code (drivers : List driver_t) (code : Nat) : Option String :=
  match drivers.find? (fun d => decide (d.exception_base = code &&& NAMESPACE_MASK)) with
  | some d =>
    match (error_rows d.error).find? (fun m => decide (m.exception = code)) with
    | some m => m.message
    | none => none
  | none => none

/-! ## Concrete registries -/

/-- A registry with one driver whose error table is
`[(0x10000001, "timeout"), (0x10000002, "nack")]` and whose base is `0x10000000`. -/
def nack_registry : List driver_t :=
  [{ name := "adc", exception_base := 0x10000000,
     error := [⟨0x10000001, some "timeout"⟩, ⟨0x10000002, some "nack"⟩, ⟨0, none⟩],
     lock := none, lock_resources := none }]

/-- The address `ADS1115_ADDR1` of `drivers/adc_ads1115.h`. -/
def ADS1115_ADDR1 : Nat := 0b1001000

/-- Sample values of the two constants. -/
def sample_bus : BusDevices :=
  { SPI_BUS_DEVICES := 3, I2C_BUS_DEVICES := 128 }

/-- A descriptor with an empty error table, a cleared lock array of `n` slots
(for `some n`) and no `lock_resources` callback. -/
def sample_driver (name : String) (base : Nat) (slots : Option Nat) : driver_t :=
  { name := name, exception_base := base, error := [⟨0, none⟩],
    lock := slots.map (fun n => List.replicate n empty_lock), lock_resources := none }

/-- A registry of five drivers, all slots cleared: positions 0 to 4. -/
def sample_registry : List driver_t :=
  [sample_driver "spi" 0x01000000 (some 6),
   sample_driver "i2c" 0x02000000 (some 128),
   sample_driver "adc" 0x03000000 none,
   sample_driver "gpio" 0x04000000 (some 4),
   sample_driver "display" 0x05000000 none]

/-- The lock table after a sequence of `driver_lock` calls
`(owner_driver, owner_unit, target_driver, target_unit)`, made with flags 0 and
no tag. -/
def after_locks (k : BusDevices) (drivers : List driver_t) :
    List (Nat × Int × Nat × Int) → List driver_t
  | [] => drivers
  | (o, ou, t, tu) :: rest =>
    match driver_lock k drivers o ou t tu 0 none with
    | some (drivers2, _) => after_locks k drivers2 rest
    | none => drivers

/-- The sample registry after "adc" unit 0 locked "gpio" 0 and 1, and "display"
unit 0 locked "gpio" 2. -/
def held_registry : List driver_t :=
  after_locks sample_bus sample_registry [(2, 0, 3, 0), (2, 0, 3, 1), (4, 0, 3, 2)]

/-- The sample registry after "adc" unit 0 locked device `ADS1115_ADDR1` of
"i2c" bus 0. -/
def adc_registry : List driver_t :=
  after_locks sample_bus sample_registry [(2, 0, 1, ((0 <<< 8 ||| ADS1115_ADDR1 : Nat) : Int))]

/-! ## A registry with a delegated lock callback -/

/-- A `lock_resources` callback that does not touch the lock table: it refuses
unit 1 with an error of type `LOCK`, refuses unit 3 with an error of type
`OPERATION` that carries no lock error, and accepts every other unit. -/
def sample_lock_resources (unit : Int) (_flags : Nat) (_resources : Option Nat)
    (table : lock_table) : lock_table × Option driver_error_t :=
  if unit = 1 then
    (table,
     some { type := driver_error_type.LOCK, driver := none, exception := 0, msg := none,
            lock_error := some { lock := (1, 0), owner_driver := 9, owner_unit := 0,
                                 target_driver := 2, target_unit := 1 } })
  else if unit = 3 then
    (table,
     some { type := driver_error_type.OPERATION, driver := some 2, exception := 0x06000001,
            msg := none, lock_error := none })
  else (table, none)

/-- A registry of three drivers: "adc" (position 0), "gpio" with 4 slots
(position 1) and "wifi" (position 2), which has no lock array and delegates to
`sample_lock_resources`; "adc" unit 0 holds "gpio" 0. -/
def callback_registry : List driver_t :=
  after_locks sample_bus
    [sample_driver "adc" 0x03000000 none,
     sample_driver "gpio" 0x04000000 (some 4),
     { name := "wifi", exception_base := 0x06000000, error := [⟨0, none⟩], lock := none,
       lock_resources := some sample_lock_resources }]
    [(0, 0, 1, 0)]

/-- The three descriptors "adc", "gpio" (4 slots) and "wifi", "wifi" without
its callback: the registry the callback `wifi_lock_resources` sees. -/
def wifi_base : List driver_t :=
  [sample_driver "adc" 0x03000000 none,
   sample_driver "gpio" 0x04000000 (some 4),
   sample_driver "wifi" 0x06000000 none]

/-- A `lock_resources` callback written against the API of `driver.c`: for
"wifi" (position 2, unit 0) it locks the "gpio" pin `unit` with `driver_lock`,
and on a conflict returns `driver_lock_error(wifi, lock_error)`. -/
def wifi_lock_resources (unit : Int) (flags : Nat) (_resources : Option Nat)
    (table : lock_table) : lock_table × Option driver_error_t :=
  match driver_lock sample_bus (with_lock_table wifi_base table) 2 0 1 unit flags none with
  | some (drivers2, some lock_error) =>
    ((lock_table_of (driver_lock_error drivers2 2 lock_error).1),
     some (driver_lock_error drivers2 2 lock_error).2)
  | some (drivers2, none) => (lock_table_of drivers2, none)
  | none => (table, none)

/-- The registry "adc", "gpio" (4 slots), "wifi" with the callback
`wifi_lock_resources`; "adc" unit 0 holds "gpio" 0. -/
def reentrant_registry : List driver_t :=
  after_locks sample_bus
    [sample_driver "adc" 0x03000000 none,
     sample_driver "gpio" 0x04000000 (some 4),
     { name := "wifi", exception_base := 0x06000000, error := [⟨0, none⟩], lock := none,
       lock_resources := some wifi_lock_resources }]
    [(0, 0, 1, 0)]

/-! ## The mutex `driver_mtx` as explicit state -/

/-- The two functions of `driver.c` that take `driver_mtx` on the paths of
`driver_lock`. -/
inductive mtx_holder where
  | in_driver_lock
  | in_driver_unlock_all
deriving DecidableEq, Repr

/-- What a call does to and around `driver_mtx`, in program order: a
`mtx_lock` or `mtx_unlock` made by one of the two functions, the call of the
`lock_resources` callback, and the call of `driver_unlock_all`. -/
inductive mtx_event where
  | mtx_lock (f : mtx_holder)
  | mtx_unlock (f : mtx_holder)
  | call_lock_resources
  | call_driver_unlock_all
deriving DecidableEq, Repr

/-- The events of `driver_unlock_all`: `mtx_lock`, the scan, `mtx_unlock`. -/
def driver_unlock_all_events : List mtx_event :=
  [mtx_event.mtx_lock mtx_holder.in_driver_unlock_all,
   mtx_event.mtx_unlock mtx_holder.in_driver_unlock_all]

/-- The events of `driver_lock`, path by path, in the order of the statements
of the source; it follows the branches of `driver_lock`. -/
def driver_lock_events (k : BusDevices) (drivers : List driver_t) (owner_driver : Nat)
    (owner_unit : Int) (target_driver : Nat) (target_unit : Int) (flags : Nat) :
    Option (List mtx_event) :=
  match drivers[owner_driver]?, drivers[target_driver]? with
  | some od, some td =>
    let owner_unit := lock_owner_unit od owner_unit
    match td.lock with
    | none =>
      match td.lock_resources with
      | some lock_resources =>
        match (lock_resources target_unit flags none (lock_table_of drivers)).2 with
        | some _ =>
          some ([mtx_event.mtx_lock mtx_holder.in_driver_lock,
                 mtx_event.mtx_unlock mtx_holder.in_driver_lock,
                 mtx_event.call_lock_resources,
                 mtx_event.call_driver_unlock_all] ++ driver_unlock_all_events)
        | none =>
          some [mtx_event.mtx_lock mtx_holder.in_driver_lock,
                mtx_event.mtx_unlock mtx_holder.in_driver_lock,
                mtx_event.call_lock_resources]
      | none =>
        some [mtx_event.mtx_lock mtx_holder.in_driver_lock,
              mtx_event.mtx_unlock mtx_holder.in_driver_lock]
    | some target_lock =>
      let index := lock_index k td target_unit
      if 0 ≤ index then
        match target_lock[index.toNat]? with
        | none => none
        | some l =>
          match l.owner with
          | some o =>
            if o = owner_driver ∧ l.unit = owner_unit then
              some [mtx_event.mtx_lock mtx_holder.in_driver_lock,
                    mtx_event.mtx_unlock mtx_holder.in_driver_lock]
            else
              some ([mtx_event.mtx_lock mtx_holder.in_driver_lock,
                     mtx_event.mtx_unlock mtx_holder.in_driver_lock,
                     mtx_event.call_driver_unlock_all] ++ driver_unlock_all_events)
          | none =>
            some [mtx_event.mtx_lock mtx_holder.in_driver_lock,
                  mtx_event.mtx_unlock mtx_holder.in_driver_lock]
      else none
  | _, _ => none

/-- One event on the mutex, `held` being its state before: `mtx_lock` needs the
mutex free and takes it, `mtx_unlock` needs it held and frees it, and the two
calls need it free; `none` when the need is not met. -/
def mtx_step (held : Bool) : mtx_event → Option Bool
  | mtx_event.mtx_lock _ => if held then none else some true
  | mtx_event.mtx_unlock _ => if held then some false else none
  | mtx_event.call_lock_resources => if held then none else some false
  | mtx_event.call_driver_unlock_all => if held then none else some false

/-- The state of the mutex after a sequence of events, from the state `held`. -/
def mtx_run : Bool → List mtx_event → Option Bool
  | held, [] => some held
  | held, e :: es =>
    match mtx_step held e with
    | none => none
    | some h => mtx_run h es

/-! ## The naming helper -/

/-- Conversion of an `int` to `uint8_t`: the value modulo 256. -/
def to_uint8 (x : Int) : Nat :=
  (x % 256).toNat

/-- The text `snprintf(buffer, size, ...)` leaves in `buffer`: the formatted
text cut to `size - 1` characters (a C string is a `String` of its `char`s). -/
def snprintf (size : Nat) (text : String) : String :=
  String.mk (text.data.take (size - 1))

/-- Function `driver_target_name` (the allocation of `buffer` succeeds); `unit`
is a `uint8_t`, printed with `%d`. -/
def driver_target_name (target_driver : driver_t) (target_unit : Int) (tag : Option String) :
    String :=
  let unit : Nat :=
    if target_driver.name = "spi" then
      to_uint8 ((Int.land target_unit 0xff00) >>> 8)
    else if target_driver.name = "i2c" then
      to_uint8 ((Int.land target_unit 0xff00) >>> 8)
    else
      to_uint8 target_unit
  match tag with
  | some tag => snprintf 40 (target_driver.name ++ toString unit ++ " (" ++ tag ++ ")")
  | none => snprintf 40 (target_driver.name ++ toString unit)

/-- The label of the specification: `name ++ decimal(unit)`, followed by
`" (" ++ tag ++ ")"` when a tag is present. -/
def target_label (name : String) (unit : Int) (tag : Option String) : String :=
  match tag with
  | some tag => name ++ toString unit ++ " (" ++ tag ++ ")"
  | none => name ++ toString unit

/-- The unit of the label as the specification words it: the bus number
`(target_unit & 0xff00) >> 8` for "spi" and "i2c", `target_unit` itself for
every other driver. -/
def target_label_unit (target_driver : driver_t) (target_unit : Int) : Int :=
  if target_driver.name = "spi" ∨ target_driver.name = "i2c" then
    (Int.land target_unit 0xff00) >>> 8
  else target_unit

/-! ## The slot invariant -/

/-- The invariant on one slot, `n` being the number of registered drivers: a
slot with no owner has `unit = 0` and no tag, and an owner is a position of the
registry. -/
def lock_ok (n : Nat) (l : driver_unit_lock_t) : Bool :=
  match l.owner with
  | none => decide (l.unit = 0 ∧ l.tag = none)
  | some o => decide (o < n)

/-- The invariant on the whole lock table. -/
def table_ok (drivers : List driver_t) : Bool :=
  drivers.all (fun d =>
    match d.lock with
    | none => true
    | some target_lock => target_lock.all (lock_ok drivers.length))

/-- The initial table: every slot of every lock array is the cleared slot. -/
def all_empty (drivers : List driver_t) : Bool :=
  drivers.all (fun d =>
    match d.lock with
    | none => true
    | some target_lock => target_lock.all (fun l => decide (l = empty_lock)))

/-- The invariant on a lock table, `n` being the number of registered drivers. -/
def lock_table_ok (n : Nat) (table : lock_table) : Bool :=
  table.all (fun t =>
    match t with
    | none => true
    | some target_lock => target_lock.all (lock_ok n))

/-- The constant part of a descriptor: the descriptor without its lock array. -/
def descriptor_of (d : driver_t) : driver_t :=
  { d with lock := none }

/-- What the invariant asks of the callbacks: every registered `lock_resources`
callback, started on a lock table that satisfies the invariant, leaves one that
satisfies it (as a callback does that writes the table through `driver_lock`,
`driver_unlock` and `driver_unlock_all` only). -/
def callbacks_ok (drivers : List driver_t) : Prop :=
  ∀ d, d ∈ drivers → ∀ cb, d.lock_resources = some cb →
    ∀ (unit : Int) (flags : Nat) (resources : Option Nat) (table : lock_table),
      lock_table_ok drivers.length table = true →
      lock_table_ok drivers.length (cb unit flags resources table).1 = true

/-- The states reached from `start` by calls of `driver_lock`, `driver_unlock`
and `driver_unlock_all` with any arguments. -/
inductive reachable (k : BusDevices) (start : List driver_t) : List driver_t → Prop where
  | start : reachable k start start
  | lock (s s2 : List driver_t) (A : Nat) (u : Int) (T : Nat) (v : Int) (flags : Nat)
      (tag : Option String) (r : Option driver_unit_lock_error_t) :
      reachable k start s → driver_lock k s A u T v flags tag = some (s2, r) →
      reachable k start s2
  | unlock (s s2 : List driver_t) (A : Nat) (u : Int) (T : Nat) (v : Int) :
      reachable k start s → driver_unlock k s A u T v = some s2 → reachable k start s2
  | unlock_all (s : List driver_t) (A : Nat) (u : Int) :
      reachable k start s → reachable k start (driver_unlock_all s A u)

/-! ## Two threads calling `driver_lock` -/

/-- The arguments of one call of `driver_lock` on a target with a lock array
(`flags` is read on the callback path only). -/
structure lock_call where
  owner_driver : Nat
  owner_unit : Int
  target_driver : Nat
  target_unit : Int
  tag : Option String
deriving DecidableEq, Repr

/-- Where a thread stands in its call of `driver_lock` on a target with a lock
array: before `mtx_lock` (line 241); holding the mutex, before the test of the
slot (line 314); slot found free, before the writes (lines 368-370); before
`mtx_unlock` (lines 327, 351, 372), granted or denied; denied, before
`driver_unlock_all` takes the mutex (line 219); in `driver_unlock_all`, before
the scan; before the `mtx_unlock` of `driver_unlock_all` (line 236); returned. -/
inductive thread_pc where
  | at_entry
  | at_test
  | at_write
  | at_unlock (granted : Bool)
  | at_rollback
  | at_scan
  | at_rollback_unlock
  | returned (granted : Bool)
deriving DecidableEq, Repr

/-- One atomic step of a thread that runs the call `c` and stands at the given
point, on the shared lock table `drivers` and mutex `mtx` (true: held); `none`
when the thread cannot move: it waits in `mtx_lock` for a held mutex, or has
returned.  `mtx_lock` and `mtx_unlock` are declared in `sys/mutex.h`, outside
this development; `mutex_rule` is the rule of a mutex, that `mtx_lock` proceeds
only while no thread holds it.  With `mutex_rule = false` a `mtx_lock` never
waits. -/
def thread_step (mutex_rule : Bool) (k : BusDevices) (c : lock_call)
    (drivers : List driver_t) (mtx : Bool) :
    thread_pc → Option (List driver_t × Bool × thread_pc)
  | thread_pc.at_entry =>
    if mutex_rule && mtx then none else some (drivers, true, thread_pc.at_test)
  | thread_pc.at_test =>
    match drivers[c.owner_driver]?, drivers[c.target_driver]? with
    | some od, some td =>
      match slot_at drivers c.target_driver (lock_index k td c.target_unit) with
      | some l =>
        match l.owner with
        | some o =>
          if o = c.owner_driver ∧ l.unit = lock_owner_unit od c.owner_unit then
            some (drivers, mtx, thread_pc.at_unlock true)
          else
            some (drivers, mtx, thread_pc.at_unlock false)
        | none => some (drivers, mtx, thread_pc.at_write)
      | none => none
    | _, _ => none
  | thread_pc.at_write =>
    match drivers[c.owner_driver]?, drivers[c.target_driver]? with
    | some od, some td =>
      match td.lock with
      | some target_lock =>
        let index := lock_index k td c.target_unit
        if 0 ≤ index ∧ index.toNat < target_lock.length then
          some (write_lock drivers c.target_driver td target_lock index.toNat
            { owner := some c.owner_driver, unit := lock_owner_unit od c.owner_unit,
              tag := c.tag }, mtx, thread_pc.at_unlock true)
        else none
      | none => none
    | _, _ => none
  | thread_pc.at_unlock granted =>
    some (drivers, false, if granted then thread_pc.returned true else thread_pc.at_rollback)
  | thread_pc.at_rollback =>
    if mutex_rule && mtx then none else some (drivers, true, thread_pc.at_scan)
  | thread_pc.at_scan =>
    match drivers[c.owner_driver]? with
    | some od =>
      some (driver_unlock_all drivers c.owner_driver (lock_owner_unit od c.owner_unit), mtx,
        thread_pc.at_rollback_unlock)
    | none => none
  | thread_pc.at_rollback_unlock => some (drivers, false, thread_pc.returned false)
  | thread_pc.returned _ => none

/-- The state of two threads (named `false` and `true`) that share the lock
table and the mutex. -/
structure threads_state where
  drivers : List driver_t
  mtx : Bool
  pc : Bool → thread_pc

/-- Both threads about to call `driver_lock`, the mutex free. -/
def threads_start (drivers : List driver_t) : threads_state :=
  { drivers := drivers, mtx := false, pc := fun _ => thread_pc.at_entry }

/-- The scheduler lets thread `t` make its next step; a thread that cannot move
leaves the state as it is. -/
def threads_step (mutex_rule : Bool) (k : BusDevices) (calls : Bool → lock_call)
    (s : threads_state) (t : Bool) : threads_state :=
  match thread_step mutex_rule k (calls t) s.drivers s.mtx (s.pc t) with
  | some (drivers, mtx, pc) =>
    { drivers := drivers, mtx := mtx, pc := fun x => if x = t then pc else s.pc x }
  | none => s

/-- The state after a schedule: the list of the threads chosen, step by step. -/
def threads_run (mutex_rule : Bool) (k : BusDevices) (calls : Bool → lock_call) :
    threads_state → List Bool → threads_state
  | s, [] => s
  | s, t :: schedule => threads_run mutex_rule k calls (threads_step mutex_rule k calls s t) schedule

/-- The thread has been granted the slot. -/
def pc_granted : thread_pc → Bool
  | thread_pc.at_unlock true => true
  | thread_pc.returned true => true
  | _ => false

/-- The thread has been denied the slot. -/
def pc_denied : thread_pc → Bool
  | thread_pc.at_unlock false => true
  | thread_pc.at_rollback => true
  | thread_pc.at_scan => true
  | thread_pc.at_rollback_unlock => true
  | thread_pc.returned false => true
  | _ => false

/-- The thread stands between a `mtx_lock` and the matching `mtx_unlock`. -/
def pc_in_section : thread_pc → Bool
  | thread_pc.at_test => true
  | thread_pc.at_write => true
  | thread_pc.at_unlock _ => true
  | thread_pc.at_scan => true
  | thread_pc.at_rollback_unlock => true
  | _ => false

/-- A bound on the steps a thread standing at the given point still makes
before it returns. -/
def pc_remaining : thread_pc → Nat
  | thread_pc.at_entry => 6
  | thread_pc.at_test => 5
  | thread_pc.at_write => 2
  | thread_pc.at_unlock true => 1
  | thread_pc.at_unlock false => 4
  | thread_pc.at_rollback => 3
  | thread_pc.at_scan => 2
  | thread_pc.at_rollback_unlock => 1
  | thread_pc.returned _ => 0

/-- A bound on the steps the two threads still make. -/
def threads_remaining (s : threads_state) : Nat :=
  pc_remaining (s.pc false) + pc_remaining (s.pc true)

/-- Two calls of `driver_lock`, by registered owners `od t`, for one slot: the
slot `index` of the lock array of the target `T`, which holds `l0`; the two
calls are made as distinct (owner, unit) pairs, the unit taken as `driver_lock`
records it. -/
structure same_slot_calls (k : BusDevices) (drivers : List driver_t)
    (calls : Bool → lock_call) (T : Nat) (td : driver_t) (index : Int)
    (od : Bool → driver_t) (l0 : driver_unit_lock_t) : Prop where
  owner : ∀ t, drivers[(calls t).owner_driver]? = some (od t)
  target : ∀ t, (calls t).target_driver = T
  descriptor : drivers[T]? = some td
  index_eq : ∀ t, lock_index k td (calls t).target_unit = index
  slot : slot_at drivers T index = some l0
  distinct : ¬ ((calls false).owner_driver = (calls true).owner_driver ∧
    lock_owner_unit (od false) (calls false).owner_unit
      = lock_owner_unit (od true) (calls true).owner_unit)

/-- The invariant of the two-thread system under the mutex rule. -/
structure threads_inv (drivers : List driver_t) (calls : Bool → lock_call) (T : Nat)
    (index : Int) (od : Bool → driver_t) (l0 : driver_unit_lock_t) (s : threads_state) :
    Prop where
  descriptors : s.drivers.map descriptor_of = drivers.map descriptor_of
  slot : ∃ l, slot_at s.drivers T index = some l
  mtx_held : s.mtx = true ↔ ∃ t, pc_in_section (s.pc t) = true
  exclusive : ∀ t, pc_in_section (s.pc t) = true → pc_in_section (s.pc (!t)) = false
  free_at_write : ∀ t, s.pc t = thread_pc.at_write →
    ∀ l, slot_at s.drivers T index = some l → l.owner = none
  granted : ∀ t, pc_granted (s.pc t) = true →
    ∀ l, slot_at s.drivers T index = some l →
      l.owner = some (calls t).owner_driver ∧
      l.unit = lock_owner_unit (od t) (calls t).owner_unit
  denied : l0.owner = none → ∀ t, pc_denied (s.pc t) = true → pc_granted (s.pc (!t)) = true
  occupied : l0.owner = none → ∀ l, slot_at s.drivers T index = some l → l.owner ≠ none →
    ∃ t, pc_granted (s.pc t) = true

/-- Two calls for "gpio" 0 in the cleared `sample_registry`: thread `false` as
"adc" (position 2) unit 0, thread `true` as "display" (position 4) unit 0. -/
def sample_calls (t : Bool) : lock_call :=
  if t then { owner_driver := 4, owner_unit := 0, target_driver := 3, target_unit := 0,
              tag := some "display" }
  else { owner_driver := 2, owner_unit := 0, target_driver := 3, target_unit := 0,
         tag := some "adc" }

/-! ## Reading the lock table after a write -/

theorem slot_at_eq_some {drivers : List driver_t} {d : Nat} {i : Int} {td : driver_t}
    {l : driver_unit_lock_t} (hd : drivers[d]? = some td) (h : slot_at drivers d i = some l) :
    ∃ tl, td.lock = some tl ∧ 0 ≤ i ∧ tl[i.toNat]? = some l := by
  unfold slot_at at h
  rw [hd] at h
  cases htl : td.lock with
  | none => simp [htl] at h
  | some tl =>
    simp only [htl] at h
    by_cases hi : 0 ≤ i
    · rw [if_pos hi] at h
      exact ⟨tl, rfl, hi, h⟩
    · rw [if_neg hi] at h
      cases h

theorem slot_at_unlock_all (drivers : List driver_t) (o : Nat) (u : Int) (d : Nat) (i : Int) :
    slot_at (driver_unlock_all drivers o u) d i
      = (slot_at drivers d i).map (unlock_matching o u) := by
  unfold slot_at driver_unlock_all
  rw [List.getElem?_map]
  cases drivers[d]? with
  | none => rfl
  | some drv =>
    simp only [Option.map_some']
    unfold unlock_all_in
    cases htl : drv.lock with
    | none => simp [htl]
    | some tl =>
      by_cases hi : 0 ≤ i
      · simp [hi, List.getElem?_map]
      · simp [hi]

theorem slot_at_write_lock_same (drivers : List driver_t) {T : Nat} {td : driver_t}
    {tl : List driver_unit_lock_t} {idx : Nat} (l : driver_unit_lock_t)
    (hT : drivers[T]? = some td) (hi : idx < tl.length) :
    slot_at (write_lock drivers T td tl idx l) T (idx : Int) = some l := by
  have hlen : T < drivers.length := by
    rcases List.getElem?_eq_some.mp hT with ⟨h, _⟩
    exact h
  unfold slot_at write_lock
  rw [List.getElem?_set_self hlen]
  simp [List.getElem?_set_self hi]

theorem slot_at_write_lock_other {drivers : List driver_t} {T : Nat} {td : driver_t}
    {tl : List driver_unit_lock_t} {idx : Nat} (l : driver_unit_lock_t)
    (hT : drivers[T]? = some td) (htl : td.lock = some tl) (d : Nat) (i : Int)
    (h : (d, i) ≠ (T, (idx : Int))) :
    slot_at (write_lock drivers T td tl idx l) d i = slot_at drivers d i := by
  have hlen : T < drivers.length := by
    rcases List.getElem?_eq_some.mp hT with ⟨h, _⟩
    exact h
  unfold slot_at write_lock
  by_cases hd : d = T
  · subst hd
    rw [List.getElem?_set_self hlen, hT]
    simp only [htl]
    by_cases hi : 0 ≤ i
    · have hne : idx ≠ i.toNat := by
        intro e
        apply h
        rw [e, Int.toNat_of_nonneg hi]
      simp [hi, List.getElem?_set_ne hne]
    · simp [hi]
  · rw [List.getElem?_set_ne (fun e => hd e.symm)]

/-! ## The three outcomes of `driver_lock` on a target with a lock array -/

theorem driver_lock_of_empty {k : BusDevices} {drivers : List driver_t} {A T : Nat}
    {od td : driver_t} {tl : List driver_unit_lock_t} {l : driver_unit_lock_t} {v : Int}
    (u : Int) (flags : Nat) (tag : Option String)
    (hA : drivers[A]? = some od) (hT : drivers[T]? = some td) (htl : td.lock = some tl)
    (hi : 0 ≤ lock_index k td v) (hl : tl[(lock_index k td v).toNat]? = some l)
    (ho : l.owner = none) :
    driver_lock k drivers A u T v flags tag =
      some (write_lock drivers T td tl (lock_index k td v).toNat
        { owner := some A, unit := lock_owner_unit od u, tag := tag }, none) := by
  simp [driver_lock, hA, hT, htl, hi, hl, ho]

theorem driver_lock_of_same {k : BusDevices} {drivers : List driver_t} {A T : Nat}
    {od td : driver_t} {tl : List driver_unit_lock_t} {l : driver_unit_lock_t} {v : Int}
    (u : Int) (flags : Nat) (tag : Option String)
    (hA : drivers[A]? = some od) (hT : drivers[T]? = some td) (htl : td.lock = some tl)
    (hi : 0 ≤ lock_index k td v) (hl : tl[(lock_index k td v).toNat]? = some l)
    (ho : l.owner = some A) (hu : l.unit = lock_owner_unit od u) :
    driver_lock k drivers A u T v flags tag = some (drivers, none) := by
  simp [driver_lock, hA, hT, htl, hi, hl, ho, hu]

theorem driver_lock_of_other {k : BusDevices} {drivers : List driver_t} {A T o : Nat}
    {od td : driver_t} {tl : List driver_unit_lock_t} {l : driver_unit_lock_t} {v : Int}
    (u : Int) (flags : Nat) (tag : Option String)
    (hA : drivers[A]? = some od) (hT : drivers[T]? = some td) (htl : td.lock = some tl)
    (hi : 0 ≤ lock_index k td v) (hl : tl[(lock_index k td v).toNat]? = some l)
    (ho : l.owner = some o) (hne : ¬ (o = A ∧ l.unit = lock_owner_unit od u)) :
    driver_lock k drivers A u T v flags tag =
      some (driver_unlock_all drivers A (lock_owner_unit od u),
        some { lock := (T, (lock_index k td v).toNat),
               owner_driver := A,
               owner_unit := lock_owner_unit od u,
               target_driver := T,
               target_unit := v }) := by
  simp only [driver_lock, hA, hT, htl, hi, hl, ho, if_true, if_neg hne]

theorem unlock_matching_of_ne {o : Nat} {u : Int} {l : driver_unit_lock_t}
    (h : ¬ (l.owner = some o ∧ l.unit = u)) : unlock_matching o u l = l := by
  unfold unlock_matching
  rw [if_neg h]

theorem unlock_matching_of_eq {o : Nat} {u : Int} {l : driver_unit_lock_t}
    (ho : l.owner = some o) (hu : l.unit = u) : unlock_matching o u l = empty_lock := by
  unfold unlock_matching
  rw [if_pos ⟨ho, hu⟩]
  rfl

theorem unlock_matching_not_held (o : Nat) (u : Int) (l : driver_unit_lock_t) :
    ¬ ((unlock_matching o u l).owner = some o ∧ (unlock_matching o u l).unit = u) := by
  unfold unlock_matching
  by_cases h : l.owner = some o ∧ l.unit = u
  · rw [if_pos h]
    simp
  · rw [if_neg h]
    exact h

theorem write_lock_getElem?_self (drivers : List driver_t) {T : Nat} {td : driver_t}
    (tl : List driver_unit_lock_t) (idx : Nat) (l : driver_unit_lock_t)
    (hT : drivers[T]? = some td) :
    (write_lock drivers T td tl idx l)[T]? = some { td with lock := some (tl.set idx l) } := by
  have hlen : T < drivers.length := by
    rcases List.getElem?_eq_some.mp hT with ⟨h, _⟩
    exact h
  unfold write_lock
  rw [List.getElem?_set_self hlen]

theorem write_lock_getElem?_name {drivers : List driver_t} {T d : Nat} {td dd : driver_t}
    (tl : List driver_unit_lock_t) (idx : Nat) (l : driver_unit_lock_t)
    (hT : drivers[T]? = some td) (hd : drivers[d]? = some dd) :
    ∃ dd2, (write_lock drivers T td tl idx l)[d]? = some dd2 ∧ dd2.name = dd.name := by
  by_cases h : d = T
  · subst h
    rw [hT] at hd
    cases hd
    exact ⟨_, write_lock_getElem?_self drivers tl idx l hT, rfl⟩
  · refine ⟨dd, ?_, rfl⟩
    unfold write_lock
    rw [List.getElem?_set_ne (fun e => h e.symm), hd]

theorem lock_owner_unit_congr {d1 d2 : driver_t} (h : d1.name = d2.name) (u : Int) :
    lock_owner_unit d1 u = lock_owner_unit d2 u := by
  unfold lock_owner_unit
  rw [h]

theorem nat_land_255 (n : Nat) : n &&& 255 = n % 256 :=
  Nat.and_pow_two_sub_one_eq_mod n 8

theorem nat_land_ff00_shr (n : Nat) : (n &&& 0xff00) >>> 8 = n / 256 % 256 := by
  apply Nat.eq_of_testBit_eq
  intro i
  have h1 : (0xff00 : Nat) = 255 <<< 8 := by decide
  have h2 : (256 : Nat) = 2 ^ 8 := by decide
  have h3 : (255 : Nat) = 2 ^ 8 - 1 := by decide
  rw [Nat.testBit_shiftRight, Nat.testBit_and, h1, Nat.testBit_shiftLeft, h2,
    Nat.testBit_mod_two_pow, ← Nat.shiftRight_eq_div_pow, Nat.testBit_shiftRight, h3,
    Nat.testBit_two_pow_sub_one]
  simp [Bool.and_comm]

theorem nat_ldiff_255 (m : Nat) : Nat.ldiff 255 m = 255 - m % 256 := by
  apply Nat.eq_of_testBit_eq
  intro i
  have h : m % 2 ^ 8 < 2 ^ 8 := Nat.mod_lt _ (by decide)
  have e : 255 - m % 256 = 2 ^ 8 - (m % 2 ^ 8 + 1) := by omega
  have h3 : (255 : Nat) = 2 ^ 8 - 1 := by decide
  rw [Nat.testBit_ldiff, e, Nat.testBit_two_pow_sub_succ h, Nat.testBit_mod_two_pow, h3,
    Nat.testBit_two_pow_sub_one]
  by_cases hi : i < 8 <;> simp [hi]

theorem nat_ldiff_ff00_shr (m : Nat) : (Nat.ldiff 0xff00 m) >>> 8 = 255 - m / 256 % 256 := by
  apply Nat.eq_of_testBit_eq
  intro i
  have h : m / 2 ^ 8 % 2 ^ 8 < 2 ^ 8 := Nat.mod_lt _ (by decide)
  have e : 255 - m / 256 % 256 = 2 ^ 8 - (m / 2 ^ 8 % 2 ^ 8 + 1) := by omega
  have h1 : (0xff00 : Nat) = 255 <<< 8 := by decide
  have h3 : (255 : Nat) = 2 ^ 8 - 1 := by decide
  rw [Nat.testBit_shiftRight, Nat.testBit_ldiff, e, Nat.testBit_two_pow_sub_succ h,
    Nat.testBit_mod_two_pow, ← Nat.shiftRight_eq_div_pow, Nat.testBit_shiftRight, h1,
    Nat.testBit_shiftLeft, h3, Nat.testBit_two_pow_sub_one]
  by_cases hi : i < 8 <;> simp [hi]

theorem int_land_255 (u : Int) : Int.land u 255 = u % 256 := by
  cases u with
  | ofNat n =>
    show ((n &&& 255 : Nat) : Int) = (n : Int) % 256
    rw [nat_land_255]; omega
  | negSucc m =>
    show ((Nat.ldiff 255 m : Nat) : Int) = Int.negSucc m % 256
    rw [nat_ldiff_255, Int.negSucc_eq]; omega

theorem int_land_ff00_shr (u : Int) : (Int.land u 0xff00) >>> 8 = u / 256 % 256 := by
  cases u with
  | ofNat n =>
    show (((n &&& 0xff00) >>> 8 : Nat) : Int) = (n : Int) / 256 % 256
    rw [nat_land_ff00_shr]; omega
  | negSucc m =>
    show (((Nat.ldiff 0xff00 m) >>> 8 : Nat) : Int) = Int.negSucc m / 256 % 256
    rw [nat_ldiff_ff00_shr, Int.negSucc_eq]; omega

theorem pack_eq (bus device : Nat) (hd : device < 256) :
    bus <<< 8 ||| device = bus * 256 + device := by
  have h := Nat.mul_add_lt_is_or (i := 8) (b := device) (by omega) bus
  rw [Nat.shiftLeft_eq, Nat.mul_comm bus, ← h]

theorem lock_index_spi (k : BusDevices) (driver : driver_t) (unit : Int)
    (h : driver.name = "spi") :
    lock_index k driver unit = unit / 256 % 256 * k.SPI_BUS_DEVICES + unit % 256 := by
  unfold lock_index
  rw [if_pos h]
  show Int.land unit 0xff00 >>> 8 * _ + Int.land unit 255 = _
  rw [int_land_ff00_shr, int_land_255]

theorem lock_index_i2c (k : BusDevices) (driver : driver_t) (unit : Int)
    (h1 : driver.name ≠ "spi") (h : driver.name = "i2c") :
    lock_index k driver unit = unit / 256 % 256 * k.I2C_BUS_DEVICES + unit % 256 := by
  unfold lock_index
  rw [if_neg h1, if_pos h]
  show Int.land unit 0xff00 >>> 8 * _ + Int.land unit 255 = _
  rw [int_land_ff00_shr, int_land_255]

theorem lock_index_flat (k : BusDevices) (driver : driver_t) (unit : Int)
    (h1 : driver.name ≠ "spi") (h2 : driver.name ≠ "i2c") :
    lock_index k driver unit = unit := by
  unfold lock_index
  rw [if_neg h1, if_neg h2]

theorem lock_index_bus (k : BusDevices) (driver : driver_t) (D : Nat)
    (hbus : (driver.name = "spi" ∧ D = k.SPI_BUS_DEVICES) ∨
      (driver.name = "i2c" ∧ D = k.I2C_BUS_DEVICES)) (unit : Int) :
    lock_index k driver unit = unit / 256 % 256 * D + unit % 256 := by
  rcases hbus with ⟨h, hD⟩ | ⟨h, hD⟩
  · rw [hD]; exact lock_index_spi k driver unit h
  · by_cases h1 : driver.name = "spi"
    · rw [h1] at h
      exact absurd h (by decide)
    · rw [hD]; exact lock_index_i2c k driver unit h1 h

theorem write_lock_same_value {drivers : List driver_t} {T : Nat} {td : driver_t}
    {tl : List driver_unit_lock_t} {idx : Nat} {l : driver_unit_lock_t}
    (hT : drivers[T]? = some td) (htl : td.lock = some tl) (hl : tl[idx]? = some l) :
    write_lock drivers T td tl idx l = drivers := by
  have hset : tl.set idx l = tl := by
    apply List.ext_getElem?
    intro n
    by_cases hn : idx = n
    · subst hn
      rw [List.getElem?_set, if_pos rfl, hl]
      rcases List.getElem?_eq_some.mp hl with ⟨h, _⟩
      rw [if_pos h]
    · rw [List.getElem?_set_ne hn]
  have htd : ({ td with lock := some (tl.set idx l) } : driver_t) = td := by
    rw [hset, ← htl]
  unfold write_lock
  rw [htd]
  apply List.ext_getElem?
  intro n
  by_cases hn : T = n
  · subst hn
    rw [List.getElem?_set, if_pos rfl, hT]
    rcases List.getElem?_eq_some.mp hT with ⟨h, _⟩
    rw [if_pos h]
  · rw [List.getElem?_set_ne hn]

/-! ## The registry and error table scans -/

theorem findIdx?_first {α : Type} (p : α → Bool) (ds : List α) (i : Nat) :
    ds.findIdx? p = some i ↔
      (∃ d, ds[i]? = some d ∧ p d = true) ∧
        ∀ j, j < i → ∀ d, ds[j]? = some d → p d = false := by
  rw [List.findIdx?_eq_some_iff_getElem]
  constructor
  · rintro ⟨h, hp, hlt⟩
    refine ⟨⟨ds[i], List.getElem?_eq_getElem h, hp⟩, ?_⟩
    intro j hj d hd
    rcases List.getElem?_eq_some.mp hd with ⟨hjl, e⟩
    have := hlt j hj
    rw [e] at this
    simpa using this
  · rintro ⟨⟨d, hd, hp⟩, hlt⟩
    rcases List.getElem?_eq_some.mp hd with ⟨h, e⟩
    refine ⟨h, by rw [e]; exact hp, ?_⟩
    intro j hj
    have hjl : j < ds.length := Nat.lt_trans hj h
    have := hlt j hj ds[j] (List.getElem?_eq_getElem hjl)
    simp [this]

theorem driver_get_by_name_from_eq (name : String) (ds : List driver_t) (s : Nat) :
    driver_get_by_name_from name ds s = ds.findIdx? (fun d => decide (name = d.name)) s := by
  induction ds generalizing s with
  | nil => rfl
  | cons d rest ih =>
    simp only [driver_get_by_name_from, List.findIdx?_cons, decide_eq_true_eq]
    rw [ih]

theorem driver_get_by_exception_base_from_eq (b : Nat) (ds : List driver_t) (s : Nat) :
    driver_get_by_exception_base_from b ds s
      = ds.findIdx? (fun d => decide (d.exception_base = b)) s := by
  induction ds generalizing s with
  | nil => rfl
  | cons d rest ih =>
    simp only [driver_get_by_exception_base_from, List.findIdx?_cons, decide_eq_true_eq]
    rw [ih]

theorem driver_get_by_exception_base_from_find (b : Nat) (ds : List driver_t) (s : Nat) :
    (∀ p, driver_get_by_exception_base_from b ds s = some p →
      s ≤ p ∧ ds[p - s]? = ds.find? (fun d => decide (d.exception_base = b))) ∧
    (driver_get_by_exception_base_from b ds s = none →
      ds.find? (fun d => decide (d.exception_base = b)) = none) := by
  induction ds generalizing s with
  | nil =>
    constructor
    · intro p h
      cases h
    · intro _
      rfl
  | cons d rest ih =>
    by_cases hb : d.exception_base = b
    · constructor
      · intro p h
        simp only [driver_get_by_exception_base_from, if_pos hb, Option.some.injEq] at h
        subst h
        simp [hb]
      · intro h
        simp [driver_get_by_exception_base_from, hb] at h
    · obtain ⟨ih1, ih2⟩ := ih (s + 1)
      constructor
      · intro p h
        simp only [driver_get_by_exception_base_from, if_neg hb] at h
        obtain ⟨hle, hget⟩ := ih1 p h
        have e : p - s = (p - (s + 1)) + 1 := by omega
        refine ⟨by omega, ?_⟩
        rw [e, List.getElem?_cons_succ, hget, List.find?_cons_of_neg]
        simpa using hb
      · intro h
        simp only [driver_get_by_exception_base_from, if_neg hb] at h
        rw [List.find?_cons_of_neg, ih2 h]
        simpa using hb

theorem scan_messages_rows (code : Nat) (table : List driver_message_t) :
    scan_messages code table =
      match (error_rows table).find? (fun m => decide (m.exception = code)) with
      | some m => m.message
      | none => none := by
  induction table with
  | nil => rfl
  | cons m rest ih =>
    unfold scan_messages error_rows
    cases hm : m.message with
    | none => simp [List.takeWhile_cons, hm]
    | some s =>
      by_cases hc : m.exception = code
      · simp [List.takeWhile_cons, hm, hc]
      · simp only [List.takeWhile_cons, hm, Option.isSome_some, if_true, if_neg hc]
        rw [List.find?_cons_of_neg _ (by simpa using hc), ih]
        rfl

theorem driver_get_err_msg_by_exception_eq (drivers : List driver_t) (code : Nat) :
    driver_get_err_msg_by_exception drivers code = resolve_message_by_code drivers code := by
  unfold driver_get_err_msg_by_exception resolve_message_by_code driver_get_by_exception_base
  obtain ⟨h1, h2⟩ := driver_get_by_exception_base_from_find
    (code &&& 0b11111111000000000000000000000000) drivers 0
  have hm : (0b11111111000000000000000000000000 : Nat) = NAMESPACE_MASK := rfl
  cases hp : driver_get_by_exception_base_from
      (code &&& 0b11111111000000000000000000000000) drivers 0 with
  | none =>
    have := h2 hp
    rw [hm] at this
    simp only [this]
  | some p =>
    obtain ⟨_, hget⟩ := h1 p hp
    rw [Nat.sub_zero, hm] at hget
    simp only []
    rw [hget]
    cases drivers.find? (fun d => decide (d.exception_base = code &&& NAMESPACE_MASK)) with
    | none => rfl
    | some d => exact scan_messages_rows code d.error

/-- A granted `driver_lock` made as `(A, u)` on a target with a lock array
leaves the slot recorded for `A` with the unit `lock_owner_unit od u`. -/
theorem driver_lock_granted_records {k : BusDevices} {drivers drivers2 : List driver_t}
    {A T : Nat} {od td : driver_t} {u v : Int} {flags : Nat} {tag : Option String}
    {l : driver_unit_lock_t}
    (hA : drivers[A]? = some od) (hT : drivers[T]? = some td)
    (hs : slot_at drivers T (lock_index k td v) = some l)
    (hg : driver_lock k drivers A u T v flags tag = some (drivers2, none)) :
    ∃ l2, slot_at drivers2 T (lock_index k td v) = some l2 ∧
      l2.owner = some A ∧ l2.unit = lock_owner_unit od u := by
  obtain ⟨tl, htl, hi, hl⟩ := slot_at_eq_some hT hs
  have hlen : (lock_index k td v).toNat < tl.length := by
    rcases List.getElem?_eq_some.mp hl with ⟨h, _⟩
    exact h
  cases ho : l.owner with
  | none =>
    rw [driver_lock_of_empty u flags tag hA hT htl hi hl ho] at hg
    simp only [Option.some.injEq, Prod.mk.injEq, and_true] at hg
    subst hg
    have h := slot_at_write_lock_same drivers
      { owner := some A, unit := lock_owner_unit od u, tag := tag } hT hlen
    rw [Int.toNat_of_nonneg hi] at h
    exact ⟨_, h, rfl, rfl⟩
  | some o =>
    by_cases hsame : o = A ∧ l.unit = lock_owner_unit od u
    · rw [driver_lock_of_same u flags tag hA hT htl hi hl (hsame.1 ▸ ho) hsame.2] at hg
      simp only [Option.some.injEq, Prod.mk.injEq, and_true] at hg
      subst hg
      exact ⟨l, hs, hsame.1 ▸ ho, hsame.2⟩
    · rw [driver_lock_of_other u flags tag hA hT htl hi hl ho hsame] at hg
      simp at hg

/-! ## Lock arbitration: C1 to C4 -/

/-- C1. Conflict rollback.  Let `A` be a registered driver and let the slots
`R1 = (T1, i1)` and `R2 = (T2, i2)` record owner `A` with the unit that a granted
`driver_lock` made as `(A, u)` records (`lock_owner_unit`, see
`driver_lock_granted_records`).  If the slot of `T3/v3` is held by another
driver `B`, then `driver_lock(A, u, T3, v3)` returns a lock error, and in the
resulting state `R1` and `R2` are cleared, every slot that was recorded for
`(A, u)` is cleared, no slot is recorded for `(A, u)` any more, and the slot of
`T3/v3` is exactly what it was: owner `B` with the same unit and tag. -/
theorem driver_lock_conflict_rollback (k : BusDevices) (drivers : List driver_t)
    (A B T1 T2 T3 : Nat) (od td3 : driver_t) (u v3 i1 i2 : Int) (flags : Nat)
    (tag : Option String) (r1 r2 l3 : driver_unit_lock_t)
    (hA : drivers[A]? = some od)
    (h1 : slot_at drivers T1 i1 = some r1)
    (h1o : r1.owner = some A) (h1u : r1.unit = lock_owner_unit od u)
    (h2 : slot_at drivers T2 i2 = some r2)
    (h2o : r2.owner = some A) (h2u : r2.unit = lock_owner_unit od u)
    (hT3 : drivers[T3]? = some td3)
    (h3 : slot_at drivers T3 (lock_index k td3 v3) = some l3)
    (h3o : l3.owner = some B) (hBA : B ≠ A) :
    ∃ drivers2 err,
      driver_lock k drivers A u T3 v3 flags tag = some (drivers2, some err) ∧
      slot_at drivers2 T1 i1 = some empty_lock ∧
      slot_at drivers2 T2 i2 = some empty_lock ∧
      (∀ d i l, slot_at drivers d i = some l → l.owner = some A →
        l.unit = lock_owner_unit od u → slot_at drivers2 d i = some empty_lock) ∧
      (∀ d i l, slot_at drivers2 d i = some l →
        ¬ (l.owner = some A ∧ l.unit = lock_owner_unit od u)) ∧
      slot_at drivers2 T3 (lock_index k td3 v3) = some l3 := by
  obtain ⟨tl, htl, hi, hl⟩ := slot_at_eq_some hT3 h3
  have hne : ¬ (B = A ∧ l3.unit = lock_owner_unit od u) := fun h => hBA h.1
  have hclr : ∀ d i l, slot_at drivers d i = some l → l.owner = some A →
      l.unit = lock_owner_unit od u →
      slot_at (driver_unlock_all drivers A (lock_owner_unit od u)) d i = some empty_lock := by
    intro d i l hs ho hu
    rw [slot_at_unlock_all, hs, Option.map_some', unlock_matching_of_eq ho hu]
  refine ⟨_, _, driver_lock_of_other u flags tag hA hT3 htl hi hl h3o hne,
    hclr _ _ _ h1 h1o h1u, hclr _ _ _ h2 h2o h2u, hclr, ?_, ?_⟩
  · intro d i l hs
    rw [slot_at_unlock_all] at hs
    cases hs0 : slot_at drivers d i with
    | none => rw [hs0] at hs; cases hs
    | some l0 =>
      rw [hs0, Option.map_some'] at hs
      cases hs
      exact unlock_matching_not_held _ _ _
  · rw [slot_at_unlock_all, h3, Option.map_some', unlock_matching_of_ne]
    rw [h3o]
    intro h
    exact hBA (Option.some.inj h.1)

/-- C1 at a concrete input: in `held_registry` "adc" (position 2, unit 0) holds
"gpio" 0 and 1 and "display" (position 4) holds "gpio" 2; the request of "adc"
for "gpio" 2 is denied, "gpio" 0 and 1 are cleared and "gpio" 2 is still held
by "display". -/
theorem driver_lock_conflict_rollback_witness :
    ∃ drivers2 err,
      driver_lock sample_bus held_registry 2 0 3 2 0 none = some (drivers2, some err) ∧
      slot_at drivers2 3 0 = some empty_lock ∧
      slot_at drivers2 3 1 = some empty_lock ∧
      slot_at drivers2 3 2 = some ⟨some 4, 0, none⟩ := by
  obtain ⟨drivers2, err, h, h1, h2, _, _, h3⟩ :=
    driver_lock_conflict_rollback sample_bus held_registry 2 4 3 3 3 _ _ 0 2 0 1 0 none
      ⟨some 2, 0, none⟩ ⟨some 2, 0, none⟩ ⟨some 4, 0, none⟩
      rfl (by decide) rfl rfl (by decide) rfl rfl rfl (by decide) rfl (by decide)
  exact ⟨drivers2, err, h, h1, h2, h3⟩

/-- C2. Deny-iff.  For a registered owner `A` and a target `T` whose lock array
holds the slot `l` at `lock_index(T, v)`, `driver_lock(A, u, T, v, flags, tag)`
returns a result, and that result is a lock error if and only if `l` is not
empty and its recorded (owner, unit) is not `(A, lock_owner_unit A u)`; whenever
a lock error is returned the slot is still `l` (same owner, unit and tag). -/
theorem driver_lock_deny_iff (k : BusDevices) (drivers : List driver_t) (A T : Nat)
    (od td : driver_t) (u v : Int) (flags : Nat) (tag : Option String)
    (l : driver_unit_lock_t)
    (hA : drivers[A]? = some od) (hT : drivers[T]? = some td)
    (hs : slot_at drivers T (lock_index k td v) = some l) :
    ∃ drivers2 res,
      driver_lock k drivers A u T v flags tag = some (drivers2, res) ∧
      (res ≠ none ↔
        (l.owner ≠ none ∧ ¬ (l.owner = some A ∧ l.unit = lock_owner_unit od u))) ∧
      (res ≠ none → slot_at drivers2 T (lock_index k td v) = some l) := by
  obtain ⟨tl, htl, hi, hl⟩ := slot_at_eq_some hT hs
  cases ho : l.owner with
  | none =>
    refine ⟨_, _, driver_lock_of_empty u flags tag hA hT htl hi hl ho, ?_, ?_⟩
    · simp
    · simp
  | some o =>
    by_cases hsame : o = A ∧ l.unit = lock_owner_unit od u
    · refine ⟨_, _,
        driver_lock_of_same u flags tag hA hT htl hi hl (hsame.1 ▸ ho) hsame.2, ?_, ?_⟩
      · simp [hsame.1, hsame.2]
      · simp
    · refine ⟨_, _, driver_lock_of_other u flags tag hA hT htl hi hl ho hsame, ?_, ?_⟩
      · simp only [ne_eq, not_false_eq_true, true_iff, reduceCtorEq, Option.some.injEq]
        exact ⟨trivial, hsame⟩
      · intro _
        rw [slot_at_unlock_all, hs, Option.map_some', unlock_matching_of_ne]
        rw [ho]
        intro h
        exact hsame ⟨Option.some.inj h.1, h.2⟩

/-- C2 at a concrete input: in `adc_registry` "adc" unit 0 holds device
`ADS1115_ADDR1` of "i2c" bus 0 (slot 72); the request of "display" (position 4)
for the same bus and device is denied and the slot still records ("adc", 0). -/
theorem driver_lock_deny_iff_witness :
    ∃ drivers2 res,
      driver_lock sample_bus adc_registry 4 0 1 ((0 <<< 8 ||| ADS1115_ADDR1 : Nat) : Int)
        0 none = some (drivers2, res) ∧
      res ≠ none ∧ slot_at drivers2 1 72 = some ⟨some 2, 0, none⟩ := by
  obtain ⟨drivers2, res, h, hiff, hkeep⟩ :=
    driver_lock_deny_iff sample_bus adc_registry 4 1 _ _ 0
      ((0 <<< 8 ||| ADS1115_ADDR1 : Nat) : Int) 0 none ⟨some 2, 0, none⟩
      rfl rfl (by decide)
  have hres : res ≠ none := hiff.mpr (by decide)
  exact ⟨drivers2, res, h, hres, hkeep hres⟩

/-- C3. Grant into an empty slot.  For a registered owner `A` and a target `T`
whose slot at `lock_index(T, v)` has no owner, `driver_lock` returns no error,
afterwards that slot records owner `A`, the owner unit as `driver_lock`
normalizes it (`lock_owner_unit`) and the tag, and every other slot of every
driver reads as before. -/
theorem driver_lock_grant_empty (k : BusDevices) (drivers : List driver_t) (A T : Nat)
    (od td : driver_t) (u v : Int) (flags : Nat) (tag : Option String)
    (l : driver_unit_lock_t)
    (hA : drivers[A]? = some od) (hT : drivers[T]? = some td)
    (hs : slot_at drivers T (lock_index k td v) = some l) (ho : l.owner = none) :
    ∃ drivers2,
      driver_lock k drivers A u T v flags tag = some (drivers2, none) ∧
      slot_at drivers2 T (lock_index k td v)
        = some { owner := some A, unit := lock_owner_unit od u, tag := tag } ∧
      (∀ d i, (d, i) ≠ (T, lock_index k td v) →
        slot_at drivers2 d i = slot_at drivers d i) := by
  obtain ⟨tl, htl, hi, hl⟩ := slot_at_eq_some hT hs
  have hlen : (lock_index k td v).toNat < tl.length := by
    rcases List.getElem?_eq_some.mp hl with ⟨h, _⟩
    exact h
  refine ⟨_, driver_lock_of_empty u flags tag hA hT htl hi hl ho, ?_, ?_⟩
  · have h := slot_at_write_lock_same drivers
      { owner := some A, unit := lock_owner_unit od u, tag := tag } hT hlen
    rw [Int.toNat_of_nonneg hi] at h
    exact h
  · intro d i hne
    apply slot_at_write_lock_other _ hT htl
    rw [Int.toNat_of_nonneg hi]
    exact hne

/-- C3 at a concrete input: "spi" (position 0) as owner with unit 1 locks
"gpio" 3 in the cleared registry; the slot records ("spi", 1 << 8, "cs") and
"gpio" 2 is untouched. -/
theorem driver_lock_grant_empty_witness :
    ∃ drivers2,
      driver_lock sample_bus sample_registry 0 1 3 3 0 (some "cs") = some (drivers2, none) ∧
      slot_at drivers2 3 3 = some ⟨some 0, 256, some "cs"⟩ ∧
      slot_at drivers2 3 2 = slot_at sample_registry 3 2 := by
  obtain ⟨drivers2, h, hslot, hframe⟩ :=
    driver_lock_grant_empty sample_bus sample_registry 0 3 _ _ 1 3 0 (some "cs") empty_lock
      rfl rfl (by decide) rfl
  exact ⟨drivers2, h, hslot, hframe 3 2 (by decide)⟩

/-- C4. Idempotent re-acquisition.  For a registered owner `A` and a target `T`
whose slot at `lock_index(T, v)` has no owner, `driver_lock(A, u, T, v)`
returns no error, a second `driver_lock(A, u, T, v)` (whatever its flags and
tag) returns no error as well and leaves the state reached by the first call
unchanged; in that state the slot is owned by `(A, u)`: it records owner `A`
and the unit `driver_lock` records for `u` (`lock_owner_unit`), which is the
ownership test `driver_lock` itself applies. -/
theorem driver_lock_reacquire (k : BusDevices) (drivers : List driver_t) (A T : Nat)
    (od td : driver_t) (u v : Int) (flags flags2 : Nat) (tag tag2 : Option String)
    (l : driver_unit_lock_t)
    (hA : drivers[A]? = some od) (hT : drivers[T]? = some td)
    (hs : slot_at drivers T (lock_index k td v) = some l) (ho : l.owner = none) :
    ∃ drivers1,
      driver_lock k drivers A u T v flags tag = some (drivers1, none) ∧
      driver_lock k drivers1 A u T v flags2 tag2 = some (drivers1, none) ∧
      slot_at drivers1 T (lock_index k td v)
        = some { owner := some A, unit := lock_owner_unit od u, tag := tag } := by
  obtain ⟨tl, htl, hi, hl⟩ := slot_at_eq_some hT hs
  have hlen : (lock_index k td v).toNat < tl.length := by
    rcases List.getElem?_eq_some.mp hl with ⟨h, _⟩
    exact h
  obtain ⟨od1, hA1, hname⟩ := write_lock_getElem?_name tl (lock_index k td v).toNat
    { owner := some A, unit := lock_owner_unit od u, tag := tag } hT hA
  have hT1 := write_lock_getElem?_self drivers tl (lock_index k td v).toNat
    { owner := some A, unit := lock_owner_unit od u, tag := tag } hT
  have hslot := slot_at_write_lock_same drivers
    { owner := some A, unit := lock_owner_unit od u, tag := tag } hT hlen
  rw [Int.toNat_of_nonneg hi] at hslot
  refine ⟨_, driver_lock_of_empty u flags tag hA hT htl hi hl ho, ?_, hslot⟩
  have hidx : lock_index k
      { td with lock := some (tl.set (lock_index k td v).toNat
        { owner := some A, unit := lock_owner_unit od u, tag := tag }) } v
      = lock_index k td v := rfl
  apply driver_lock_of_same (l := { owner := some A, unit := lock_owner_unit od u, tag := tag })
    u flags2 tag2 hA1 hT1 rfl
  · rw [hidx]; exact hi
  · rw [hidx]; exact List.getElem?_set_self hlen
  · rfl
  · exact (lock_owner_unit_congr hname u).symm

/-- C4 at a concrete input: "adc" unit 0 locks device `ADS1115_ADDR1` of "i2c"
bus 0 twice in the cleared registry. -/
theorem driver_lock_reacquire_witness :
    ∃ drivers1,
      driver_lock sample_bus sample_registry 2 0 1 72 0 (some "ads1115")
        = some (drivers1, none) ∧
      driver_lock sample_bus drivers1 2 0 1 72 0 none = some (drivers1, none) ∧
      slot_at drivers1 1 72 = some ⟨some 2, 0, some "ads1115"⟩ :=
  driver_lock_reacquire sample_bus sample_registry 2 1 _ _ 0 72 0 0 (some "ads1115") none
    empty_lock rfl rfl (by decide) rfl

/-! ## Slot indices: C5 -/

/-- C5. Bus packing round trip and injectivity.  For a driver named "spi" or
"i2c", with `D` the matching constant (`SPI_BUS_DEVICES`, `I2C_BUS_DEVICES`) and
a device number fitting the low byte (`D ≤ 256`): for every bus in [0, 255] and
device in [0, D - 1], with `unit = (bus << 8) | device`, the decoding of
`lock_index` gives `(unit & 0xff00) >> 8 = bus` and `unit & 0xff = device`, and
`lock_index` returns `bus * D + device`; two distinct such pairs give distinct
indices.  For a driver with any other name `lock_index` returns the unit. -/
theorem lock_index_bus_packing (k : BusDevices) (driver : driver_t) :
    (∀ D : Nat,
      ((driver.name = "spi" ∧ D = k.SPI_BUS_DEVICES) ∨
        (driver.name = "i2c" ∧ D = k.I2C_BUS_DEVICES)) → D ≤ 256 →
      (∀ bus device : Nat, bus ≤ 255 → device < D →
        Int.land ((bus <<< 8 ||| device : Nat) : Int) 0xff00 >>> 8 = (bus : Int) ∧
        Int.land ((bus <<< 8 ||| device : Nat) : Int) 0xff = (device : Int) ∧
        lock_index k driver ((bus <<< 8 ||| device : Nat) : Int)
          = (bus : Int) * D + device) ∧
      (∀ bus1 device1 bus2 device2 : Nat, bus1 ≤ 255 → device1 < D → bus2 ≤ 255 →
        device2 < D → (bus1, device1) ≠ (bus2, device2) →
        lock_index k driver ((bus1 <<< 8 ||| device1 : Nat) : Int)
          ≠ lock_index k driver ((bus2 <<< 8 ||| device2 : Nat) : Int))) ∧
    (driver.name ≠ "spi" → driver.name ≠ "i2c" →
      ∀ unit : Int, lock_index k driver unit = unit) := by
  refine ⟨?_, fun h1 h2 unit => lock_index_flat k driver unit h1 h2⟩
  intro D hbus hD
  have key : ∀ bus device : Nat, bus ≤ 255 → device < D →
      (((bus <<< 8 ||| device : Nat) : Int) / 256 % 256 = bus ∧
       ((bus <<< 8 ||| device : Nat) : Int) % 256 = device) := by
    intro bus device hb hdev
    rw [pack_eq bus device (by omega)]
    push_cast
    omega
  constructor
  · intro bus device hb hdev
    obtain ⟨e1, e2⟩ := key bus device hb hdev
    refine ⟨?_, ?_, ?_⟩
    · rw [int_land_ff00_shr]; exact e1
    · rw [int_land_255]; exact e2
    · rw [lock_index_bus k driver D hbus, e1, e2]
  · intro b1 d1 b2 d2 hb1 hd1 hb2 hd2 hne heq
    obtain ⟨e1, e2⟩ := key b1 d1 hb1 hd1
    obtain ⟨f1, f2⟩ := key b2 d2 hb2 hd2
    rw [lock_index_bus k driver D hbus, lock_index_bus k driver D hbus, e1, e2, f1, f2] at heq
    apply hne
    have hq : (b1 : Int) = b2 := by
      have h1 : ((b1 : Int) * D + d1) / D = b1 := by
        rw [Int.add_comm, Int.add_mul_ediv_right _ _ (by omega)]
        rw [Int.ediv_eq_zero_of_lt (by omega) (by omega)]; simp
      have h2 : ((b2 : Int) * D + d2) / D = b2 := by
        rw [Int.add_comm, Int.add_mul_ediv_right _ _ (by omega)]
        rw [Int.ediv_eq_zero_of_lt (by omega) (by omega)]; simp
      rw [← h1, ← h2, heq]
    have hb : b1 = b2 := by exact_mod_cast hq
    subst hb
    have hd : d1 = d2 := by omega
    rw [hd]


/-- C5 at a concrete input: the "spi" driver with 3 devices per bus, bus 1 and
device 2. -/
theorem lock_index_bus_packing_witness :
    Int.land ((1 <<< 8 ||| 2 : Nat) : Int) 0xff00 >>> 8 = 1 ∧
    Int.land ((1 <<< 8 ||| 2 : Nat) : Int) 0xff = 2 ∧
    lock_index sample_bus (sample_driver "spi" 0x01000000 (some 6))
      ((1 <<< 8 ||| 2 : Nat) : Int) = 5 :=
  ((lock_index_bus_packing sample_bus (sample_driver "spi" 0x01000000 (some 6))).1 3
    (Or.inl ⟨rfl, rfl⟩) (by decide)).1 1 2 (by decide) (by decide)

/-! ## Release: C6 and C7 -/

/-- C6. Release is unconditional, local and idempotent.  For a registered
target `T` and any caller `(owner_driver, owner_unit)`: if the lock array of `T`
holds a slot `l` at `lock_index(T, v)`, whoever its owner is, `driver_unlock`
returns a state in which that slot is cleared (owner empty, unit 0, tag empty)
and every other slot reads as before, and if `l` was already the cleared slot
the whole state is unchanged; if `T` has no lock array the whole state is
unchanged. -/
theorem driver_unlock_unconditional (k : BusDevices) (drivers : List driver_t)
    (owner_driver : Nat) (owner_unit : Int) (T : Nat) (td : driver_t) (v : Int)
    (hT : drivers[T]? = some td) :
    (∀ l, slot_at drivers T (lock_index k td v) = some l →
      ∃ drivers2,
        driver_unlock k drivers owner_driver owner_unit T v = some drivers2 ∧
        slot_at drivers2 T (lock_index k td v) = some empty_lock ∧
        (∀ d i, (d, i) ≠ (T, lock_index k td v) →
          slot_at drivers2 d i = slot_at drivers d i) ∧
        (l = empty_lock → drivers2 = drivers)) ∧
    (td.lock = none → driver_unlock k drivers owner_driver owner_unit T v = some drivers) := by
  constructor
  · intro l hs
    obtain ⟨tl, htl, hi, hl⟩ := slot_at_eq_some hT hs
    have hlen : (lock_index k td v).toNat < tl.length := by
      rcases List.getElem?_eq_some.mp hl with ⟨h, _⟩
      exact h
    refine ⟨write_lock drivers T td tl (lock_index k td v).toNat empty_lock, ?_, ?_, ?_, ?_⟩
    · simp only [driver_unlock, hT, htl]
      rw [if_pos ⟨hi, hlen⟩]
      rfl
    · have h := slot_at_write_lock_same drivers empty_lock hT hlen
      rw [Int.toNat_of_nonneg hi] at h
      exact h
    · intro d i hne
      apply slot_at_write_lock_other _ hT htl
      rw [Int.toNat_of_nonneg hi]
      exact hne
    · intro he
      subst he
      exact write_lock_same_value hT htl hl
  · intro hnone
    simp only [driver_unlock, hT, hnone]


/-- C6 at a concrete input: in `held_registry`, "adc" releases "gpio" 2, which
"display" holds: the slot is cleared and "gpio" 0 is untouched. -/
theorem driver_unlock_unconditional_witness :
    ∃ drivers2,
      driver_unlock sample_bus held_registry 2 0 3 2 = some drivers2 ∧
      slot_at drivers2 3 2 = some empty_lock ∧
      slot_at drivers2 3 0 = slot_at held_registry 3 0 := by
  obtain ⟨drivers2, h, hslot, hframe, _⟩ :=
    (driver_unlock_unconditional sample_bus held_registry 2 0 3 _ 2 rfl).1
      ⟨some 4, 0, none⟩ (by decide)
  exact ⟨drivers2, h, hslot, hframe 3 0 (by decide)⟩

/-- C7. Function `driver_unlock_all` clears exactly the matching slots.  For
every state, owner `A` and unit `u`, and every slot `l` of the table (a slot of
the lock array of a registered driver, within its number of slots): if `l`
recorded owner `A` and unit `u` it is the cleared slot afterwards (owner empty,
unit 0, tag empty), and otherwise it is unchanged. -/
theorem driver_unlock_all_exact (drivers : List driver_t) (A : Nat) (u : Int) (d : Nat)
    (i : Int) (l : driver_unit_lock_t) (hs : slot_at drivers d i = some l) :
    ((l.owner = some A ∧ l.unit = u) →
      slot_at (driver_unlock_all drivers A u) d i = some empty_lock) ∧
    (¬ (l.owner = some A ∧ l.unit = u) →
      slot_at (driver_unlock_all drivers A u) d i = some l) := by
  rw [slot_at_unlock_all, hs, Option.map_some']
  constructor
  · intro h
    rw [unlock_matching_of_eq h.1 h.2]
  · intro h
    rw [unlock_matching_of_ne h]


/-- C7 at a concrete input: `driver_unlock_all("adc", 0)` in `held_registry`
clears "gpio" 0, held by ("adc", 0), and leaves "gpio" 2, held by "display". -/
theorem driver_unlock_all_exact_witness :
    slot_at (driver_unlock_all held_registry 2 0) 3 0 = some empty_lock ∧
    slot_at (driver_unlock_all held_registry 2 0) 3 2 = some ⟨some 4, 0, none⟩ :=
  ⟨(driver_unlock_all_exact held_registry 2 0 3 0 ⟨some 2, 0, none⟩ (by decide)).1
      (by decide),
   (driver_unlock_all_exact held_registry 2 0 3 2 ⟨some 4, 0, none⟩ (by decide)).2
      (by decide)⟩

/-! ## Lookups: C8 to C10 -/

/-- C8. Error message resolution by code.  For every registry and code,
`driver_get_err_msg_by_exception` is `resolve_message_by_code`: with `d` the
first driver whose `exception_base` equals `code & 0xFF000000`, it returns the
message of the first row of the error table of `d` with exactly that code; it
returns absent when no row of that table has the code, and absent when no
driver has that base.  With the table `[(0x10000001, "timeout"),
(0x10000002, "nack")]` and base `0x10000000`, code `0x10000002` gives "nack". -/
theorem driver_get_err_msg_by_exception_resolution :
    (∀ (drivers : List driver_t) (code : Nat),
      driver_get_err_msg_by_exception drivers code = resolve_message_by_code drivers code) ∧
    (∀ (drivers : List driver_t) (code : Nat) (d : driver_t) (m : driver_message_t),
      drivers.find? (fun d => decide (d.exception_base = code &&& 0xFF000000)) = some d →
      (error_rows d.error).find? (fun m => decide (m.exception = code)) = some m →
      driver_get_err_msg_by_exception drivers code = m.message ∧ m.message ≠ none) ∧
    (∀ (drivers : List driver_t) (code : Nat) (d : driver_t),
      drivers.find? (fun d => decide (d.exception_base = code &&& 0xFF000000)) = some d →
      (∀ m, m ∈ error_rows d.error → m.exception ≠ code) →
      driver_get_err_msg_by_exception drivers code = none) ∧
    (∀ (drivers : List driver_t) (code : Nat),
      (∀ d, d ∈ drivers → d.exception_base ≠ code &&& 0xFF000000) →
      driver_get_err_msg_by_exception drivers code = none) ∧
    driver_get_err_msg_by_exception nack_registry 0x10000002 = some "nack" := by
  refine ⟨driver_get_err_msg_by_exception_eq, ?_, ?_, ?_, by decide⟩
  · intro drivers code d m hd hm
    have hd2 : drivers.find? (fun d => decide (d.exception_base = code &&& NAMESPACE_MASK))
        = some d := hd
    rw [driver_get_err_msg_by_exception_eq]
    unfold resolve_message_by_code
    rw [hd2]
    simp only [hm]
    refine ⟨trivial, ?_⟩
    have hmem : m ∈ error_rows d.error := List.mem_of_find?_eq_some hm
    have hall := List.all_takeWhile (l := d.error) (p := fun m => m.message.isSome)
    rw [List.all_eq_true] at hall
    have := hall m hmem
    intro e
    rw [e] at this
    cases this
  · intro drivers code d hd hnone
    have hd2 : drivers.find? (fun d => decide (d.exception_base = code &&& NAMESPACE_MASK))
        = some d := hd
    rw [driver_get_err_msg_by_exception_eq]
    unfold resolve_message_by_code
    rw [hd2]
    have : (error_rows d.error).find? (fun m => decide (m.exception = code)) = none := by
      rw [List.find?_eq_none]
      intro m hm
      simpa using hnone m hm
    simp only [this]
  · intro drivers code hnone
    rw [driver_get_err_msg_by_exception_eq]
    unfold resolve_message_by_code
    have : drivers.find? (fun d => decide (d.exception_base = code &&& NAMESPACE_MASK))
        = none := by
      rw [List.find?_eq_none]
      intro d hd
      simpa using hnone d hd
    simp only [this]


/-- C9, as stated, fails: `driver_get_by_exception_base` does not mask its
argument.  In `nack_registry` the first descriptor whose `exception_base`
equals `0x10000002 & NAMESPACE_MASK` is at position 0, yet the lookup applied
to the full code `0x10000002` returns absent. -/
theorem driver_get_by_exception_base_unmasked :
    driver_get_by_exception_base nack_registry 0x10000002 = none ∧
    find_by_exception_namespace nack_registry 0x10000002 = some 0 := by
  constructor <;> decide


/-- C9, amended.  Function `driver_get_by_exception_base` compares its argument
as given: it returns the first descriptor in registry order whose
`exception_base` equals the argument, and absent if and only if there is none.
The mask is applied by its caller `driver_get_err_msg_by_exception`: applied to
`code & NAMESPACE_MASK` the lookup is `find_by_exception_namespace code`. -/
theorem driver_get_by_exception_base_exact (drivers : List driver_t) :
    (∀ b i, driver_get_by_exception_base drivers b = some i ↔
      ((∃ d, drivers[i]? = some d ∧ d.exception_base = b) ∧
        ∀ j, j < i → ∀ d, drivers[j]? = some d → d.exception_base ≠ b)) ∧
    (∀ b, driver_get_by_exception_base drivers b = none ↔
      ∀ d, d ∈ drivers → d.exception_base ≠ b) ∧
    (∀ code, driver_get_by_exception_base drivers (code &&& NAMESPACE_MASK)
      = find_by_exception_namespace drivers code) := by
  unfold driver_get_by_exception_base
  refine ⟨?_, ?_, ?_⟩
  · intro b i
    rw [driver_get_by_exception_base_from_eq, findIdx?_first]
    simp only [decide_eq_true_eq, decide_eq_false_iff_not]
  · intro b
    rw [driver_get_by_exception_base_from_eq, List.findIdx?_eq_none_iff]
    simp only [decide_eq_false_iff_not]
  · intro code
    rw [driver_get_by_exception_base_from_eq]
    rfl


/-- C10. Function `driver_get_by_name` is an exact, first-match lookup: it
returns position `i` if and only if the descriptor at `i` has exactly that name
and no descriptor before `i` has it, and it returns absent if and only if no
registered descriptor has that name. -/
theorem driver_get_by_name_first_match (drivers : List driver_t) (name : String) :
    (∀ i, driver_get_by_name drivers name = some i ↔
      ((∃ d, drivers[i]? = some d ∧ d.name = name) ∧
        ∀ j, j < i → ∀ d, drivers[j]? = some d → d.name ≠ name)) ∧
    (driver_get_by_name drivers name = none ↔ ∀ d, d ∈ drivers → d.name ≠ name) := by
  unfold driver_get_by_name
  rw [driver_get_by_name_from_eq]
  constructor
  · intro i
    rw [findIdx?_first]
    simp only [decide_eq_true_eq, decide_eq_false_iff_not]
    constructor
    · rintro ⟨⟨d, hd, hn⟩, hlt⟩
      exact ⟨⟨d, hd, hn.symm⟩, fun j hj d hd e => hlt j hj d hd e.symm⟩
    · rintro ⟨⟨d, hd, hn⟩, hlt⟩
      exact ⟨⟨d, hd, hn.symm⟩, fun j hj d hd e => hlt j hj d hd e.symm⟩
  · rw [List.findIdx?_eq_none_iff]
    simp only [decide_eq_false_iff_not]
    constructor
    · intro h d hd e
      exact h d hd e.symm
    · intro h d hd e
      exact h d hd e.symm

/-! ## Owner units, delegated locks and lock errors: C11 to C13 -/

/-- C11, as stated, fails for the "i2c" driver as owner: in the cleared
registry "i2c" (position 1) with owner unit 1 locks "gpio" 0, access is
granted and the slot records unit 1, not the shifted unit `1 << 8 = 256`. -/
theorem driver_lock_i2c_owner_unshifted :
    (driver_lock sample_bus sample_registry 1 1 3 0 0 none).map
        (fun r => (slot_at r.1 3 0, r.2))
      = some (some ⟨some 1, 1, none⟩, none) ∧
    (1 : Int) ≠ int32_wrap (1 * 256) := by
  constructor <;> decide

/-- C11, amended.  For a request `driver_lock(A, u, T, v)` granted into a slot
with no owner, the unit recorded in the slot is `u << 8` (as a 32-bit `int`,
which is `u * 256` for `-2^23 ≤ u < 2^23`) when `A` is the "spi" driver, and is
`u` itself for every other owner, the "i2c" driver included. -/
theorem driver_lock_owner_unit_spi_only (k : BusDevices) (drivers : List driver_t)
    (A T : Nat) (od td : driver_t) (u v : Int) (flags : Nat) (tag : Option String)
    (l : driver_unit_lock_t)
    (hA : drivers[A]? = some od) (hT : drivers[T]? = some td)
    (hs : slot_at drivers T (lock_index k td v) = some l) (ho : l.owner = none) :
    ∃ drivers2 l2,
      driver_lock k drivers A u T v flags tag = some (drivers2, none) ∧
      slot_at drivers2 T (lock_index k td v) = some l2 ∧
      (od.name = "spi" → l2.unit = int32_wrap (u * 256)) ∧
      (od.name = "spi" → -8388608 ≤ u → u < 8388608 → l2.unit = u * 256) ∧
      (od.name ≠ "spi" → l2.unit = u) := by
  obtain ⟨tl, htl, hi, hl⟩ := slot_at_eq_some hT hs
  have hlen : (lock_index k td v).toNat < tl.length := by
    rcases List.getElem?_eq_some.mp hl with ⟨h, _⟩
    exact h
  have hslot := slot_at_write_lock_same drivers
    { owner := some A, unit := lock_owner_unit od u, tag := tag } hT hlen
  rw [Int.toNat_of_nonneg hi] at hslot
  refine ⟨_, _, driver_lock_of_empty u flags tag hA hT htl hi hl ho, hslot, ?_, ?_, ?_⟩
  · intro h
    show lock_owner_unit od u = _
    unfold lock_owner_unit
    rw [if_pos h]
  · intro h h1 h2
    show lock_owner_unit od u = _
    unfold lock_owner_unit int32_wrap
    rw [if_pos h]
    omega
  · intro h
    show lock_owner_unit od u = _
    unfold lock_owner_unit
    rw [if_neg h]

/-- C11 amended, at a concrete input: "spi" (position 0) with owner unit 1 and
"i2c" (position 1) with owner unit 1 both lock a "gpio" pin. -/
theorem driver_lock_owner_unit_spi_only_witness :
    (∃ drivers2 l2,
      driver_lock sample_bus sample_registry 0 1 3 0 0 none = some (drivers2, none) ∧
      slot_at drivers2 3 0 = some l2 ∧ l2.unit = 256) ∧
    (∃ drivers2 l2,
      driver_lock sample_bus sample_registry 1 1 3 0 0 none = some (drivers2, none) ∧
      slot_at drivers2 3 0 = some l2 ∧ l2.unit = 1) := by
  constructor
  · obtain ⟨drivers2, l2, h, hslot, _, hspi, _⟩ :=
      driver_lock_owner_unit_spi_only sample_bus sample_registry 0 3 _ _ 1 0 0 none
        empty_lock rfl rfl (by decide) rfl
    exact ⟨drivers2, l2, h, hslot, hspi rfl (by decide) (by decide)⟩
  · obtain ⟨drivers2, l2, h, hslot, _, _, hother⟩ :=
      driver_lock_owner_unit_spi_only sample_bus sample_registry 1 3 _ _ 1 0 0 none
        empty_lock rfl rfl (by decide) rfl
    exact ⟨drivers2, l2, h, hslot, hother (by decide)⟩

theorem with_lock_table_self (drivers : List driver_t) :
    with_lock_table drivers (lock_table_of drivers) = drivers := by
  induction drivers with
  | nil => rfl
  | cons d ds ih =>
    show { d with lock := d.lock } :: with_lock_table ds (lock_table_of ds) = d :: ds
    rw [ih]

/-- C12, as stated, fails in two ways.  In `reentrant_registry` the callback of
"wifi" locks a "gpio" pin through `driver_lock`: the request of "adc" for
"wifi" unit 2 is granted and the table is not unchanged, "gpio" 2 is now held
by "wifi".  In `callback_registry` the callback refuses unit 3 with an error
that carries no lock error: `driver_lock` releases "gpio" 0, which "adc" held,
and returns `NULL`, which reads as granted, not a conflict. -/
theorem driver_lock_callback_effects :
    slot_at reentrant_registry 1 2 = some empty_lock ∧
    (driver_lock sample_bus reentrant_registry 0 0 2 2 0 none).map
        (fun r => (r.2, slot_at r.1 1 2))
      = some (none, some ⟨some 2, 0, none⟩) ∧
    slot_at callback_registry 1 0 = some ⟨some 0, 0, none⟩ ∧
    (sample_lock_resources 3 0 none (lock_table_of callback_registry)).2.isSome = true ∧
    (driver_lock sample_bus callback_registry 0 0 2 3 0 none).map
        (fun r => (r.2, slot_at r.1 1 0))
      = some (none, some empty_lock) := by
  refine ⟨by decide, by decide, by decide, by decide, by decide⟩

/-- C12, amended.  Targets without a lock array.  For a registered owner `A`
and a registered target `T` with `lock == NULL`: (i) without a
`lock_resources` callback `driver_lock` returns no error and the state is
unchanged; (ii) with a callback, the callback is applied to `(v, flags, NULL)`
on the current lock table; when it returns `NULL`, `driver_lock` returns no
error and the state is the one the callback left; when it returns an error,
the state is `driver_unlock_all(A, normalized u)` applied to the state the
callback left, and `driver_lock` returns the `lock_error` field of that error:
the conflict when the error carries one, `NULL` when it carries none; (iii) a
callback that leaves the lock table as it found it leaves the prior state. -/
theorem driver_lock_no_lock_array (k : BusDevices) (drivers : List driver_t) (A T : Nat)
    (od td : driver_t) (u v : Int) (flags : Nat) (tag : Option String)
    (hA : drivers[A]? = some od) (hT : drivers[T]? = some td) (hl : td.lock = none) :
    (td.lock_resources = none →
      driver_lock k drivers A u T v flags tag = some (drivers, none)) ∧
    (∀ cb, td.lock_resources = some cb →
      (∀ table, cb v flags none (lock_table_of drivers) = (table, none) →
        driver_lock k drivers A u T v flags tag
          = some (with_lock_table drivers table, none)) ∧
      (∀ table error, cb v flags none (lock_table_of drivers) = (table, some error) →
        driver_lock k drivers A u T v flags tag
          = some (driver_unlock_all (with_lock_table drivers table) A
              (lock_owner_unit od u), error.lock_error))) ∧
    with_lock_table drivers (lock_table_of drivers) = drivers := by
  refine ⟨?_, ?_, with_lock_table_self drivers⟩
  · intro hcb
    simp only [driver_lock, hA, hT, hl, hcb]
  · intro cb hcb
    refine ⟨?_, ?_⟩
    · intro table hok
      simp only [driver_lock, hA, hT, hl, hcb, hok]
    · intro table error herr
      simp only [driver_lock, hA, hT, hl, hcb, herr]

/-- C12 amended, at concrete inputs.  In `reentrant_registry` the request of
"adc" for "wifi" unit 2 is granted and the state is the one the callback left;
its request for "wifi" unit 0 makes the callback fail on "gpio" 0, and the
lock error of the callback is returned after the rollback of "adc".  In
`callback_registry`, whose callback writes nothing, the request for "wifi"
unit 3 is refused with an error that carries no lock error and `NULL` is
returned after the rollback, and the granted request for "wifi" unit 2 leaves
the state unchanged. -/
theorem driver_lock_no_lock_array_witness :
    driver_lock sample_bus reentrant_registry 0 0 2 2 0 none
      = some (with_lock_table reentrant_registry
          (wifi_lock_resources 2 0 none (lock_table_of reentrant_registry)).1, none) ∧
    driver_lock sample_bus reentrant_registry 0 0 2 0 0 none
      = some (driver_unlock_all (with_lock_table reentrant_registry
          (wifi_lock_resources 0 0 none (lock_table_of reentrant_registry)).1) 0 0,
        some { lock := (1, 0), owner_driver := 2, owner_unit := 0,
               target_driver := 1, target_unit := 0 }) ∧
    driver_lock sample_bus callback_registry 0 0 2 3 0 none
      = some (driver_unlock_all (with_lock_table callback_registry
          (lock_table_of callback_registry)) 0 0, none) ∧
    driver_lock sample_bus callback_registry 0 0 2 2 0 none
      = some (with_lock_table callback_registry (lock_table_of callback_registry), none) := by
  refine ⟨?_, ?_, ?_, ?_⟩
  · exact ((driver_lock_no_lock_array sample_bus reentrant_registry 0 2 _ _ 0 2 0 none
      rfl rfl rfl).2.1 wifi_lock_resources rfl).1 _ rfl
  · exact ((driver_lock_no_lock_array sample_bus reentrant_registry 0 2 _ _ 0 0 0 none
      rfl rfl rfl).2.1 wifi_lock_resources rfl).2 _ _ rfl
  · exact ((driver_lock_no_lock_array sample_bus callback_registry 0 2 _ _ 0 3 0 none
      rfl rfl rfl).2.1 sample_lock_resources rfl).2 _ _ rfl
  · exact ((driver_lock_no_lock_array sample_bus callback_registry 0 2 _ _ 0 2 0 none
      rfl rfl rfl).2.1 sample_lock_resources rfl).1 _ rfl

/-- C13, as stated, fails for a denial on a target with no lock array.  In
`reentrant_registry` the request of "adc" (position 0, unit 0) for "wifi"
(position 2) unit 0 is denied by the callback of "wifi", which could not lock
"gpio" 0: the returned error names "wifi" (position 2) as the denied party and
"gpio" 0 as the target, not "adc" and "wifi" 0, and the slot it references,
"gpio" 0, is empty after the call: the rollback released it. -/
theorem driver_lock_callback_error_content :
    (driver_lock sample_bus reentrant_registry 0 0 2 0 0 none).map
        (fun r => (r.2, slot_at r.1 1 0))
      = some (some { lock := (1, 0), owner_driver := 2, owner_unit := 0,
                     target_driver := 1, target_unit := 0 },
              some empty_lock) := by
  decide

/-- C13, amended.  Content of the lock error.  For a registered owner `A` and
a registered target `T`, whenever `driver_lock(A, u, T, v)` returns a lock
error `err`: if `T` has a lock array (the slot `lock_index(T, v)` exists),
`err.lock` references that slot of `T`; the slot has an owner, the incumbent,
and after the call it still reads as before (same owner, unit and tag) through
`err.lock`; and `err` names the denied party `(A, normalized u)` and the
target `(T, v)`.  If `T` has no lock array, `err` is the lock error carried by
the error its `lock_resources` callback returned. -/
theorem driver_lock_error_content (k : BusDevices) (drivers drivers2 : List driver_t)
    (A T : Nat) (od td : driver_t) (u v : Int) (flags : Nat) (tag : Option String)
    (err : driver_unit_lock_error_t)
    (hA : drivers[A]? = some od) (hT : drivers[T]? = some td)
    (hden : driver_lock k drivers A u T v flags tag = some (drivers2, some err)) :
    (∀ l, slot_at drivers T (lock_index k td v) = some l →
      err.lock = (T, (lock_index k td v).toNat) ∧
      0 ≤ lock_index k td v ∧
      (∃ incumbent, l.owner = some incumbent ∧
        ¬ (incumbent = A ∧ l.unit = lock_owner_unit od u)) ∧
      slot_at drivers2 err.lock.1 (err.lock.2 : Int) = some l ∧
      err.owner_driver = A ∧ err.owner_unit = lock_owner_unit od u ∧
      err.target_driver = T ∧ err.target_unit = v) ∧
    (td.lock = none →
      ∃ cb table error, td.lock_resources = some cb ∧
        cb v flags none (lock_table_of drivers) = (table, some error) ∧
        error.lock_error = some err) := by
  constructor
  · intro l hs
    obtain ⟨tl, htl, hi, hl⟩ := slot_at_eq_some hT hs
    cases ho : l.owner with
    | none =>
      rw [driver_lock_of_empty u flags tag hA hT htl hi hl ho] at hden
      simp at hden
    | some o =>
      by_cases hsame : o = A ∧ l.unit = lock_owner_unit od u
      · rw [driver_lock_of_same u flags tag hA hT htl hi hl (hsame.1 ▸ ho) hsame.2] at hden
        simp at hden
      · rw [driver_lock_of_other u flags tag hA hT htl hi hl ho hsame] at hden
        simp only [Option.some.injEq, Prod.mk.injEq] at hden
        obtain ⟨h2, herr⟩ := hden
        subst h2
        subst herr
        refine ⟨rfl, hi, ⟨o, rfl, hsame⟩, ?_, rfl, rfl, rfl, rfl⟩
        show slot_at _ T (((lock_index k td v).toNat : Nat) : Int) = some l
        rw [Int.toNat_of_nonneg hi, slot_at_unlock_all, hs, Option.map_some',
          unlock_matching_of_ne]
        rw [ho]
        intro h
        exact hsame ⟨Option.some.inj h.1, h.2⟩
  · intro hnone
    cases hcb : td.lock_resources with
    | none =>
      simp [driver_lock, hA, hT, hnone, hcb] at hden
    | some cb =>
      rcases hr : cb v flags none (lock_table_of drivers) with ⟨table, _ | error⟩
      · simp [driver_lock, hA, hT, hnone, hcb, hr] at hden
      · simp only [driver_lock, hA, hT, hnone, hcb, hr, Option.some.injEq,
          Prod.mk.injEq] at hden
        exact ⟨cb, table, error, rfl, hr, hden.2⟩

/-- C13 amended, at a concrete input: in `held_registry` the request of "spi"
(position 0) with owner unit 1 for "gpio" 2, held by "display" (position 4), is
denied; the error names the owner unit as `driver_lock` shifted it, 256.  In
`reentrant_registry` the error returned to "adc" for "wifi" unit 0 is the lock
error of the error the callback of "wifi" returned. -/
theorem driver_lock_error_content_witness :
    (∃ drivers2 err,
      driver_lock sample_bus held_registry 0 1 3 2 0 none = some (drivers2, some err) ∧
      err = { lock := (3, 2), owner_driver := 0, owner_unit := 256,
              target_driver := 3, target_unit := 2 } ∧
      slot_at drivers2 err.lock.1 (err.lock.2 : Int) = some ⟨some 4, 0, none⟩) ∧
    (∃ drivers2 err table error,
      driver_lock sample_bus reentrant_registry 0 0 2 0 0 none = some (drivers2, some err) ∧
      wifi_lock_resources 0 0 none (lock_table_of reentrant_registry) = (table, some error) ∧
      error.lock_error = some err) := by
  refine ⟨⟨driver_unlock_all held_registry 0 256,
    { lock := (3, 2), owner_driver := 0, owner_unit := 256,
      target_driver := 3, target_unit := 2 }, rfl, rfl, ?_⟩, ?_⟩
  · exact ((driver_lock_error_content sample_bus held_registry _ 0 3 _ _ 1 2 0 none
      _ rfl rfl rfl).1 ⟨some 4, 0, none⟩ (by decide)).2.2.2.1
  · obtain ⟨cb, table, error, hcb, hr, he⟩ :=
      (driver_lock_error_content sample_bus reentrant_registry _ 0 2 _ _ 0 0 0 none
        { lock := (1, 0), owner_driver := 2, owner_unit := 0,
          target_driver := 1, target_unit := 0 } rfl rfl rfl).2 rfl
    have hcb2 : wifi_lock_resources = cb := Option.some.inj hcb
    subst hcb2
    exact ⟨_, _, table, error, rfl, hr, he⟩

/-! ## The mutex discipline of `driver_lock`: C14 -/

theorem mtx_run_split (e : mtx_event) (pre post : List mtx_event) (h0 r : Bool)
    (h : mtx_run h0 (pre ++ e :: post) = some r) :
    ∃ h1 h2, mtx_run h0 pre = some h1 ∧ mtx_step h1 e = some h2 := by
  induction pre generalizing h0 with
  | nil =>
    simp only [List.nil_append, mtx_run] at h
    cases hs : mtx_step h0 e with
    | none => rw [hs] at h; cases h
    | some h2 => exact ⟨h0, h2, rfl, hs⟩
  | cons a pre ih =>
    simp only [List.cons_append, mtx_run] at h
    cases hs : mtx_step h0 a with
    | none => rw [hs] at h; cases h
    | some h1 =>
      rw [hs] at h
      obtain ⟨h2, h3, hr, hst⟩ := ih h1 h
      exact ⟨h2, h3, by simp only [mtx_run, hs]; exact hr, hst⟩

theorem mtx_free_before_call (e : mtx_event) (pre post : List mtx_event) (r : Bool)
    (he : e = mtx_event.call_lock_resources ∨ e = mtx_event.call_driver_unlock_all)
    (h : mtx_run false (pre ++ e :: post) = some r) :
    mtx_run false pre = some false := by
  obtain ⟨h1, h2, hpre, hstep⟩ := mtx_run_split e pre post false r h
  cases h1 with
  | false => exact hpre
  | true =>
    rcases he with he | he <;> subst he <;> simp [mtx_step] at hstep

theorem driver_lock_events_cases (k : BusDevices) (drivers : List driver_t) (A T : Nat)
    (u v : Int) (flags : Nat) (es : List mtx_event)
    (h : driver_lock_events k drivers A u T v flags = some es) :
    es = [mtx_event.mtx_lock mtx_holder.in_driver_lock,
          mtx_event.mtx_unlock mtx_holder.in_driver_lock] ∨
    es = [mtx_event.mtx_lock mtx_holder.in_driver_lock,
          mtx_event.mtx_unlock mtx_holder.in_driver_lock,
          mtx_event.call_lock_resources] ∨
    es = [mtx_event.mtx_lock mtx_holder.in_driver_lock,
          mtx_event.mtx_unlock mtx_holder.in_driver_lock,
          mtx_event.call_lock_resources,
          mtx_event.call_driver_unlock_all,
          mtx_event.mtx_lock mtx_holder.in_driver_unlock_all,
          mtx_event.mtx_unlock mtx_holder.in_driver_unlock_all] ∨
    es = [mtx_event.mtx_lock mtx_holder.in_driver_lock,
          mtx_event.mtx_unlock mtx_holder.in_driver_lock,
          mtx_event.call_driver_unlock_all,
          mtx_event.mtx_lock mtx_holder.in_driver_unlock_all,
          mtx_event.mtx_unlock mtx_holder.in_driver_unlock_all] := by
  unfold driver_lock_events at h
  split at h
  · simp only at h
    split at h
    · split at h
      · split at h
        · cases h; right; right; left; rfl
        · cases h; right; left; rfl
      · cases h; left; rfl
    · split at h
      · split at h
        · cases h
        · split at h
          · split at h
            · cases h; left; rfl
            · cases h; right; right; right; rfl
          · cases h; left; rfl
      · cases h
  · cases h

theorem driver_lock_events_isSome (k : BusDevices) (drivers : List driver_t) (A T : Nat)
    (u v : Int) (flags : Nat) (tag : Option String) :
    (driver_lock_events k drivers A u T v flags).isSome
      = (driver_lock k drivers A u T v flags tag).isSome := by
  cases hA : drivers[A]? with
  | none => simp [driver_lock_events, driver_lock, hA]
  | some od =>
    cases hT : drivers[T]? with
    | none => simp [driver_lock_events, driver_lock, hA, hT]
    | some td =>
      cases hl : td.lock with
      | none =>
        cases hcb : td.lock_resources with
        | none => simp [driver_lock_events, driver_lock, hA, hT, hl, hcb]
        | some cb =>
          rcases hr : cb v flags none (lock_table_of drivers) with ⟨table, _ | error⟩ <;>
            simp [driver_lock_events, driver_lock, hA, hT, hl, hcb, hr]
      | some tl =>
        by_cases hi : 0 ≤ lock_index k td v
        · cases hs : tl[(lock_index k td v).toNat]? with
          | none => simp [driver_lock_events, driver_lock, hA, hT, hl, hi, hs]
          | some l =>
            cases ho : l.owner with
            | none => simp [driver_lock_events, driver_lock, hA, hT, hl, hi, hs, ho]
            | some o =>
              by_cases hsame : o = A ∧ l.unit = lock_owner_unit od u
              · simp [driver_lock_events, driver_lock, hA, hT, hl, hi, hs, ho, hsame]
              · simp only [driver_lock_events, driver_lock, hA, hT, hl, hi, hs, ho,
                  if_true, if_neg hsame, Option.isSome_some]
        · simp [driver_lock_events, driver_lock, hA, hT, hl, hi]

/-- C14. Lock-scope discipline of `driver_lock`.  With `driver_mtx` as explicit
state (`mtx_run`, starting free), on every path on which `driver_lock` returns:
the first event is the `mtx_lock` of `driver_lock`; `driver_lock` takes the
mutex once and releases it once; the whole sequence runs without taking a held
mutex or releasing a free one and ends with the mutex free; and the mutex is
free at the moment `lock_resources` is called and at the moment
`driver_unlock_all` is called (which takes and releases it itself). -/
theorem driver_lock_mutex_discipline (k : BusDevices) (drivers : List driver_t) (A T : Nat)
    (u v : Int) (flags : Nat) (tag : Option String) :
    (driver_lock_events k drivers A u T v flags).isSome
      = (driver_lock k drivers A u T v flags tag).isSome ∧
    ∀ es, driver_lock_events k drivers A u T v flags = some es →
      es.head? = some (mtx_event.mtx_lock mtx_holder.in_driver_lock) ∧
      es.count (mtx_event.mtx_lock mtx_holder.in_driver_lock) = 1 ∧
      es.count (mtx_event.mtx_unlock mtx_holder.in_driver_lock) = 1 ∧
      mtx_run false es = some false ∧
      (∀ pre post, es = pre ++ mtx_event.call_lock_resources :: post →
        mtx_run false pre = some false) ∧
      (∀ pre post, es = pre ++ mtx_event.call_driver_unlock_all :: post →
        mtx_run false pre = some false ∧
        post = driver_unlock_all_events) := by
  refine ⟨driver_lock_events_isSome k drivers A T u v flags tag, ?_⟩
  intro es hes
  have hrun : mtx_run false es = some false := by
    rcases driver_lock_events_cases k drivers A T u v flags es hes with h | h | h | h <;>
      subst h <;> rfl
  refine ⟨?_, ?_, ?_, hrun, ?_, ?_⟩
  · rcases driver_lock_events_cases k drivers A T u v flags es hes with h | h | h | h <;>
      subst h <;> rfl
  · rcases driver_lock_events_cases k drivers A T u v flags es hes with h | h | h | h <;>
      subst h <;> decide
  · rcases driver_lock_events_cases k drivers A T u v flags es hes with h | h | h | h <;>
      subst h <;> decide
  · intro pre post hsplit
    rw [hsplit] at hrun
    exact mtx_free_before_call _ pre post false (Or.inl rfl) hrun
  · intro pre post hsplit
    refine ⟨?_, ?_⟩
    · rw [hsplit] at hrun
      exact mtx_free_before_call _ pre post false (Or.inr rfl) hrun
    · rcases driver_lock_events_cases k drivers A T u v flags es hes with h | h | h | h <;>
        subst h <;>
        rcases pre with _ | ⟨p1, _ | ⟨p2, _ | ⟨p3, _ | ⟨p4, _ | ⟨p5, _ | ⟨p6, pre⟩⟩⟩⟩⟩⟩ <;>
        simp [driver_unlock_all_events] at hsplit ⊢ <;>
        simp [hsplit]

/-- C14 at a concrete input: in `callback_registry` the request of "adc" for
"wifi" unit 1 is refused by the callback; the events are the lock and unlock of
`driver_lock`, the callback, and the rollback by `driver_unlock_all`. -/
theorem driver_lock_mutex_discipline_witness :
    driver_lock_events sample_bus callback_registry 0 0 2 1 0
      = some [mtx_event.mtx_lock mtx_holder.in_driver_lock,
              mtx_event.mtx_unlock mtx_holder.in_driver_lock,
              mtx_event.call_lock_resources,
              mtx_event.call_driver_unlock_all,
              mtx_event.mtx_lock mtx_holder.in_driver_unlock_all,
              mtx_event.mtx_unlock mtx_holder.in_driver_unlock_all] ∧
    mtx_run false
        [mtx_event.mtx_lock mtx_holder.in_driver_lock,
         mtx_event.mtx_unlock mtx_holder.in_driver_lock,
         mtx_event.call_lock_resources,
         mtx_event.call_driver_unlock_all,
         mtx_event.mtx_lock mtx_holder.in_driver_unlock_all,
         mtx_event.mtx_unlock mtx_holder.in_driver_unlock_all]
      = some false :=
  ⟨rfl, ((driver_lock_mutex_discipline sample_bus callback_registry 0 2 0 1 0 none).2
    _ rfl).2.2.2.1⟩

/-! ## The naming helper: C16 -/

theorem toString_int_of_nonneg (x : Int) (h : 0 ≤ x) : toString x = toString x.toNat := by
  cases x with
  | ofNat n => rfl
  | negSucc n => exact ((Int.negSucc_not_nonneg n).mp h).elim

theorem snprintf_of_short (size : Nat) (text : String) (h : text.length < size) :
    snprintf size text = text := by
  unfold snprintf
  have hlen : text.data.length ≤ size - 1 := by
    have : text.data.length = text.length := rfl
    omega
  rw [List.take_of_length_le hlen]

theorem to_uint8_bus (u : Int) :
    to_uint8 ((Int.land u 0xff00) >>> 8) = ((Int.land u 0xff00) >>> 8).toNat := by
  unfold to_uint8
  rw [int_land_ff00_shr]
  congr 1
  omega

theorem bus_nonneg (u : Int) : 0 ≤ (Int.land u 0xff00) >>> 8 := by
  rw [int_land_ff00_shr]
  omega

theorem driver_target_name_eq (d : driver_t) (u : Int) (tag : Option String) :
    driver_target_name d u tag
      = snprintf 40 (target_label d.name
          (if d.name = "spi" ∨ d.name = "i2c" then (Int.land u 0xff00) >>> 8 else u % 256)
          tag) := by
  have hm : (0 : Int) ≤ u % 256 := by omega
  have hunit : toString (if d.name = "spi" ∨ d.name = "i2c" then (Int.land u 0xff00) >>> 8
        else u % 256)
      = toString (if d.name = "spi" then to_uint8 ((Int.land u 0xff00) >>> 8)
          else if d.name = "i2c" then to_uint8 ((Int.land u 0xff00) >>> 8)
          else to_uint8 u) := by
    by_cases h1 : d.name = "spi"
    · rw [if_pos (Or.inl h1), if_pos h1, to_uint8_bus, toString_int_of_nonneg _ (bus_nonneg u)]
    · by_cases h2 : d.name = "i2c"
      · rw [if_pos (Or.inr h2), if_neg h1, if_pos h2, to_uint8_bus,
          toString_int_of_nonneg _ (bus_nonneg u)]
      · rw [if_neg (fun h => h.elim h1 h2), if_neg h1, if_neg h2,
          toString_int_of_nonneg _ hm]
        rfl
  unfold driver_target_name target_label
  cases tag with
  | none => simp only [hunit]
  | some t => simp only [hunit]

/-- C16, as stated, fails in two ways.  The unit is held in a `uint8_t`: for
"gpio" and unit 256 the label is "gpio0", not "gpio256".  And `snprintf` is
given the size 40: a label of 40 characters or more is cut to 39 characters. -/
theorem driver_target_name_truncates :
    driver_target_name (sample_driver "gpio" 0x04000000 (some 4)) 256 none = "gpio0" ∧
    target_label "gpio" (target_label_unit (sample_driver "gpio" 0x04000000 (some 4)) 256) none
      = "gpio256" ∧
    driver_target_name (sample_driver "gpio" 0x04000000 (some 4)) 1
        (some "0123456789012345678901234567890123456789")
      = "gpio1 (01234567890123456789012345678901" ∧
    target_label "gpio" (target_label_unit (sample_driver "gpio" 0x04000000 (some 4)) 1)
        (some "0123456789012345678901234567890123456789")
      = "gpio1 (0123456789012345678901234567890123456789)" := by
  refine ⟨by decide, by decide, by decide, by decide⟩

/-- C16, amended.  Function `driver_target_name` returns the first 39
characters of the label `name ++ decimal(unit)` (tag absent) or
`name ++ decimal(unit) ++ " (" ++ tag ++ ")"` (tag present), where `unit` is the
bus number `(target_unit & 0xff00) >> 8`, the unpacking `lock_index` uses, when
the target is "spi" or "i2c", and is `target_unit` modulo 256 for every other
driver.  So it returns the whole label of the specification whenever that
label is shorter than 40 characters and, for a driver other than "spi" and
"i2c", `0 ≤ target_unit ≤ 255`. -/
theorem driver_target_name_label (d : driver_t) (u : Int) (tag : Option String) :
    driver_target_name d u tag
      = snprintf 40 (target_label d.name
          (if d.name = "spi" ∨ d.name = "i2c" then (Int.land u 0xff00) >>> 8 else u % 256)
          tag) ∧
    ((d.name = "spi" ∨ d.name = "i2c" ∨ (0 ≤ u ∧ u ≤ 255)) →
      (target_label d.name (target_label_unit d u) tag).length < 40 →
      driver_target_name d u tag = target_label d.name (target_label_unit d u) tag) := by
  refine ⟨driver_target_name_eq d u tag, ?_⟩
  intro hu hlen
  have hunit : (if d.name = "spi" ∨ d.name = "i2c" then (Int.land u 0xff00) >>> 8
      else u % 256) = target_label_unit d u := by
    unfold target_label_unit
    by_cases hb : d.name = "spi" ∨ d.name = "i2c"
    · rw [if_pos hb, if_pos hb]
    · rw [if_neg hb, if_neg hb]
      have hr : 0 ≤ u ∧ u ≤ 255 := by
        rcases hu with h | h | h
        · exact absurd (Or.inl h) hb
        · exact absurd (Or.inr h) hb
        · exact h
      omega
  rw [driver_target_name_eq, hunit]
  exact snprintf_of_short 40 _ hlen

/-- C16 amended, at concrete inputs: "i2c" bus 1 device `ADS1115_ADDR1` with a
tag, and "gpio" 12 without one. -/
theorem driver_target_name_label_witness :
    driver_target_name (sample_driver "i2c" 0x02000000 (some 128)) 0x0148 (some "ads1115")
      = "i2c1 (ads1115)" ∧
    driver_target_name (sample_driver "gpio" 0x04000000 (some 4)) 12 none = "gpio12" :=
  ⟨((driver_target_name_label (sample_driver "i2c" 0x02000000 (some 128)) 0x0148
      (some "ads1115")).2 (Or.inr (Or.inl rfl)) (by decide)).trans (by decide),
   ((driver_target_name_label (sample_driver "gpio" 0x04000000 (some 4)) 12 none).2
      (Or.inr (Or.inr (by decide))) (by decide)).trans (by decide)⟩

/-! ## The slot invariant: C17 -/

theorem slot_at_of_getElem? {drivers : List driver_t} {n m : Nat} {d : driver_t}
    {tl : List driver_unit_lock_t} {l : driver_unit_lock_t}
    (hd : drivers[n]? = some d) (htl : d.lock = some tl) (hl : tl[m]? = some l) :
    slot_at drivers n (m : Int) = some l := by
  unfold slot_at
  rw [hd]
  simp only [htl]
  rw [if_pos (by omega)]
  simpa using hl

theorem table_ok_iff (drivers : List driver_t) :
    table_ok drivers = true ↔
      ∀ d i l, slot_at drivers d i = some l → lock_ok drivers.length l = true := by
  unfold table_ok
  rw [List.all_eq_true]
  constructor
  · intro h d i l hs
    cases hd : drivers[d]? with
    | none => simp [slot_at, hd] at hs
    | some drv =>
      obtain ⟨tl, htl, _, hl⟩ := slot_at_eq_some hd hs
      have hdrv := h drv (List.getElem?_mem hd)
      simp only [htl] at hdrv
      rw [List.all_eq_true] at hdrv
      exact hdrv l (List.getElem?_mem hl)
  · intro h drv hmem
    obtain ⟨n, hn⟩ := List.mem_iff_getElem?.mp hmem
    cases htl : drv.lock with
    | none => rfl
    | some tl =>
      simp only
      rw [List.all_eq_true]
      intro l hl
      obtain ⟨m, hm⟩ := List.mem_iff_getElem?.mp hl
      exact h n (m : Int) l (slot_at_of_getElem? hn htl hm)

theorem lock_ok_empty (n : Nat) : lock_ok n empty_lock = true := by
  simp [lock_ok, empty_lock]

theorem table_ok_of_all_empty (drivers : List driver_t) (h : all_empty drivers = true) :
    table_ok drivers = true := by
  unfold all_empty at h
  unfold table_ok
  rw [List.all_eq_true] at h ⊢
  intro d hd
  have hd2 := h d hd
  cases htl : d.lock with
  | none => rfl
  | some tl =>
    simp only [htl] at hd2
    simp only
    rw [List.all_eq_true] at hd2 ⊢
    intro l hl
    have := hd2 l hl
    simp only [decide_eq_true_eq] at this
    rw [this]
    exact lock_ok_empty _

theorem table_ok_unlock_all (drivers : List driver_t) (A : Nat) (u : Int)
    (h : table_ok drivers = true) : table_ok (driver_unlock_all drivers A u) = true := by
  rw [table_ok_iff] at h ⊢
  intro d i l hs
  have hlen : (driver_unlock_all drivers A u).length = drivers.length := by
    unfold driver_unlock_all
    rw [List.length_map]
  rw [hlen]
  rw [slot_at_unlock_all] at hs
  cases hs0 : slot_at drivers d i with
  | none => rw [hs0] at hs; cases hs
  | some l0 =>
    rw [hs0, Option.map_some'] at hs
    cases hs
    unfold unlock_matching
    by_cases hm : l0.owner = some A ∧ l0.unit = u
    · rw [if_pos hm]
      exact lock_ok_empty _
    · rw [if_neg hm]
      exact h d i l0 hs0

theorem table_ok_write_lock {drivers : List driver_t} {T : Nat} {td : driver_t}
    {tl : List driver_unit_lock_t} {idx : Nat} (l : driver_unit_lock_t)
    (hT : drivers[T]? = some td) (htl : td.lock = some tl) (hi : idx < tl.length)
    (hl : lock_ok drivers.length l = true) (h : table_ok drivers = true) :
    table_ok (write_lock drivers T td tl idx l) = true := by
  rw [table_ok_iff] at h ⊢
  intro d i l2 hs
  have hlen : (write_lock drivers T td tl idx l).length = drivers.length := by
    unfold write_lock
    rw [List.length_set]
  rw [hlen]
  by_cases he : (d, i) = (T, (idx : Int))
  · cases he
    rw [slot_at_write_lock_same drivers l hT hi] at hs
    cases hs
    exact hl
  · rw [slot_at_write_lock_other l hT htl d i he] at hs
    exact h d i l2 hs

theorem lock_table_ok_of (n : Nat) (drivers : List driver_t) :
    lock_table_ok n (lock_table_of drivers)
      = drivers.all (fun d =>
          match d.lock with
          | none => true
          | some target_lock => target_lock.all (lock_ok n)) := by
  induction drivers with
  | nil => rfl
  | cons d ds ih =>
    simp only [lock_table_ok, lock_table_of, List.map_cons, List.all_cons] at ih ⊢
    rw [ih]

theorem table_ok_eq (drivers : List driver_t) :
    table_ok drivers = lock_table_ok drivers.length (lock_table_of drivers) := by
  rw [lock_table_ok_of]
  rfl

theorem with_lock_table_length (drivers : List driver_t) (table : lock_table) :
    (with_lock_table drivers table).length = drivers.length := by
  induction drivers generalizing table with
  | nil => cases table <;> rfl
  | cons d ds ih =>
    cases table with
    | nil => rfl
    | cons t ts =>
      show (with_lock_table ds ts).length + 1 = ds.length + 1
      rw [ih]

theorem with_lock_table_ok (n : Nat) (drivers : List driver_t) (table : lock_table)
    (hd : lock_table_ok n (lock_table_of drivers) = true)
    (ht : lock_table_ok n table = true) :
    lock_table_ok n (lock_table_of (with_lock_table drivers table)) = true := by
  induction drivers generalizing table with
  | nil => cases table <;> rfl
  | cons d ds ih =>
    cases table with
    | nil => exact hd
    | cons t ts =>
      simp only [lock_table_ok, lock_table_of, with_lock_table, List.map_cons, List.all_cons,
        Bool.and_eq_true] at hd ht ⊢
      exact ⟨ht.1, ih ts hd.2 ht.2⟩

theorem table_ok_with_lock_table (drivers : List driver_t) (table : lock_table)
    (hok : table_ok drivers = true)
    (ht : lock_table_ok drivers.length table = true) :
    table_ok (with_lock_table drivers table) = true := by
  rw [table_ok_eq] at hok ⊢
  rw [with_lock_table_length]
  exact with_lock_table_ok _ drivers table hok ht

theorem descriptors_with_lock_table (drivers : List driver_t) (table : lock_table) :
    (with_lock_table drivers table).map descriptor_of = drivers.map descriptor_of := by
  induction drivers generalizing table with
  | nil => cases table <;> rfl
  | cons d ds ih =>
    cases table with
    | nil => rfl
    | cons t ts =>
      show descriptor_of { d with lock := t } :: (with_lock_table ds ts).map descriptor_of
        = descriptor_of d :: ds.map descriptor_of
      rw [ih]
      rfl

theorem descriptors_unlock_all (drivers : List driver_t) (A : Nat) (u : Int) :
    (driver_unlock_all drivers A u).map descriptor_of = drivers.map descriptor_of := by
  unfold driver_unlock_all
  rw [List.map_map]
  apply List.map_congr_left
  intro d _
  show descriptor_of (unlock_all_in A u d) = descriptor_of d
  unfold unlock_all_in
  cases d.lock <;> rfl

theorem descriptors_write_lock {drivers : List driver_t} {T : Nat} {td : driver_t}
    (tl : List driver_unit_lock_t) (idx : Nat) (l : driver_unit_lock_t)
    (hT : drivers[T]? = some td) :
    (write_lock drivers T td tl idx l).map descriptor_of = drivers.map descriptor_of := by
  have hlen : T < drivers.length := by
    rcases List.getElem?_eq_some.mp hT with ⟨h, _⟩
    exact h
  unfold write_lock
  apply List.ext_getElem?
  intro n
  rw [List.getElem?_map, List.getElem?_map]
  by_cases hn : T = n
  · subst hn
    rw [List.getElem?_set_self hlen, hT]
    rfl
  · rw [List.getElem?_set_ne hn]

theorem driver_lock_result_cases (k : BusDevices) (drivers drivers2 : List driver_t)
    (A T : Nat) (u v : Int) (flags : Nat) (tag : Option String)
    (r : Option driver_unit_lock_error_t)
    (h : driver_lock k drivers A u T v flags tag = some (drivers2, r)) :
    drivers2 = drivers ∨
    (∃ x, drivers2 = driver_unlock_all drivers A x) ∨
    (∃ td tl idx x, drivers[T]? = some td ∧ td.lock = some tl ∧ idx < tl.length ∧
      A < drivers.length ∧
      drivers2 = write_lock drivers T td tl idx { owner := some A, unit := x, tag := tag }) ∨
    (∃ td cb, drivers[T]? = some td ∧ td.lock = none ∧ td.lock_resources = some cb ∧
      (drivers2 = with_lock_table drivers (cb v flags none (lock_table_of drivers)).1 ∨
        ∃ x, drivers2 = driver_unlock_all
          (with_lock_table drivers (cb v flags none (lock_table_of drivers)).1) A x)) := by
  cases hA : drivers[A]? with
  | none => simp [driver_lock, hA] at h
  | some od =>
    have hAlen : A < drivers.length := by
      rcases List.getElem?_eq_some.mp hA with ⟨hh, _⟩
      exact hh
    cases hT : drivers[T]? with
    | none => simp [driver_lock, hA, hT] at h
    | some td =>
      cases hl : td.lock with
      | none =>
        cases hcb : td.lock_resources with
        | none =>
          simp only [driver_lock, hA, hT, hl, hcb, Option.some.injEq, Prod.mk.injEq] at h
          exact Or.inl h.1.symm
        | some cb =>
          right; right; right
          refine ⟨td, cb, rfl, hl, hcb, ?_⟩
          rcases hr : cb v flags none (lock_table_of drivers) with ⟨table, _ | error⟩
          · simp only [driver_lock, hA, hT, hl, hcb, hr, Option.some.injEq,
              Prod.mk.injEq] at h
            exact Or.inl h.1.symm
          · simp only [driver_lock, hA, hT, hl, hcb, hr, Option.some.injEq,
              Prod.mk.injEq] at h
            exact Or.inr ⟨_, h.1.symm⟩
      | some tl =>
        by_cases hi : 0 ≤ lock_index k td v
        · cases hs : tl[(lock_index k td v).toNat]? with
          | none => simp [driver_lock, hA, hT, hl, hi, hs] at h
          | some l =>
            have hlen : (lock_index k td v).toNat < tl.length := by
              rcases List.getElem?_eq_some.mp hs with ⟨hh, _⟩
              exact hh
            cases ho : l.owner with
            | none =>
              rw [driver_lock_of_empty u flags tag hA hT hl hi hs ho] at h
              simp only [Option.some.injEq, Prod.mk.injEq] at h
              exact Or.inr (Or.inr (Or.inl ⟨td, tl, _, _, rfl, hl, hlen, hAlen, h.1.symm⟩))
            | some o =>
              by_cases hsame : o = A ∧ l.unit = lock_owner_unit od u
              · rw [driver_lock_of_same u flags tag hA hT hl hi hs (hsame.1 ▸ ho)
                  hsame.2] at h
                simp only [Option.some.injEq, Prod.mk.injEq] at h
                exact Or.inl h.1.symm
              · rw [driver_lock_of_other u flags tag hA hT hl hi hs ho hsame] at h
                simp only [Option.some.injEq, Prod.mk.injEq] at h
                exact Or.inr (Or.inl ⟨_, h.1.symm⟩)
        · simp [driver_lock, hA, hT, hl, hi] at h

theorem driver_lock_descriptors (k : BusDevices) (drivers drivers2 : List driver_t)
    (A T : Nat) (u v : Int) (flags : Nat) (tag : Option String)
    (r : Option driver_unit_lock_error_t)
    (h : driver_lock k drivers A u T v flags tag = some (drivers2, r)) :
    drivers2.map descriptor_of = drivers.map descriptor_of := by
  rcases driver_lock_result_cases k drivers drivers2 A T u v flags tag r h with
    h1 | ⟨x, h1⟩ | ⟨td, tl, idx, x, hT, _, _, _, h1⟩ | ⟨td, cb, _, _, _, h1 | ⟨x, h1⟩⟩
  · rw [h1]
  · rw [h1, descriptors_unlock_all]
  · rw [h1, descriptors_write_lock tl idx _ hT]
  · rw [h1, descriptors_with_lock_table]
  · rw [h1, descriptors_unlock_all, descriptors_with_lock_table]

theorem driver_unlock_descriptors (k : BusDevices) (drivers drivers2 : List driver_t)
    (A T : Nat) (u v : Int) (h : driver_unlock k drivers A u T v = some drivers2) :
    drivers2.map descriptor_of = drivers.map descriptor_of := by
  unfold driver_unlock at h
  split at h
  · cases h
  · rename_i td hT
    split at h
    · cases h; rfl
    · rename_i tl htl
      simp only at h
      split at h
      · cases h
        exact descriptors_write_lock tl _ _ hT
      · cases h

theorem callbacks_ok_of_descriptors {drivers drivers2 : List driver_t}
    (hd : drivers2.map descriptor_of = drivers.map descriptor_of)
    (h : callbacks_ok drivers) : callbacks_ok drivers2 := by
  have hlen : drivers2.length = drivers.length := by
    have := congrArg List.length hd
    simpa using this
  intro d2 hmem cb hcb unit flags resources table htable
  have hm : descriptor_of d2 ∈ drivers.map descriptor_of := by
    rw [← hd]
    exact List.mem_map_of_mem descriptor_of hmem
  obtain ⟨d, hdmem, hdd⟩ := List.mem_map.mp hm
  have hcb2 : d.lock_resources = some cb := by
    have : (descriptor_of d).lock_resources = (descriptor_of d2).lock_resources := by
      rw [hdd]
    exact this.trans hcb
  rw [hlen] at htable ⊢
  exact h d hdmem cb hcb2 unit flags resources table htable

theorem table_ok_driver_lock (k : BusDevices) (drivers drivers2 : List driver_t)
    (A T : Nat) (u v : Int) (flags : Nat) (tag : Option String)
    (r : Option driver_unit_lock_error_t) (hok : table_ok drivers = true)
    (hcb : ∀ td cb, drivers[T]? = some td → td.lock = none → td.lock_resources = some cb →
      lock_table_ok drivers.length (cb v flags none (lock_table_of drivers)).1 = true)
    (h : driver_lock k drivers A u T v flags tag = some (drivers2, r)) :
    table_ok drivers2 = true := by
  rcases driver_lock_result_cases k drivers drivers2 A T u v flags tag r h with
    h1 | ⟨x, h1⟩ | ⟨td, tl, idx, x, hT, htl, hi, hA, h1⟩ |
    ⟨td, cb, hT, hl, hc, h1 | ⟨x, h1⟩⟩
  · rw [h1]; exact hok
  · rw [h1]; exact table_ok_unlock_all drivers A x hok
  · rw [h1]
    apply table_ok_write_lock _ hT htl hi _ hok
    simp [lock_ok, hA]
  · rw [h1]
    exact table_ok_with_lock_table drivers _ hok (hcb td cb hT hl hc)
  · rw [h1]
    exact table_ok_unlock_all _ A x
      (table_ok_with_lock_table drivers _ hok (hcb td cb hT hl hc))

theorem table_ok_driver_lock_of_callbacks (k : BusDevices) (drivers drivers2 : List driver_t)
    (A T : Nat) (u v : Int) (flags : Nat) (tag : Option String)
    (r : Option driver_unit_lock_error_t) (hok : table_ok drivers = true)
    (hcbs : callbacks_ok drivers)
    (h : driver_lock k drivers A u T v flags tag = some (drivers2, r)) :
    table_ok drivers2 = true := by
  apply table_ok_driver_lock k drivers drivers2 A T u v flags tag r hok _ h
  intro td cb hT _ hc
  apply hcbs td (List.getElem?_mem hT) cb hc
  rw [← table_ok_eq]
  exact hok

theorem table_ok_driver_unlock (k : BusDevices) (drivers drivers2 : List driver_t)
    (A T : Nat) (u v : Int) (hok : table_ok drivers = true)
    (h : driver_unlock k drivers A u T v = some drivers2) : table_ok drivers2 = true := by
  unfold driver_unlock at h
  split at h
  · cases h
  · rename_i td hT
    split at h
    · cases h; exact hok
    · rename_i tl htl
      simp only at h
      split at h
      · rename_i hi
        cases h
        exact table_ok_write_lock _ hT htl hi.2 (lock_ok_empty _) hok
      · cases h

theorem table_ok_reachable (k : BusDevices) (start s : List driver_t)
    (hstart : all_empty start = true) (hcbs : callbacks_ok start)
    (hs : reachable k start s) :
    table_ok s = true ∧ s.map descriptor_of = start.map descriptor_of := by
  induction hs with
  | start => exact ⟨table_ok_of_all_empty start hstart, rfl⟩
  | lock s s2 A u T v flags tag r _ h ih =>
    exact ⟨table_ok_driver_lock_of_callbacks k s s2 A T u v flags tag r ih.1
        (callbacks_ok_of_descriptors ih.2 hcbs) h,
      (driver_lock_descriptors k s s2 A T u v flags tag r h).trans ih.2⟩
  | unlock s s2 A u T v _ h ih =>
    exact ⟨table_ok_driver_unlock k s s2 A T u v ih.1 h,
      (driver_unlock_descriptors k s s2 A T u v h).trans ih.2⟩
  | unlock_all s A u _ ih =>
    exact ⟨table_ok_unlock_all s A u ih.1, (descriptors_unlock_all s A u).trans ih.2⟩

theorem wifi_lock_resources_ok (unit : Int) (flags : Nat) (resources : Option Nat)
    (table : lock_table) (h : lock_table_ok 3 table = true) :
    lock_table_ok 3 (wifi_lock_resources unit flags resources table).1 = true := by
  have hbase : table_ok (with_lock_table wifi_base table) = true :=
    table_ok_with_lock_table wifi_base table (by decide) h
  have hlen0 : (with_lock_table wifi_base table).length = 3 :=
    with_lock_table_length wifi_base table
  have hnocb : callbacks_ok (with_lock_table wifi_base table) := by
    apply callbacks_ok_of_descriptors (descriptors_with_lock_table wifi_base table)
    intro d hd cb hcb
    simp only [wifi_base, List.mem_cons, List.mem_singleton, List.not_mem_nil,
      or_false] at hd
    rcases hd with hd | hd | hd <;> subst hd <;> cases hcb
  unfold wifi_lock_resources
  cases hr : driver_lock sample_bus (with_lock_table wifi_base table) 2 0 1 unit flags none with
  | none => exact h
  | some p =>
    obtain ⟨drivers2, r⟩ := p
    have hok2 : table_ok drivers2 = true :=
      table_ok_driver_lock_of_callbacks sample_bus _ drivers2 2 1 0 unit flags none r hbase
        hnocb hr
    have hlen2 : drivers2.length = 3 := by
      have := congrArg List.length
        (driver_lock_descriptors sample_bus _ drivers2 2 1 0 unit flags none r hr)
      simp only [List.length_map] at this
      rw [this, hlen0]
    cases r with
    | none =>
      simp only
      rw [← hlen2, ← table_ok_eq]
      exact hok2
    | some lock_error =>
      simp only [driver_lock_error]
      have hok3 := table_ok_unlock_all drivers2 2 lock_error.owner_unit hok2
      rw [table_ok_eq] at hok3
      have hlen3 : (driver_unlock_all drivers2 2 lock_error.owner_unit).length = 3 := by
        unfold driver_unlock_all
        rw [List.length_map, hlen2]
      rw [hlen3] at hok3
      exact hok3

theorem reentrant_callbacks_ok : callbacks_ok reentrant_registry := by
  intro d hd cb hcb unit flags resources table htable
  have hd2 : d ∈ reentrant_registry := hd
  simp only [reentrant_registry, after_locks] at hd
  have hlen : reentrant_registry.length = 3 := by decide
  rw [hlen] at htable ⊢
  have hcases : cb = wifi_lock_resources := by
    obtain ⟨n, hn⟩ := List.mem_iff_getElem?.mp hd2
    have hn3 : n < 3 := by
      rcases List.getElem?_eq_some.mp hn with ⟨hh, _⟩
      rw [hlen] at hh
      exact hh
    have h0 : reentrant_registry[0]?.map (fun d => d.lock_resources) = some none := rfl
    have h1 : reentrant_registry[1]?.map (fun d => d.lock_resources) = some none := rfl
    have h2 : reentrant_registry[2]?.map (fun d => d.lock_resources)
        = some (some wifi_lock_resources) := rfl
    have hm : reentrant_registry[n]?.map (fun d => d.lock_resources) = some (some cb) := by
      rw [hn]
      exact congrArg some hcb
    rcases n with _ | _ | _ | n
    · rw [h0] at hm; cases hm
    · rw [h1] at hm; cases hm
    · rw [h2] at hm
      exact (Option.some.inj (Option.some.inj hm)).symm
    · omega
  subst hcases
  exact wifi_lock_resources_ok unit flags resources table htable

/-- C17. Empty-slot invariant.  The predicate `table_ok` (every slot with no
owner has `unit = 0` and no tag, and every owner is a registered descriptor)
holds in a table whose slots are all cleared, and is preserved by `driver_lock`
whatever it returns (granted, re-granted, denied with rollback, and the paths
of a target with no lock array, where the `lock_resources` callback it calls
writes the table: there the table the callback leaves is taken to satisfy the
invariant, as it does when the callback writes through `driver_lock`,
`driver_unlock` and `driver_unlock_all`), by `driver_unlock` and by
`driver_unlock_all`, for all arguments; so it holds in every state reached from
an all-cleared table, the callbacks preserving the invariant. -/
theorem table_ok_invariant (k : BusDevices) :
    (∀ drivers, all_empty drivers = true → table_ok drivers = true) ∧
    (∀ drivers drivers2 A u T v flags tag r, table_ok drivers = true →
      (∀ td cb, drivers[T]? = some td → td.lock = none → td.lock_resources = some cb →
        lock_table_ok drivers.length (cb v flags none (lock_table_of drivers)).1 = true) →
      driver_lock k drivers A u T v flags tag = some (drivers2, r) →
      table_ok drivers2 = true) ∧
    (∀ drivers drivers2 A u T v, table_ok drivers = true →
      driver_unlock k drivers A u T v = some drivers2 → table_ok drivers2 = true) ∧
    (∀ drivers A u, table_ok drivers = true →
      table_ok (driver_unlock_all drivers A u) = true) ∧
    (∀ start s, all_empty start = true → callbacks_ok start → reachable k start s →
      table_ok s = true) := by
  refine ⟨table_ok_of_all_empty, ?_, ?_, ?_, ?_⟩
  · intro drivers drivers2 A u T v flags tag r hok hcb h
    exact table_ok_driver_lock k drivers drivers2 A T u v flags tag r hok hcb h
  · intro drivers drivers2 A u T v hok h
    exact table_ok_driver_unlock k drivers drivers2 A T u v hok h
  · intro drivers A u hok
    exact table_ok_unlock_all drivers A u hok
  · intro start s hstart hcbs hs
    exact (table_ok_reachable k start s hstart hcbs hs).1

/-- C17 at concrete inputs: the cleared `sample_registry`; the state after the
rollback of "adc" in `held_registry`; and, in `reentrant_registry`, whose
callback locks a "gpio" pin through `driver_lock`, the state after the granted
request of "adc" for "wifi" unit 2. -/
theorem table_ok_invariant_witness :
    all_empty sample_registry = true ∧
    table_ok (driver_unlock_all held_registry 2 0) = true ∧
    (∃ drivers2 r,
      driver_lock sample_bus reentrant_registry 0 0 2 2 0 none = some (drivers2, r) ∧
      slot_at drivers2 1 2 = some ⟨some 2, 0, none⟩ ∧
      table_ok drivers2 = true) :=
  ⟨by decide,
   (table_ok_invariant sample_bus).2.2.2.1 held_registry 2 0 (by decide),
   ⟨_, _, rfl, by decide,
    (table_ok_invariant sample_bus).2.1 reentrant_registry _ 0 0 2 2 0 none _ (by decide)
      (fun td cb hT _ hc =>
        reentrant_callbacks_ok td (List.getElem?_mem hT) cb hc 2 0 none _ (by decide))
      rfl⟩⟩

/-! ## Round trip, message lookups and index range: C18 to C20 -/

/-- C18, as stated, fails in two ways.  For the "spi" driver (position 0) with
owner unit 1, `driver_lock` records the unit `1 << 8` and
`driver_unlock_all("spi", 1)` does not match it: "gpio" 0 stays held.  And
`driver_unlock_all` clears every slot of the owner: in `held_registry`, after
"adc" unit 0 locks the cleared "gpio" 3, `driver_unlock_all("adc", 0)` also
clears "gpio" 0, which "adc" held before, so the state before the acquire is
not restored. -/
theorem driver_lock_unlock_all_not_inverse :
    slot_at sample_registry 3 0 = some empty_lock ∧
    (driver_lock sample_bus sample_registry 0 1 3 0 0 none).map
        (fun r => (r.2, slot_at (driver_unlock_all r.1 0 1) 3 0))
      = some (none, some ⟨some 0, 256, none⟩) ∧
    slot_at held_registry 3 3 = some empty_lock ∧
    slot_at held_registry 3 0 = some ⟨some 2, 0, none⟩ ∧
    (driver_lock sample_bus held_registry 2 0 3 3 0 none).map
        (fun r => (r.2, slot_at (driver_unlock_all r.1 2 0) 3 3,
          slot_at (driver_unlock_all r.1 2 0) 3 0))
      = some (none, some empty_lock, some empty_lock) := by
  refine ⟨by decide, by decide, by decide, by decide, by decide⟩

theorem unlock_all_in_eq_self (A : Nat) (x : Int) (d : driver_t)
    (h : ∀ tl, d.lock = some tl → ∀ l, l ∈ tl → ¬ (l.owner = some A ∧ l.unit = x)) :
    unlock_all_in A x d = d := by
  unfold unlock_all_in
  cases htl : d.lock with
  | none => rfl
  | some tl =>
    have hmap : tl.map (unlock_matching A x) = tl := by
      conv => rhs; rw [← List.map_id tl]
      apply List.map_congr_left
      intro l hl
      exact unlock_matching_of_ne (h tl htl l hl)
    simp only
    rw [hmap, ← htl]

/-- C18, amended.  For a registered owner `A` and a target slot `T/v` that is
the cleared slot beforehand, `driver_lock(A, u, T, v)` is granted, and
`driver_unlock_all(A, u')`, called with the owner unit `u'` as `driver_lock`
recorded it (`u` itself for every owner other than "spi"), leaves the slot
`T/v` cleared again and every slot that was not recorded for `(A, u')` as it
was; the table state equals the state before the acquire when no slot was
recorded for `(A, u')` before the acquire. -/
theorem driver_lock_unlock_all_round_trip (k : BusDevices) (drivers : List driver_t)
    (A T : Nat) (od td : driver_t) (u v : Int) (flags : Nat) (tag : Option String)
    (hA : drivers[A]? = some od) (hT : drivers[T]? = some td)
    (hs : slot_at drivers T (lock_index k td v) = some empty_lock) :
    ∃ drivers1,
      driver_lock k drivers A u T v flags tag = some (drivers1, none) ∧
      (od.name ≠ "spi" → lock_owner_unit od u = u) ∧
      slot_at (driver_unlock_all drivers1 A (lock_owner_unit od u)) T (lock_index k td v)
        = some empty_lock ∧
      (∀ d i l, slot_at drivers d i = some l →
        ¬ (l.owner = some A ∧ l.unit = lock_owner_unit od u) →
        slot_at (driver_unlock_all drivers1 A (lock_owner_unit od u)) d i = some l) ∧
      ((∀ d i l, slot_at drivers d i = some l →
          ¬ (l.owner = some A ∧ l.unit = lock_owner_unit od u)) →
        driver_unlock_all drivers1 A (lock_owner_unit od u) = drivers) := by
  obtain ⟨tl, htl, hi, hl⟩ := slot_at_eq_some hT hs
  have hlen : (lock_index k td v).toNat < tl.length := by
    rcases List.getElem?_eq_some.mp hl with ⟨h, _⟩
    exact h
  have hTlen : T < drivers.length := by
    rcases List.getElem?_eq_some.mp hT with ⟨h, _⟩
    exact h
  have hslot := slot_at_write_lock_same drivers
    { owner := some A, unit := lock_owner_unit od u, tag := tag } hT hlen
  rw [Int.toNat_of_nonneg hi] at hslot
  have hclear : slot_at (driver_unlock_all
      (write_lock drivers T td tl (lock_index k td v).toNat
        { owner := some A, unit := lock_owner_unit od u, tag := tag })
      A (lock_owner_unit od u)) T (lock_index k td v) = some empty_lock := by
    rw [slot_at_unlock_all, hslot, Option.map_some']
    exact congrArg some (unlock_matching_of_eq rfl rfl)
  have hframe : ∀ d i l, slot_at drivers d i = some l →
      ¬ (l.owner = some A ∧ l.unit = lock_owner_unit od u) →
      slot_at (driver_unlock_all
        (write_lock drivers T td tl (lock_index k td v).toNat
          { owner := some A, unit := lock_owner_unit od u, tag := tag })
        A (lock_owner_unit od u)) d i = some l := by
    intro d i l hsl hne
    by_cases he : (d, i) = (T, lock_index k td v)
    · cases he
      rw [hs] at hsl
      cases hsl
      exact hclear
    · rw [slot_at_unlock_all, slot_at_write_lock_other _ hT htl d i
        (by rw [Int.toNat_of_nonneg hi]; exact he), hsl, Option.map_some',
        unlock_matching_of_ne hne]
  refine ⟨_, driver_lock_of_empty u flags tag hA hT htl hi hl rfl, ?_, hclear, hframe, ?_⟩
  · intro hn
    unfold lock_owner_unit
    rw [if_neg hn]
  · intro hnone
    have hnomatch : ∀ (n : Nat) (d : driver_t), drivers[n]? = some d →
        ∀ (tl2 : List driver_unit_lock_t), d.lock = some tl2 →
        ∀ (l : driver_unit_lock_t), l ∈ tl2 →
        ¬ (l.owner = some A ∧ l.unit = lock_owner_unit od u) := by
      intro n d hd tl2 htl2 l hmem
      obtain ⟨m, hm⟩ := List.mem_iff_getElem?.mp hmem
      exact hnone n (m : Int) l (slot_at_of_getElem? hd htl2 hm)
    unfold driver_unlock_all write_lock
    apply List.ext_getElem?
    intro n
    rw [List.getElem?_map]
    by_cases hn : T = n
    · subst hn
      rw [List.getElem?_set_self hTlen, hT, Option.map_some']
      congr 1
      unfold unlock_all_in
      simp only
      have hmap : (tl.set (lock_index k td v).toNat
          { owner := some A, unit := lock_owner_unit od u, tag := tag }).map
          (unlock_matching A (lock_owner_unit od u)) = tl := by
        apply List.ext_getElem?
        intro m
        rw [List.getElem?_map]
        by_cases hm : (lock_index k td v).toNat = m
        · subst hm
          rw [List.getElem?_set_self hlen, hl, Option.map_some']
          exact congrArg some (unlock_matching_of_eq rfl rfl)
        · rw [List.getElem?_set_ne hm]
          cases hlm : tl[m]? with
          | none => rfl
          | some l =>
            rw [Option.map_some']
            exact congrArg some
              (unlock_matching_of_ne (hnomatch T td hT tl htl l (List.getElem?_mem hlm)))
      rw [hmap, ← htl]
    · rw [List.getElem?_set_ne hn]
      cases hd : drivers[n]? with
      | none => rfl
      | some d =>
        rw [Option.map_some']
        exact congrArg some (unlock_all_in_eq_self A _ d (hnomatch n d hd))

/-- C18 amended, at a concrete input: in the cleared registry "adc" unit 0 locks
"gpio" 3 and `driver_unlock_all("adc", 0)` restores the cleared registry. -/
theorem driver_lock_unlock_all_round_trip_witness :
    ∃ drivers1,
      driver_lock sample_bus sample_registry 2 0 3 3 0 none = some (drivers1, none) ∧
      slot_at (driver_unlock_all drivers1 2 0) 3 3 = some empty_lock := by
  obtain ⟨drivers1, h, _, hclear, _, _⟩ :=
    driver_lock_unlock_all_round_trip sample_bus sample_registry 2 3 _ _ 0 3 0 none
      rfl rfl (by decide)
  exact ⟨drivers1, h, hclear⟩

/-- C19. The two message lookups agree.  Let `d`, at position `p`, be the first
registered descriptor with `exception_base = code & 0xFF000000`, and let
`error` be an error with `driver = d` and `exception = code`.  Then
`driver_get_err_msg(error)` is defined and equals
`driver_get_err_msg_by_exception(code)`, and both are the message of the first
row of the error table of `d`, among the rows before the closing `NULL` row,
with exactly that code, or absent. -/
theorem driver_get_err_msg_agree (drivers : List driver_t) (code p : Nat) (d : driver_t)
    (error : driver_error_t)
    (hd : drivers[p]? = some d) (hbase : d.exception_base = code &&& 0xFF000000)
    (hfirst : ∀ j, j < p → ∀ dj, drivers[j]? = some dj →
      dj.exception_base ≠ code &&& 0xFF000000)
    (hdrv : error.driver = some p) (hexc : error.exception = code) :
    driver_get_err_msg drivers error = some (driver_get_err_msg_by_exception drivers code) ∧
    driver_get_err_msg_by_exception drivers code =
      (match (error_rows d.error).find? (fun m => decide (m.exception = code)) with
       | some m => m.message
       | none => none) := by
  have hp : driver_get_by_exception_base drivers
      (code &&& 0b11111111000000000000000000000000) = some p := by
    unfold driver_get_by_exception_base
    rw [driver_get_by_exception_base_from_eq, findIdx?_first]
    refine ⟨⟨d, hd, by simpa using hbase⟩, ?_⟩
    intro j hj dj hdj
    simpa using hfirst j hj dj hdj
  have hby : driver_get_err_msg_by_exception drivers code = scan_messages code d.error := by
    unfold driver_get_err_msg_by_exception
    rw [hp]
    simp only [hd]
  refine ⟨?_, ?_⟩
  · unfold driver_get_err_msg
    rw [hdrv]
    simp only [hd]
    rw [hexc, hby]
  · rw [hby]
    exact scan_messages_rows code d.error

/-- C19 at a concrete input: `nack_registry` and code `0x10000002`. -/
theorem driver_get_err_msg_agree_witness :
    driver_get_err_msg nack_registry
        { type := driver_error_type.OPERATION, driver := some 0, exception := 0x10000002,
          msg := none, lock_error := none }
      = some (driver_get_err_msg_by_exception nack_registry 0x10000002) ∧
    driver_get_err_msg_by_exception nack_registry 0x10000002 = some "nack" :=
  ⟨(driver_get_err_msg_agree nack_registry 0x10000002 0 _
      { type := driver_error_type.OPERATION, driver := some 0, exception := 0x10000002,
        msg := none, lock_error := none }
      rfl (by decide) (fun j hj => absurd hj (Nat.not_lt_zero j)) rfl rfl).1,
   by decide⟩

theorem int_shr_8 (u : Int) : u >>> 8 = u / 256 := by
  cases u with
  | ofNat n =>
    show ((n >>> 8 : Nat) : Int) = (n : Int) / 256
    rw [Nat.shiftRight_eq_div_pow]
    norm_num
  | negSucc m =>
    show Int.negSucc (m >>> 8) = Int.negSucc m / 256
    rw [Nat.shiftRight_eq_div_pow, Int.negSucc_eq, Int.negSucc_eq]
    have h : ((m / 2 ^ 8 : Nat) : Int) = (m : Int) / 256 := by norm_num
    rw [h]
    omega

theorem int_land_shr_255 (u : Int) : Int.land (u >>> 8) 0xff = u / 256 % 256 := by
  rw [int_land_255, int_shr_8]

theorem driver_lock_isSome_of_index {k : BusDevices} {drivers : List driver_t} {A T : Nat}
    {od td : driver_t} {tl : List driver_unit_lock_t} {v : Int}
    (u : Int) (flags : Nat) (tag : Option String)
    (hA : drivers[A]? = some od) (hT : drivers[T]? = some td) (htl : td.lock = some tl)
    (hi : 0 ≤ lock_index k td v) (hlt : lock_index k td v < tl.length) :
    (driver_lock k drivers A u T v flags tag).isSome = true ∧
    (driver_unlock k drivers A u T v).isSome = true := by
  have hlen : (lock_index k td v).toNat < tl.length := by omega
  constructor
  · have hl := List.getElem?_eq_getElem hlen
    cases ho : (tl[(lock_index k td v).toNat]).owner with
    | none => rw [driver_lock_of_empty u flags tag hA hT htl hi hl ho]; rfl
    | some o =>
      by_cases hsame : o = A ∧ (tl[(lock_index k td v).toNat]).unit = lock_owner_unit od u
      · rw [driver_lock_of_same u flags tag hA hT htl hi hl (hsame.1 ▸ ho) hsame.2]; rfl
      · rw [driver_lock_of_other u flags tag hA hT htl hi hl ho hsame]; rfl
  · simp only [driver_unlock, hT, htl]
    rw [if_pos ⟨hi, hlen⟩]
    rfl

/-- C20. The slot index stays inside the lock array.  For a target named "spi"
or "i2c", with `D` the matching devices-per-bus constant and a lock array of
`B * D` slots, every unit with bus `(unit >> 8) & 0xff < B` and device
`unit & 0xff < D` gives `0 ≤ lock_index < B * D`; for a target with any other
name and a lock array of `N` slots, every unit with `0 ≤ unit < N` gives
`lock_index = unit < N`; and under either precondition, for a registered owner,
`driver_lock` and `driver_unlock` return a result: the slot they access lies
inside the array. -/
theorem lock_index_in_range (k : BusDevices) (td : driver_t)
    (tl : List driver_unit_lock_t) (htl : td.lock = some tl) :
    (∀ D B : Nat,
      ((td.name = "spi" ∧ D = k.SPI_BUS_DEVICES) ∨
        (td.name = "i2c" ∧ D = k.I2C_BUS_DEVICES)) → tl.length = B * D →
      ∀ unit : Int, Int.land (unit >>> 8) 0xff < B → Int.land unit 0xff < D →
        0 ≤ lock_index k td unit ∧ lock_index k td unit < (B : Int) * D) ∧
    (td.name ≠ "spi" → td.name ≠ "i2c" →
      ∀ unit : Int, 0 ≤ unit → unit < tl.length →
        lock_index k td unit = unit ∧ lock_index k td unit < tl.length) ∧
    (∀ (drivers : List driver_t) (A T : Nat) (od : driver_t) (u v : Int) (flags : Nat)
        (tag : Option String),
      drivers[A]? = some od → drivers[T]? = some td →
      ((∃ D B : Nat,
          ((td.name = "spi" ∧ D = k.SPI_BUS_DEVICES) ∨
            (td.name = "i2c" ∧ D = k.I2C_BUS_DEVICES)) ∧ tl.length = B * D ∧
          Int.land (v >>> 8) 0xff < B ∧ Int.land v 0xff < D) ∨
        (td.name ≠ "spi" ∧ td.name ≠ "i2c" ∧ 0 ≤ v ∧ v < tl.length)) →
      (driver_lock k drivers A u T v flags tag).isSome = true ∧
      (driver_unlock k drivers A u T v).isSome = true) := by
  have hbus : ∀ D B : Nat,
      ((td.name = "spi" ∧ D = k.SPI_BUS_DEVICES) ∨
        (td.name = "i2c" ∧ D = k.I2C_BUS_DEVICES)) →
      ∀ unit : Int, Int.land (unit >>> 8) 0xff < B → Int.land unit 0xff < D →
        0 ≤ lock_index k td unit ∧ lock_index k td unit < (B : Int) * D := by
    intro D B hstyle unit hb hdev
    rw [int_land_shr_255] at hb
    rw [int_land_255] at hdev
    rw [lock_index_bus k td D hstyle]
    have h1 : (0 : Int) ≤ unit / 256 % 256 := by omega
    have h2 : (0 : Int) ≤ unit % 256 := by omega
    have hD : (0 : Int) ≤ (D : Int) := by omega
    have h3 : (unit / 256 % 256 + 1) * (D : Int) ≤ (B : Int) * D :=
      Int.mul_le_mul_of_nonneg_right (by omega) hD
    have h4 : (0 : Int) ≤ unit / 256 % 256 * (D : Int) := Int.mul_nonneg h1 hD
    constructor
    · omega
    · have h5 : (unit / 256 % 256 + 1) * (D : Int) = unit / 256 % 256 * D + D := by ring
      omega
  refine ⟨fun D B hstyle _ => hbus D B hstyle, ?_, ?_⟩
  · intro h1 h2 unit h0 hlt
    rw [lock_index_flat k td unit h1 h2]
    exact ⟨rfl, hlt⟩
  · intro drivers A T od u v flags tag hA hT hpre
    have hrange : 0 ≤ lock_index k td v ∧ lock_index k td v < tl.length := by
      rcases hpre with ⟨D, B, hstyle, hcap, hb, hdev⟩ | ⟨h1, h2, h0, hlt⟩
      · have := hbus D B hstyle v hb hdev
        rw [hcap]
        push_cast
        exact this
      · rw [lock_index_flat k td v h1 h2]
        exact ⟨h0, hlt⟩
    exact driver_lock_isSome_of_index u flags tag hA hT htl hrange.1 hrange.2

/-- C20 at a concrete input: "i2c" in the cleared registry, with 128 devices per
bus and 128 slots (one bus), unit `(0 << 8) | ADS1115_ADDR1`. -/
theorem lock_index_in_range_witness :
    (driver_lock sample_bus sample_registry 2 0 1 72 0 none).isSome = true ∧
    (driver_unlock sample_bus sample_registry 2 0 1 72).isSome = true :=
  (lock_index_in_range sample_bus (sample_driver "i2c" 0x02000000 (some 128))
      (List.replicate 128 empty_lock) rfl).2.2 sample_registry 2 1 _ 0 72 0 none rfl rfl
    (Or.inl ⟨128, 1, Or.inr ⟨rfl, rfl⟩, by decide, by decide, by decide⟩)

/-! ## Two threads and one slot: C15 -/

theorem bool_eq_or_not (t i : Bool) : t = i ∨ t = !i := by
  cases t <;> cases i <;> simp

theorem getElem?_of_descriptors {drivers drivers2 : List driver_t}
    (h : drivers2.map descriptor_of = drivers.map descriptor_of) {n : Nat} {d : driver_t}
    (hd : drivers[n]? = some d) : ∃ d2, drivers2[n]? = some d2 ∧ d2.name = d.name := by
  have hn : (drivers2.map descriptor_of)[n]? = (drivers.map descriptor_of)[n]? := by rw [h]
  rw [List.getElem?_map, List.getElem?_map, hd] at hn
  cases hd2 : drivers2[n]? with
  | none => rw [hd2] at hn; cases hn
  | some d2 =>
    rw [hd2] at hn
    simp only [Option.map_some', Option.some.injEq] at hn
    have hname : (descriptor_of d2).name = (descriptor_of d).name := congrArg driver_t.name hn
    exact ⟨d2, rfl, hname⟩

theorem lock_index_congr (k : BusDevices) {d1 d2 : driver_t} (h : d1.name = d2.name)
    (u : Int) : lock_index k d1 u = lock_index k d2 u := by
  unfold lock_index
  rw [h]

theorem threads_inv_update {drivers : List driver_t} {calls : Bool → lock_call} {T : Nat}
    {index : Int} {od : Bool → driver_t} {l0 : driver_unit_lock_t}
    (s s2 : threads_state) (i : Bool) (p : thread_pc)
    (hpi : s2.pc i = p) (hpj : s2.pc (!i) = s.pc (!i))
    (hdesc : s2.drivers.map descriptor_of = drivers.map descriptor_of)
    (hslot : ∃ l, slot_at s2.drivers T index = some l)
    (hmtx : s2.mtx = true ↔
      (pc_in_section p = true ∨ pc_in_section (s.pc (!i)) = true))
    (hexcl : pc_in_section p = true → pc_in_section (s.pc (!i)) = false)
    (hwi : p = thread_pc.at_write →
      ∀ l, slot_at s2.drivers T index = some l → l.owner = none)
    (hwj : s.pc (!i) = thread_pc.at_write →
      ∀ l, slot_at s2.drivers T index = some l → l.owner = none)
    (hgi : pc_granted p = true → ∀ l, slot_at s2.drivers T index = some l →
      l.owner = some (calls i).owner_driver ∧
      l.unit = lock_owner_unit (od i) (calls i).owner_unit)
    (hgj : pc_granted (s.pc (!i)) = true → ∀ l, slot_at s2.drivers T index = some l →
      l.owner = some (calls (!i)).owner_driver ∧
      l.unit = lock_owner_unit (od (!i)) (calls (!i)).owner_unit)
    (hdi : l0.owner = none → pc_denied p = true → pc_granted (s.pc (!i)) = true)
    (hdj : l0.owner = none → pc_denied (s.pc (!i)) = true → pc_granted p = true)
    (hocc : l0.owner = none → ∀ l, slot_at s2.drivers T index = some l → l.owner ≠ none →
      pc_granted p = true ∨ pc_granted (s.pc (!i)) = true) :
    threads_inv drivers calls T index od l0 s2 := by
  refine ⟨hdesc, hslot, ?_, ?_, ?_, ?_, ?_, ?_⟩
  · rw [hmtx]
    constructor
    · rintro (h | h)
      · exact ⟨i, by rw [hpi]; exact h⟩
      · exact ⟨!i, by rw [hpj]; exact h⟩
    · rintro ⟨t, ht⟩
      rcases bool_eq_or_not t i with e | e <;> subst e
      · rw [hpi] at ht; exact Or.inl ht
      · rw [hpj] at ht; exact Or.inr ht
  · intro t ht
    rcases bool_eq_or_not t i with e | e <;> subst e
    · rw [hpi] at ht
      rw [hpj]
      exact hexcl ht
    · rw [hpj] at ht
      rw [Bool.not_not, hpi]
      cases hp : pc_in_section p with
      | false => rfl
      | true => rw [hexcl hp] at ht; cases ht
  · intro t ht
    rcases bool_eq_or_not t i with e | e <;> subst e
    · rw [hpi] at ht; exact hwi ht
    · rw [hpj] at ht; exact hwj ht
  · intro t ht
    rcases bool_eq_or_not t i with e | e <;> subst e
    · rw [hpi] at ht; exact hgi ht
    · rw [hpj] at ht; exact hgj ht
  · intro hl0 t ht
    rcases bool_eq_or_not t i with e | e <;> subst e
    · rw [hpi] at ht
      rw [hpj]
      exact hdi hl0 ht
    · rw [hpj] at ht
      rw [Bool.not_not, hpi]
      exact hdj hl0 ht
  · intro hl0 l hl hne
    rcases hocc hl0 l hl hne with h | h
    · exact ⟨i, by rw [hpi]; exact h⟩
    · exact ⟨!i, by rw [hpj]; exact h⟩

theorem threads_inv_start {k : BusDevices} {drivers : List driver_t}
    {calls : Bool → lock_call} {T : Nat} {td : driver_t} {index : Int}
    {od : Bool → driver_t} {l0 : driver_unit_lock_t}
    (h : same_slot_calls k drivers calls T td index od l0) :
    threads_inv drivers calls T index od l0 (threads_start drivers) := by
  refine ⟨rfl, ⟨l0, h.slot⟩, ?_, ?_, ?_, ?_, ?_, ?_⟩
  · simp [threads_start, pc_in_section]
  · intro t ht
    simp [threads_start, pc_in_section] at ht
  · intro t ht
    simp [threads_start] at ht
  · intro t ht
    simp [threads_start, pc_granted] at ht
  · intro _ t ht
    simp [threads_start, pc_denied] at ht
  · intro hl0 l hl hne
    have hs : slot_at drivers T index = some l := hl
    rw [h.slot] at hs
    cases hs
    exact absurd hl0 hne

theorem distinct_calls {k : BusDevices} {drivers : List driver_t}
    {calls : Bool → lock_call} {T : Nat} {td : driver_t} {index : Int}
    {od : Bool → driver_t} {l0 : driver_unit_lock_t}
    (h : same_slot_calls k drivers calls T td index od l0) (i : Bool) :
    ¬ ((calls i).owner_driver = (calls (!i)).owner_driver ∧
      lock_owner_unit (od i) (calls i).owner_unit
        = lock_owner_unit (od (!i)) (calls (!i)).owner_unit) := by
  intro hc
  cases i
  · exact h.distinct hc
  · exact h.distinct ⟨hc.1.symm, hc.2.symm⟩

theorem mtx_released {m : Bool} {p q : thread_pc} (hm : m = false)
    (hp : pc_in_section p = false) (hq : pc_in_section q = false) :
    m = true ↔ (pc_in_section p = true ∨ pc_in_section q = true) := by
  rw [hm, hp, hq]
  simp

/-- Every step of either thread under the mutex rule keeps `threads_inv`. -/
theorem threads_inv_step {k : BusDevices} {drivers : List driver_t}
    {calls : Bool → lock_call} {T : Nat} {td : driver_t} {index : Int}
    {od : Bool → driver_t} {l0 : driver_unit_lock_t}
    (h : same_slot_calls k drivers calls T td index od l0) (s : threads_state) (i : Bool)
    (hinv : threads_inv drivers calls T index od l0 s) :
    threads_inv drivers calls T index od l0 (threads_step true k calls s i) := by
  obtain ⟨odi, hodi, hodn⟩ := getElem?_of_descriptors hinv.descriptors (h.owner i)
  obtain ⟨tdc, htdc, htdn⟩ := getElem?_of_descriptors hinv.descriptors h.descriptor
  obtain ⟨l, hl⟩ := hinv.slot
  have hidx : lock_index k tdc (calls i).target_unit = index :=
    (lock_index_congr k htdn _).trans (h.index_eq i)
  have hnu : lock_owner_unit odi (calls i).owner_unit
      = lock_owner_unit (od i) (calls i).owner_unit := lock_owner_unit_congr hodn _
  have htg : (calls i).target_driver = T := h.target i
  have hnn : ∀ x : Bool, (!(!x)) = x := fun x => Bool.not_not x
  have hpj : ∀ (d : List driver_t) (m : Bool) (p : thread_pc),
      (({ drivers := d, mtx := m, pc := fun x => if x = i then p else s.pc x } :
        threads_state).pc (!i)) = s.pc (!i) := by
    intro d m p
    cases i <;> rfl
  have hpi : ∀ (d : List driver_t) (m : Bool) (p : thread_pc),
      (({ drivers := d, mtx := m, pc := fun x => if x = i then p else s.pc x } :
        threads_state).pc i) = p := by
    intro d m p
    simp
  have hgi0 := hinv.granted i
  have hdi0 := hinv.denied
  have hdj0 : l0.owner = none → pc_denied (s.pc (!i)) = true → pc_granted (s.pc i) = true := by
    intro hl0 hq
    have := hinv.denied hl0 (!i) hq
    rw [hnn] at this
    exact this
  have hocc0 : l0.owner = none → ∀ l, slot_at s.drivers T index = some l → l.owner ≠ none →
      pc_granted (s.pc i) = true ∨ pc_granted (s.pc (!i)) = true := by
    intro hl0 l1 hl1 hne
    obtain ⟨t, ht⟩ := hinv.occupied hl0 l1 hl1 hne
    rcases bool_eq_or_not t i with e | e <;> subst e
    · exact Or.inl ht
    · exact Or.inr ht
  have hsec : pc_in_section (s.pc i) = true → s.mtx = true ∧
      pc_in_section (s.pc (!i)) = false := fun hs =>
    ⟨hinv.mtx_held.mpr ⟨i, hs⟩, hinv.exclusive i hs⟩
  have hfree : s.mtx = false → pc_in_section (s.pc (!i)) = false := by
    intro hm
    cases hq : pc_in_section (s.pc (!i)) with
    | false => rfl
    | true =>
      have := hinv.mtx_held.mpr ⟨!i, hq⟩
      rw [hm] at this
      cases this
  cases hpc : s.pc i with
  | at_entry =>
    rw [hpc] at hdj0 hocc0
    cases hm : s.mtx with
    | true =>
      have : threads_step true k calls s i = s := by
        simp [threads_step, thread_step, hpc, hm]
      rw [this]
      exact hinv
    | false =>
      have hstep : threads_step true k calls s i
          = { drivers := s.drivers, mtx := true,
              pc := fun x => if x = i then thread_pc.at_test else s.pc x } := by
        simp [threads_step, thread_step, hpc, hm]
      rw [hstep]
      refine threads_inv_update s _ i thread_pc.at_test (hpi _ _ _) (hpj _ _ _)
        hinv.descriptors hinv.slot ?_ ?_ ?_ ?_ ?_ ?_ ?_ ?_ ?_
      · simp [pc_in_section]
      · intro _; exact hfree hm
      · intro hc; cases hc
      · exact hinv.free_at_write (!i)
      · intro hc; simp [pc_granted] at hc
      · exact hinv.granted (!i)
      · intro _ hc; simp [pc_denied] at hc
      · intro hl0 hq
        have := hdj0 hl0 hq
        simp [pc_granted] at this
      · intro hl0 l1 hl1 hne
        rcases hocc0 hl0 l1 hl1 hne with hg | hg
        · simp [pc_granted] at hg
        · exact Or.inr hg
  | at_test =>
    rw [hpc] at hdj0 hocc0 hsec
    obtain ⟨hm, hq⟩ := hsec rfl
    have hsl : slot_at s.drivers (calls i).target_driver
        (lock_index k tdc (calls i).target_unit) = some l := by
      rw [htg, hidx]; exact hl
    cases ho : l.owner with
    | none =>
      have hstep : threads_step true k calls s i
          = { drivers := s.drivers, mtx := s.mtx,
              pc := fun x => if x = i then thread_pc.at_write else s.pc x } := by
        simp only [threads_step, thread_step, hpc, hodi, htg, htdc]
        rw [← htg, hsl]
        simp only [ho]
      rw [hstep]
      refine threads_inv_update s _ i thread_pc.at_write (hpi _ _ _) (hpj _ _ _)
        hinv.descriptors hinv.slot ?_ ?_ ?_ ?_ ?_ ?_ ?_ ?_ ?_
      · simp [pc_in_section, hm]
      · intro _; exact hq
      · intro _ l1 hl1
        have e : slot_at s.drivers T index = some l1 := hl1
        rw [hl] at e; cases e; exact ho
      · exact hinv.free_at_write (!i)
      · intro hc; simp [pc_granted] at hc
      · exact hinv.granted (!i)
      · intro _ hc; simp [pc_denied] at hc
      · intro hl0 hq2
        have := hdj0 hl0 hq2
        simp [pc_granted] at this
      · intro hl0 l1 hl1 hne
        have e : slot_at s.drivers T index = some l1 := hl1
        rw [hl] at e; cases e
        exact absurd ho hne
    | some o =>
      by_cases hsame : o = (calls i).owner_driver ∧
          l.unit = lock_owner_unit odi (calls i).owner_unit
      · have hstep : threads_step true k calls s i
            = { drivers := s.drivers, mtx := s.mtx,
                pc := fun x => if x = i then thread_pc.at_unlock true else s.pc x } := by
          simp only [threads_step, thread_step, hpc, hodi, htg, htdc]
          rw [← htg, hsl]
          simp only [ho, if_pos hsame]
        rw [hstep]
        refine threads_inv_update s _ i (thread_pc.at_unlock true) (hpi _ _ _) (hpj _ _ _)
          hinv.descriptors hinv.slot ?_ ?_ ?_ ?_ ?_ ?_ ?_ ?_ ?_
        · simp [pc_in_section, hm]
        · intro _; exact hq
        · intro hc; cases hc
        · exact hinv.free_at_write (!i)
        · intro _ l1 hl1
          have e : slot_at s.drivers T index = some l1 := hl1
          rw [hl] at e; cases e
          exact ⟨by rw [ho, hsame.1], by rw [hsame.2, hnu]⟩
        · exact hinv.granted (!i)
        · intro _ hc; simp [pc_denied] at hc
        · intro _ _; rfl
        · intro _ _ _ _; exact Or.inl rfl
      · have hstep : threads_step true k calls s i
            = { drivers := s.drivers, mtx := s.mtx,
                pc := fun x => if x = i then thread_pc.at_unlock false else s.pc x } := by
          simp only [threads_step, thread_step, hpc, hodi, htg, htdc]
          rw [← htg, hsl]
          simp only [ho, if_neg hsame]
        rw [hstep]
        refine threads_inv_update s _ i (thread_pc.at_unlock false) (hpi _ _ _) (hpj _ _ _)
          hinv.descriptors hinv.slot ?_ ?_ ?_ ?_ ?_ ?_ ?_ ?_ ?_
        · simp [pc_in_section, hm]
        · intro _; exact hq
        · intro hc; cases hc
        · exact hinv.free_at_write (!i)
        · intro hc; simp [pc_granted] at hc
        · exact hinv.granted (!i)
        · intro hl0 _
          rcases hocc0 hl0 l hl (by rw [ho]; simp) with hg | hg
          · simp [pc_granted] at hg
          · exact hg
        · intro hl0 hq2
          have := hdj0 hl0 hq2
          simp [pc_granted] at this
        · intro hl0 l1 hl1 hne
          rcases hocc0 hl0 l1 hl1 hne with hg | hg
          · simp [pc_granted] at hg
          · exact Or.inr hg
  | at_write =>
    rw [hpc] at hdj0 hocc0 hsec hgi0
    obtain ⟨hm, hq⟩ := hsec rfl
    obtain ⟨tl, htl, hi0, hget⟩ := slot_at_eq_some htdc hl
    have hlt : index.toNat < tl.length := (List.getElem?_eq_some.mp hget).1
    have hcast : ((index.toNat : Nat) : Int) = index := Int.toNat_of_nonneg hi0
    have hfree0 : l.owner = none := hinv.free_at_write i hpc l hl
    have hstep : threads_step true k calls s i
        = { drivers := write_lock s.drivers T tdc tl index.toNat
              { owner := some (calls i).owner_driver,
                unit := lock_owner_unit odi (calls i).owner_unit, tag := (calls i).tag },
            mtx := s.mtx,
            pc := fun x => if x = i then thread_pc.at_unlock true else s.pc x } := by
      simp only [threads_step, thread_step, hpc, hodi, htg, htdc, htl, hidx]
      rw [if_pos ⟨hi0, hlt⟩]
    have hnew : slot_at (write_lock s.drivers T tdc tl index.toNat
          { owner := some (calls i).owner_driver,
            unit := lock_owner_unit odi (calls i).owner_unit, tag := (calls i).tag }) T index
        = some { owner := some (calls i).owner_driver,
                 unit := lock_owner_unit odi (calls i).owner_unit, tag := (calls i).tag } := by
      have := slot_at_write_lock_same s.drivers
        ({ owner := some (calls i).owner_driver,
           unit := lock_owner_unit odi (calls i).owner_unit, tag := (calls i).tag } :
          driver_unit_lock_t) htdc hlt
      rw [hcast] at this
      exact this
    rw [hstep]
    refine threads_inv_update s _ i (thread_pc.at_unlock true) (hpi _ _ _) (hpj _ _ _)
      ((descriptors_write_lock tl _ _ htdc).trans hinv.descriptors) ⟨_, hnew⟩
      ?_ ?_ ?_ ?_ ?_ ?_ ?_ ?_ ?_
    · simp [pc_in_section, hm]
    · intro _; exact hq
    · intro hc; cases hc
    · intro hc
      rw [hc] at hq
      simp [pc_in_section] at hq
    · intro _ l1 hl1
      have e : slot_at _ T index = some l1 := hl1
      rw [hnew] at e
      cases e
      exact ⟨rfl, hnu⟩
    · intro hg
      have := (hinv.granted (!i) hg l hl).1
      rw [hfree0] at this
      cases this
    · intro _ hc; simp [pc_denied] at hc
    · intro _ _; rfl
    · intro _ _ _ _; exact Or.inl rfl
  | at_unlock g =>
    rw [hpc] at hdj0 hocc0 hsec hgi0
    obtain ⟨hm, hq⟩ := hsec rfl
    have hdi1 := hinv.denied
    cases g with
    | true =>
      have hstep : threads_step true k calls s i
          = { drivers := s.drivers, mtx := false,
              pc := fun x => if x = i then thread_pc.returned true else s.pc x } := by
        simp [threads_step, thread_step, hpc]
      rw [hstep]
      refine threads_inv_update s _ i (thread_pc.returned true) (hpi _ _ _) (hpj _ _ _)
        hinv.descriptors hinv.slot ?_ ?_ ?_ ?_ ?_ ?_ ?_ ?_ ?_
      · exact mtx_released rfl rfl hq
      · intro hc; simp [pc_in_section] at hc
      · intro hc; cases hc
      · exact hinv.free_at_write (!i)
      · intro _; exact hgi0 rfl
      · exact hinv.granted (!i)
      · intro _ hc; simp [pc_denied] at hc
      · intro _ _; rfl
      · intro _ _ _ _; exact Or.inl rfl
    | false =>
      have hstep : threads_step true k calls s i
          = { drivers := s.drivers, mtx := false,
              pc := fun x => if x = i then thread_pc.at_rollback else s.pc x } := by
        simp [threads_step, thread_step, hpc]
      rw [hstep]
      refine threads_inv_update s _ i thread_pc.at_rollback (hpi _ _ _) (hpj _ _ _)
        hinv.descriptors hinv.slot ?_ ?_ ?_ ?_ ?_ ?_ ?_ ?_ ?_
      · exact mtx_released rfl rfl hq
      · intro hc; simp [pc_in_section] at hc
      · intro hc; cases hc
      · exact hinv.free_at_write (!i)
      · intro hc; simp [pc_granted] at hc
      · exact hinv.granted (!i)
      · intro hl0 _
        exact hdi1 hl0 i (by rw [hpc]; rfl)
      · intro hl0 hq2
        have := hdj0 hl0 hq2
        simp [pc_granted] at this
      · intro hl0 l1 hl1 hne
        rcases hocc0 hl0 l1 hl1 hne with hg | hg
        · simp [pc_granted] at hg
        · exact Or.inr hg
  | at_rollback =>
    rw [hpc] at hdj0 hocc0
    have hdi1 := hinv.denied
    cases hm : s.mtx with
    | true =>
      have : threads_step true k calls s i = s := by
        simp [threads_step, thread_step, hpc, hm]
      rw [this]
      exact hinv
    | false =>
      have hstep : threads_step true k calls s i
          = { drivers := s.drivers, mtx := true,
              pc := fun x => if x = i then thread_pc.at_scan else s.pc x } := by
        simp [threads_step, thread_step, hpc, hm]
      rw [hstep]
      refine threads_inv_update s _ i thread_pc.at_scan (hpi _ _ _) (hpj _ _ _)
        hinv.descriptors hinv.slot ?_ ?_ ?_ ?_ ?_ ?_ ?_ ?_ ?_
      · simp [pc_in_section]
      · intro _; exact hfree hm
      · intro hc; cases hc
      · exact hinv.free_at_write (!i)
      · intro hc; simp [pc_granted] at hc
      · exact hinv.granted (!i)
      · intro hl0 _
        exact hdi1 hl0 i (by rw [hpc]; rfl)
      · intro hl0 hq2
        have := hdj0 hl0 hq2
        simp [pc_granted] at this
      · intro hl0 l1 hl1 hne
        rcases hocc0 hl0 l1 hl1 hne with hg | hg
        · simp [pc_granted] at hg
        · exact Or.inr hg
  | at_scan =>
    rw [hpc] at hdj0 hocc0 hsec
    obtain ⟨hm, hq⟩ := hsec rfl
    have hdi1 := hinv.denied
    have hstep : threads_step true k calls s i
        = { drivers := driver_unlock_all s.drivers (calls i).owner_driver
              (lock_owner_unit odi (calls i).owner_unit),
            mtx := s.mtx,
            pc := fun x => if x = i then thread_pc.at_rollback_unlock else s.pc x } := by
      simp [threads_step, thread_step, hpc, hodi]
    have hnew : ∀ l1, slot_at (driver_unlock_all s.drivers (calls i).owner_driver
          (lock_owner_unit odi (calls i).owner_unit)) T index = some l1 →
        l1 = unlock_matching (calls i).owner_driver
          (lock_owner_unit odi (calls i).owner_unit) l := by
      intro l1 hl1
      rw [slot_at_unlock_all, hl] at hl1
      simp only [Option.map_some', Option.some.injEq] at hl1
      exact hl1.symm
    rw [hstep]
    refine threads_inv_update s _ i thread_pc.at_rollback_unlock (hpi _ _ _) (hpj _ _ _)
      ((descriptors_unlock_all _ _ _).trans hinv.descriptors)
      ⟨unlock_matching (calls i).owner_driver (lock_owner_unit odi (calls i).owner_unit) l,
        by rw [slot_at_unlock_all, hl]; rfl⟩
      ?_ ?_ ?_ ?_ ?_ ?_ ?_ ?_ ?_
    · simp [pc_in_section, hm]
    · intro _; exact hq
    · intro hc; cases hc
    · intro hc
      rw [hc] at hq
      simp [pc_in_section] at hq
    · intro hc; simp [pc_granted] at hc
    · intro hg l1 hl1
      have hold := hinv.granted (!i) hg l hl
      have hkeep : unlock_matching (calls i).owner_driver
          (lock_owner_unit odi (calls i).owner_unit) l = l := by
        apply unlock_matching_of_ne
        rintro ⟨ho, hu⟩
        rw [hold.1] at ho
        rw [hold.2, hnu] at hu
        exact distinct_calls h i ⟨(Option.some.inj ho).symm, hu.symm⟩
      rw [hnew l1 hl1, hkeep]
      exact hold
    · intro hl0 _
      exact hdi1 hl0 i (by rw [hpc]; rfl)
    · intro hl0 hq2
      have := hdj0 hl0 hq2
      simp [pc_granted] at this
    · intro hl0 l1 hl1 hne
      have hne0 : l.owner ≠ none := by
        intro hc
        apply hne
        rw [hnew l1 hl1]
        unfold unlock_matching
        split
        · rfl
        · exact hc
      rcases hocc0 hl0 l hl hne0 with hg | hg
      · simp [pc_granted] at hg
      · exact Or.inr hg
  | at_rollback_unlock =>
    rw [hpc] at hdj0 hocc0 hsec
    obtain ⟨hm, hq⟩ := hsec rfl
    have hdi1 := hinv.denied
    have hstep : threads_step true k calls s i
        = { drivers := s.drivers, mtx := false,
            pc := fun x => if x = i then thread_pc.returned false else s.pc x } := by
      simp [threads_step, thread_step, hpc]
    rw [hstep]
    refine threads_inv_update s _ i (thread_pc.returned false) (hpi _ _ _) (hpj _ _ _)
      hinv.descriptors hinv.slot ?_ ?_ ?_ ?_ ?_ ?_ ?_ ?_ ?_
    · exact mtx_released rfl rfl hq
    · intro hc; simp [pc_in_section] at hc
    · intro hc; cases hc
    · exact hinv.free_at_write (!i)
    · intro hc; simp [pc_granted] at hc
    · exact hinv.granted (!i)
    · intro hl0 _
      exact hdi1 hl0 i (by rw [hpc]; rfl)
    · intro hl0 hq2
      have := hdj0 hl0 hq2
      simp [pc_granted] at this
    · intro hl0 l1 hl1 hne
      rcases hocc0 hl0 l1 hl1 hne with hg | hg
      · simp [pc_granted] at hg
      · exact Or.inr hg
  | returned g =>
    have : threads_step true k calls s i = s := by
      simp [threads_step, thread_step, hpc]
    rw [this]
    exact hinv

theorem threads_inv_run {k : BusDevices} {drivers : List driver_t}
    {calls : Bool → lock_call} {T : Nat} {td : driver_t} {index : Int}
    {od : Bool → driver_t} {l0 : driver_unit_lock_t}
    (h : same_slot_calls k drivers calls T td index od l0) (schedule : List Bool) :
    ∀ s, threads_inv drivers calls T index od l0 s →
      threads_inv drivers calls T index od l0 (threads_run true k calls s schedule) := by
  induction schedule with
  | nil => intro s hs; exact hs
  | cons t rest ih =>
    intro s hs
    exact ih _ (threads_inv_step h s t hs)

theorem threads_run_append (m : Bool) (k : BusDevices) (calls : Bool → lock_call)
    (a b : List Bool) :
    ∀ s, threads_run m k calls s (a ++ b) = threads_run m k calls (threads_run m k calls s a) b := by
  induction a with
  | nil => intro s; rfl
  | cons t rest ih => intro s; exact ih _

theorem pc_remaining_eq_zero {p : thread_pc} (h : pc_remaining p = 0) :
    ∃ g, p = thread_pc.returned g := by
  cases p with
  | returned g => exact ⟨g, rfl⟩
  | at_unlock g => cases g <;> simp [pc_remaining] at h
  | _ => simp [pc_remaining] at h

theorem pc_remaining_le (p : thread_pc) : pc_remaining p ≤ 6 := by
  cases p with
  | at_unlock g => cases g <;> decide
  | returned g => exact Nat.zero_le 6
  | _ => decide

theorem thread_step_enabled {k : BusDevices} {drivers : List driver_t}
    {calls : Bool → lock_call} {T : Nat} {td : driver_t} {index : Int}
    {od : Bool → driver_t} {l0 : driver_unit_lock_t}
    (h : same_slot_calls k drivers calls T td index od l0) (s : threads_state) (i : Bool)
    (hinv : threads_inv drivers calls T index od l0 s)
    (hen : pc_in_section (s.pc i) = true ∨ (s.mtx = false ∧ 0 < pc_remaining (s.pc i))) :
    ∃ d m p, thread_step true k (calls i) s.drivers s.mtx (s.pc i) = some (d, m, p) ∧
      pc_remaining p < pc_remaining (s.pc i) := by
  obtain ⟨odi, hodi, hodn⟩ := getElem?_of_descriptors hinv.descriptors (h.owner i)
  obtain ⟨tdc, htdc, htdn⟩ := getElem?_of_descriptors hinv.descriptors h.descriptor
  obtain ⟨l, hl⟩ := hinv.slot
  have hidx : lock_index k tdc (calls i).target_unit = index :=
    (lock_index_congr k htdn _).trans (h.index_eq i)
  have htg : (calls i).target_driver = T := h.target i
  have hmtx : pc_in_section (s.pc i) = false → s.mtx = false := by
    intro hc
    rcases hen with hs | hs
    · rw [hc] at hs; cases hs
    · exact hs.1
  cases hpc : s.pc i with
  | at_entry =>
    rw [hpc] at hmtx
    refine ⟨s.drivers, true, thread_pc.at_test, ?_, by decide⟩
    simp [thread_step, hmtx rfl]
  | at_test =>
    have hsl : slot_at s.drivers (calls i).target_driver
        (lock_index k tdc (calls i).target_unit) = some l := by
      rw [htg, hidx]; exact hl
    cases ho : l.owner with
    | none =>
      refine ⟨s.drivers, s.mtx, thread_pc.at_write, ?_, by decide⟩
      simp only [thread_step, hodi, htg, htdc]
      rw [← htg, hsl]
      simp only [ho]
    | some o =>
      by_cases hsame : o = (calls i).owner_driver ∧
          l.unit = lock_owner_unit odi (calls i).owner_unit
      · refine ⟨s.drivers, s.mtx, thread_pc.at_unlock true, ?_, by decide⟩
        simp only [thread_step, hodi, htg, htdc]
        rw [← htg, hsl]
        simp only [ho, if_pos hsame]
      · refine ⟨s.drivers, s.mtx, thread_pc.at_unlock false, ?_, by decide⟩
        simp only [thread_step, hodi, htg, htdc]
        rw [← htg, hsl]
        simp only [ho, if_neg hsame]
  | at_write =>
    obtain ⟨tl, htl, hi0, hget⟩ := slot_at_eq_some htdc hl
    have hlt : index.toNat < tl.length := (List.getElem?_eq_some.mp hget).1
    refine ⟨write_lock s.drivers T tdc tl index.toNat
      { owner := some (calls i).owner_driver,
        unit := lock_owner_unit odi (calls i).owner_unit, tag := (calls i).tag },
      s.mtx, thread_pc.at_unlock true, ?_, by decide⟩
    simp only [thread_step, hodi, htg, htdc, htl, hidx]
    rw [if_pos ⟨hi0, hlt⟩]
  | at_unlock g =>
    cases g with
    | true => exact ⟨s.drivers, false, thread_pc.returned true, rfl, by decide⟩
    | false => exact ⟨s.drivers, false, thread_pc.at_rollback, rfl, by decide⟩
  | at_rollback =>
    rw [hpc] at hmtx
    refine ⟨s.drivers, true, thread_pc.at_scan, ?_, by decide⟩
    simp [thread_step, hmtx rfl]
  | at_scan =>
    refine ⟨driver_unlock_all s.drivers (calls i).owner_driver
      (lock_owner_unit odi (calls i).owner_unit),
      s.mtx, thread_pc.at_rollback_unlock, ?_, by decide⟩
    simp only [thread_step, hodi]
  | at_rollback_unlock =>
    exact ⟨s.drivers, false, thread_pc.returned false, rfl, by decide⟩
  | returned g =>
    rw [hpc] at hen
    rcases hen with hs | hs
    · simp [pc_in_section] at hs
    · simp [pc_remaining] at hs

theorem threads_step_remaining {k : BusDevices} {calls : Bool → lock_call}
    (s : threads_state) (i : Bool) {d : List driver_t} {m : Bool} {p : thread_pc}
    (hstep : thread_step true k (calls i) s.drivers s.mtx (s.pc i) = some (d, m, p))
    (hlt : pc_remaining p < pc_remaining (s.pc i)) :
    threads_remaining (threads_step true k calls s i) < threads_remaining s := by
  unfold threads_step
  rw [hstep]
  unfold threads_remaining
  cases i
  · simp only [if_true, Bool.true_eq_false, if_false]
    omega
  · simp only [if_true, Bool.false_eq_true, if_false]
    omega

theorem threads_progress {k : BusDevices} {drivers : List driver_t}
    {calls : Bool → lock_call} {T : Nat} {td : driver_t} {index : Int}
    {od : Bool → driver_t} {l0 : driver_unit_lock_t}
    (h : same_slot_calls k drivers calls T td index od l0) (s : threads_state)
    (hinv : threads_inv drivers calls T index od l0 s) (hpos : 0 < threads_remaining s) :
    ∃ i, threads_remaining (threads_step true k calls s i) < threads_remaining s := by
  by_cases hsec : ∃ t, pc_in_section (s.pc t) = true
  · obtain ⟨t, ht⟩ := hsec
    obtain ⟨d, m, p, hstep, hlt⟩ := thread_step_enabled h s t hinv (Or.inl ht)
    exact ⟨t, threads_step_remaining s t hstep hlt⟩
  · have hm : s.mtx = false := by
      cases hmx : s.mtx with
      | false => rfl
      | true => exact absurd (hinv.mtx_held.mp hmx) hsec
    have hsome : ∃ t, 0 < pc_remaining (s.pc t) := by
      unfold threads_remaining at hpos
      by_cases h0 : 0 < pc_remaining (s.pc false)
      · exact ⟨false, h0⟩
      · exact ⟨true, by omega⟩
    obtain ⟨t, ht⟩ := hsome
    obtain ⟨d, m, p, hstep, hlt⟩ := thread_step_enabled h s t hinv (Or.inr ⟨hm, ht⟩)
    exact ⟨t, threads_step_remaining s t hstep hlt⟩

/-- From a state that satisfies `threads_inv` some schedule of at most `n`
steps makes both threads return, `n` bounding the steps they still make. -/
theorem threads_complete {k : BusDevices} {drivers : List driver_t}
    {calls : Bool → lock_call} {T : Nat} {td : driver_t} {index : Int}
    {od : Bool → driver_t} {l0 : driver_unit_lock_t}
    (h : same_slot_calls k drivers calls T td index od l0) (n : Nat) :
    ∀ s, threads_inv drivers calls T index od l0 s → threads_remaining s ≤ n →
      ∃ more : List Bool, more.length ≤ n ∧
        ∀ t, ∃ g, (threads_run true k calls s more).pc t = thread_pc.returned g := by
  induction n with
  | zero =>
    intro s _ hn
    refine ⟨[], Nat.le_refl _, ?_⟩
    intro t
    unfold threads_remaining at hn
    apply pc_remaining_eq_zero
    show pc_remaining (s.pc t) = 0
    cases t <;> omega
  | succ n ih =>
    intro s hinv hn
    by_cases hpos : 0 < threads_remaining s
    · obtain ⟨i, hi⟩ := threads_progress h s hinv hpos
      obtain ⟨more, hlen, hmore⟩ := ih _ (threads_inv_step h s i hinv) (by omega)
      exact ⟨i :: more, by simp only [List.length_cons]; omega, hmore⟩
    · obtain ⟨more, hlen, hmore⟩ := ih s hinv (by omega)
      exact ⟨more, by omega, hmore⟩

theorem threads_remaining_start (drivers : List driver_t) :
    threads_remaining (threads_start drivers) = 12 := rfl

/-- A thread that runs alone for six steps has returned, with the lock table
and the outcome of `driver_lock` on a target with a lock array. -/
theorem thread_alone_eq_driver_lock (k : BusDevices) (drivers : List driver_t)
    (calls : Bool → lock_call) (t : Bool) {od td : driver_t} {l : driver_unit_lock_t}
    (hA : drivers[(calls t).owner_driver]? = some od)
    (hT : drivers[(calls t).target_driver]? = some td)
    (hl : slot_at drivers (calls t).target_driver
      (lock_index k td (calls t).target_unit) = some l) (flags : Nat) :
    ∃ d res, driver_lock k drivers (calls t).owner_driver (calls t).owner_unit
        (calls t).target_driver (calls t).target_unit flags (calls t).tag = some (d, res) ∧
      (threads_run true k calls (threads_start drivers) (List.replicate 6 t)).drivers = d ∧
      (threads_run true k calls (threads_start drivers) (List.replicate 6 t)).pc t
        = thread_pc.returned res.isNone := by
  obtain ⟨tl, htl, hi0, hget⟩ := slot_at_eq_some hT hl
  have hlt : (lock_index k td (calls t).target_unit).toNat < tl.length :=
    (List.getElem?_eq_some.mp hget).1
  cases ho : l.owner with
  | none =>
    refine ⟨_, _, driver_lock_of_empty _ flags _ hA hT htl hi0 hget ho, ?_, ?_⟩
    · simp [List.replicate, threads_run, threads_step, thread_step, threads_start, hA, hT, hl,
        ho, htl, hi0, hlt]
    · simp [List.replicate, threads_run, threads_step, thread_step, threads_start, hA, hT, hl,
        ho, htl, hi0, hlt]
  | some o =>
    by_cases hsame : o = (calls t).owner_driver ∧
        l.unit = lock_owner_unit od (calls t).owner_unit
    · refine ⟨_, _, driver_lock_of_same _ flags _ hA hT htl hi0 hget
        (by rw [ho, hsame.1]) hsame.2, ?_, ?_⟩
      · simp [List.replicate, threads_run, threads_step, thread_step, threads_start, hA, hT, hl,
          ho, hsame]
      · simp [List.replicate, threads_run, threads_step, thread_step, threads_start, hA, hT, hl,
          ho, hsame]
    · refine ⟨_, _, driver_lock_of_other _ flags _ hA hT htl hi0 hget ho hsame, ?_, ?_⟩
      · simp [List.replicate, threads_run, threads_step, thread_step, threads_start, hA, hT, hl,
          ho, hsame]
      · simp [List.replicate, threads_run, threads_step, thread_step, threads_start, hA, hT, hl,
          ho, hsame]

/-- Without the mutex rule (`mtx_lock` never waits) the schedule in which both
threads test the free slot "gpio" 0 before either writes it grants both: the
write of "adc" is overwritten by the write of "display". -/
theorem double_grant_without_mutex :
    pc_granted ((threads_run false sample_bus sample_calls (threads_start sample_registry)
      [false, false, true, true, false, true, false, true]).pc false) = true ∧
    pc_granted ((threads_run false sample_bus sample_calls (threads_start sample_registry)
      [false, false, true, true, false, true, false, true]).pc true) = true ∧
    slot_at (threads_run false sample_bus sample_calls (threads_start sample_registry)
      [false, false, true, true, false, true, false, true]).drivers 3 0
      = some { owner := some 4, unit := 0, tag := some "display" } := by
  decide

/-- C15. Two threads call `driver_lock` for one slot of a lock array as distinct
(owner, normalized unit) pairs, each step of a thread atomic and `mtx_lock`
enabled only while the mutex is free.  After every schedule: the two threads
are not both granted; a granted thread is the owner the slot records, so its
write is neither overwritten nor rolled back by the other thread; a thread
between its `mtx_lock` and its `mtx_unlock` holds the mutex and the other
thread is outside that region, so the test of the slot and the write happen
under one hold; when the slot was free at the start and both threads have
returned, exactly one was granted; and the schedule extends, by at most twelve
steps, to one after which both threads have returned. -/
theorem driver_lock_mutual_exclusion (k : BusDevices) (drivers : List driver_t)
    (calls : Bool → lock_call) (T : Nat) (td : driver_t) (index : Int)
    (od : Bool → driver_t) (l0 : driver_unit_lock_t)
    (h : same_slot_calls k drivers calls T td index od l0) (schedule : List Bool) :
    ¬ (pc_granted ((threads_run true k calls (threads_start drivers) schedule).pc false) = true ∧
       pc_granted ((threads_run true k calls (threads_start drivers) schedule).pc true) = true) ∧
    (∀ t, pc_granted ((threads_run true k calls (threads_start drivers) schedule).pc t) = true →
      ∃ l, slot_at (threads_run true k calls (threads_start drivers) schedule).drivers T index
          = some l ∧
        l.owner = some (calls t).owner_driver ∧
        l.unit = lock_owner_unit (od t) (calls t).owner_unit) ∧
    (∀ t, pc_in_section ((threads_run true k calls (threads_start drivers) schedule).pc t) = true →
      (threads_run true k calls (threads_start drivers) schedule).mtx = true ∧
      pc_in_section ((threads_run true k calls (threads_start drivers) schedule).pc (!t))
        = false) ∧
    (l0.owner = none → ∀ g0 g1,
      (threads_run true k calls (threads_start drivers) schedule).pc false
        = thread_pc.returned g0 →
      (threads_run true k calls (threads_start drivers) schedule).pc true
        = thread_pc.returned g1 → g0 = !g1) ∧
    (∃ more : List Bool, more.length ≤ 12 ∧ ∀ t, ∃ g,
      (threads_run true k calls (threads_start drivers) (schedule ++ more)).pc t
        = thread_pc.returned g) := by
  have hinv := threads_inv_run h schedule _ (threads_inv_start h)
  generalize hs : threads_run true k calls (threads_start drivers) schedule = s at hinv
  obtain ⟨l, hl⟩ := hinv.slot
  have hnot : ¬ (pc_granted (s.pc false) = true ∧ pc_granted (s.pc true) = true) := by
    rintro ⟨hf, ht⟩
    have h1 := hinv.granted false hf l hl
    have h2 := hinv.granted true ht l hl
    apply h.distinct
    refine ⟨?_, ?_⟩
    · have := h1.1.symm.trans h2.1
      exact Option.some.inj this
    · exact h1.2.symm.trans h2.2
  refine ⟨hnot, ?_, ?_, ?_, ?_⟩
  · intro t ht
    exact ⟨l, hl, hinv.granted t ht l hl⟩
  · intro t ht
    exact ⟨hinv.mtx_held.mpr ⟨t, ht⟩, hinv.exclusive t ht⟩
  · intro hl0 g0 g1 hf ht
    cases g0 <;> cases g1
    · have := hinv.denied hl0 false (by rw [hf]; rfl)
      rw [show (!false) = true from rfl, ht] at this
      cases this
    · rfl
    · rfl
    · exact absurd ⟨by rw [hf]; rfl, by rw [ht]; rfl⟩ hnot
  · have hle : threads_remaining s ≤ 12 := by
      unfold threads_remaining
      have := pc_remaining_le (s.pc false)
      have := pc_remaining_le (s.pc true)
      omega
    obtain ⟨more, hlen, hmore⟩ := threads_complete h 12 s hinv hle
    refine ⟨more, hlen, ?_⟩
    intro t
    rw [threads_run_append, hs]
    exact hmore t

theorem driver_lock_mutual_exclusion_witness :
    same_slot_calls sample_bus sample_registry sample_calls 3
      (sample_driver "gpio" 0x04000000 (some 4)) 0
      (fun t => if t then sample_driver "display" 0x05000000 none
        else sample_driver "adc" 0x03000000 none) empty_lock ∧
    (threads_run true sample_bus sample_calls (threads_start sample_registry)
      [false, false, true, false, true, false, true, true, true, true, true, true]).pc false
      = thread_pc.returned true ∧
    (threads_run true sample_bus sample_calls (threads_start sample_registry)
      [false, false, true, false, true, false, true, true, true, true, true, true]).pc true
      = thread_pc.returned false ∧
    (∀ g0 g1,
      (threads_run true sample_bus sample_calls (threads_start sample_registry)
        [false, false, true, false, true, false, true, true, true, true, true, true]).pc false
        = thread_pc.returned g0 →
      (threads_run true sample_bus sample_calls (threads_start sample_registry)
        [false, false, true, false, true, false, true, true, true, true, true, true]).pc true
        = thread_pc.returned g1 → g0 = !g1) :=
  have hcalls : same_slot_calls sample_bus sample_registry sample_calls 3
      (sample_driver "gpio" 0x04000000 (some 4)) 0
      (fun t => if t then sample_driver "display" 0x05000000 none
        else sample_driver "adc" 0x03000000 none) empty_lock :=
    { owner := fun t => by cases t <;> rfl
      target := fun t => by cases t <;> rfl
      descriptor := rfl
      index_eq := fun t => by cases t <;> decide
      slot := by decide
      distinct := by decide }
  ⟨hcalls, by decide, by decide,
    (driver_lock_mutual_exclusion sample_bus sample_registry sample_calls 3 _ 0 _ empty_lock
      hcalls [false, false, true, false, true, false, true, true, true, true, true, true]).2.2.2.1
      rfl⟩

end LuaRTOS
